import Mathlib

/-!
Shallow embedding of the Matching-Algo reconciliation engine.

The Python source treats every record as a loosely-typed dict.  This file
embeds the record kinds as structures carrying exactly the fields the
matching logic reads, with `Option` wherever the code meaningfully handles
a missing value:

* money amounts are embedded as `ℚ` (the code works with 2-decimal floats
  and a fixed 0.01 tolerance; no claim in scope depends on float rounding);
* calendar timestamps are embedded as `ℚ`, measured in days, so that
  `datetime` subtraction becomes rational subtraction, `timedelta(days=n)`
  comparison becomes `≤ n`, `.days` of a timedelta becomes `Int.floor`,
  and `.date()` equality becomes equality of floors;
* a date field that is missing or unparsable is `none`: Python's
  `datetime.fromisoformat`/`strptime` raises there, and the embedding
  propagates the raised exception as an `Option.none` result of the
  enclosing operation (`try`/`except` blocks re-enter the `some` world);
* run-scoped "used"/"matched" id sets are insertion-ordered `List Nat`
  (only membership is observed), and the `used_checkbook_payment_ids`
  dict is an insertion-ordered association list.
-/

/-- Python truthiness of an optional integer field (`None` and `0` are falsy). -/
def truthyNat : Option Nat → Bool
  | none => false
  | some n => decide (n ≠ 0)

/-- ASCII lower-casing of one character, modelling `str.lower` on the
keyword/description data the matchers compare (all ASCII in the source). -/
def lowerChar (c : Char) : Char :=
  if decide ('A' ≤ c) && decide (c ≤ 'Z') then Char.ofNat (c.toNat + 32) else c

/-- `str.lower` on an ASCII string. -/
def lowerStr (s : String) : String := String.mk (s.toList.map lowerChar)

/-- Does the second list occur as a leading segment of the third argument list? -/
def charsStartsWith : List Char → List Char → Bool
  | [], _ => true
  | _ :: _, [] => false
  | a :: as, b :: bs => decide (a = b) && charsStartsWith as bs

/-- Does `needle` occur contiguously anywhere in the character list?
Models Python's `in` operator on strings. -/
def charsHasSub (needle : List Char) : List Char → Bool
  | [] => charsStartsWith needle []
  | c :: cs => charsStartsWith needle (c :: cs) || charsHasSub needle cs

/-- `needle in hay` for Python strings. -/
def strHasSub (hay needle : String) : Bool := charsHasSub needle.toList hay.toList

/-- `s.startswith(p)` for Python strings. -/
def strStartsWith (s p : String) : Bool := charsStartsWith p.toList s.toList

/-- Python's `min(xs, key=f)` over a nonempty list: the first element
attaining the minimal key (later elements replace only on a strictly
smaller key).  Returns `none` exactly on `[]`. -/
def firstMinBy {α : Type} (f : α → ℚ) : List α → Option α
  | [] => none
  | a :: rest =>
    match firstMinBy f rest with
    | none => some a
    | some b => if f b < f a then some b else some a

/-- `round(q, 2)`.  Python rounds floats half-to-even; every amount these
claims touch is an exact multiple of 0.01, where the two conventions agree. -/
def round2 (q : ℚ) : ℚ := (round (q * 100) : ℤ) / 100

/-- The `used_checkbook_payment_ids` dict (`cp_id -> pt_id`), embedded as an
insertion-ordered association list. -/
abbrev UsedMap := List (Nat × Nat)

/-- `k in used_map` (key membership). -/
def usedMapMem (m : UsedMap) (k : Nat) : Bool := m.any (fun e => decide (e.1 = k))

/-- `used_map[k]` as an `Option`. -/
def usedMapFind (m : UsedMap) (k : Nat) : Option Nat :=
  (m.find? (fun e => decide (e.1 = k))).map (fun e => e.2)

/-- `used_map[k] = v`: overwrite in place, else append (dicts preserve
insertion order). -/
def usedMapSet (m : UsedMap) (k v : Nat) : UsedMap :=
  if usedMapMem m k then m.map (fun e => if e.1 = k then (k, v) else e) else m ++ [(k, v)]

/-- Truthiness of an optional amount field (`None` and `0` are falsy). -/
def truthyAmount : Option ℚ → Bool
  | none => false
  | some q => decide (q ≠ 0)

/-- A platform (internal ledger) transaction: the dict fields read by the
matchers.  `related_bank_transaction` is the list of linked bank-record ids
(`[d.get('id') for d in ...]` — the code only reads the first element's id).
`from_bankaccount_id`/`to_bankaccount_id` are `pt['from']['bankaccount_id']`
and `pt['to']['bankaccount_id']`; the account-type strings are the nested
`Account_Type` fields. -/
structure PlatformTxn where
  id : Nat
  transaction_type : String
  amount : Option ℚ
  date : Option ℚ
  from_bankaccount_id : Option Nat
  to_bankaccount_id : Option Nat
  from_account_type : String
  to_account_type : String
  related_bank_transaction : List Nat
  added_by : Option Nat
  player_id : Option Nat
deriving DecidableEq, Repr

/-- A bank-observed transaction: the dict fields read by the matchers.
`transaction_link` is the nullable persisted link to a platform transaction. -/
structure BankTxn where
  id : Nat
  name : String
  amount : Option ℚ
  date : Option ℚ
  bankaccount_id : Option Nat
  transaction_link : Option Nat
deriving DecidableEq, Repr

/-- A checkbook (processor) payment.  `date` is the millisecond epoch
timestamp converted to days; `none` models a missing or zero (falsy)
timestamp, which the source skips via `if checkbook_timestamp:`. -/
structure CheckbookPayment where
  id : Nat
  amount : Option ℚ
  recipient : Option Nat
  direction : String
  description : String
  date : Option ℚ
deriving DecidableEq, Repr

/-- A scraped statement line (PayPal).  The fields are `Gross`, `Net`,
`Type` and `Transaction Date` (a `%Y-%m-%d` date, hence a whole day
number).  Lines with missing/unparsable fields are outside the embedding;
the claims in scope only concern well-formed scraped data. -/
structure ScrapedTxn where
  id : Nat
  gross : ℚ
  net : ℚ
  scraped_type : String
  transaction_date : ℚ
deriving DecidableEq, Repr

/-- The duplicate-grouping key of `_resolve_unmatched_duplicates`:
(`Date` day part, raw `Amount`, relevant `bankaccount_id`).  The day part
of the date string is embedded as the floor of the day-valued timestamp
(`none` for a missing date, mirroring the `''` key). -/
abbrev GroupKey := Option ℤ × Option ℚ × Option Nat

/-- One step of `defaultdict(list)` grouping: append to the existing key's
bucket, else append a fresh key (dicts preserve insertion order). -/
def insertGrouped (k : GroupKey) (pt : PlatformTxn) :
    List (GroupKey × List PlatformTxn) → List (GroupKey × List PlatformTxn)
  | [] => [(k, [pt])]
  | (k2, grp) :: rest =>
    if k2 = k then (k2, grp ++ [pt]) :: rest
    else (k2, grp) :: insertGrouped k pt rest

/-- `grouped_pts`: bucket the unmatched platform transactions by key. -/
def groupPtsBy (key : PlatformTxn → GroupKey) (pts : List PlatformTxn) :
    List (GroupKey × List PlatformTxn) :=
  pts.foldl (fun acc pt => insertGrouped (key pt) pt acc) []

/-- `duplicate_groups`: keep only buckets with more than one member. -/
def duplicateGroupsBy (key : PlatformTxn → GroupKey) (pts : List PlatformTxn) :
    List (GroupKey × List PlatformTxn) :=
  (groupPtsBy key pts).filter (fun g => decide (1 < g.2.length))

/-- Parse every group member's date (the `min(..., key=...)` call evaluates
the key, i.e. parses the date, of every member; any failure aborts). -/
def memberDates : List PlatformTxn → Option (List (PlatformTxn × ℚ))
  | [] => some []
  | pt :: rest =>
    match pt.date with
    | none => none
    | some d => (memberDates rest).map (fun l => (pt, d) :: l)

namespace Returned

/-! Embedding of `returned_transaction_matcher.py`
(`SimpleTransactionMatcher`).  `match_date` (wall-clock `datetime.now()`)
and the `Summary` statistics record are omitted: no claim concerns them. -/

/-- `RETURNED_KEYWORDS` from the source module. -/
def RETURNED_KEYWORDS : List String :=
  ["checkbook", "reel ventures", "rv enhanced wall", "individual"]

/-- `MatchCriteria` dataclass of the returned matcher. -/
structure MatchCriteria where
  amount_match : Bool
  date_match : Bool
  keyword_match : Bool
  user_match : Bool
  is_direct_match : Bool
deriving DecidableEq, Repr

/-- `Match` dataclass of the returned matcher (sans `match_date`). -/
structure RMatch where
  platform_transaction : PlatformTxn
  bank_transaction : BankTxn
  match_criteria : MatchCriteria
deriving DecidableEq, Repr

/-- `MatchResults` dataclass (sans `summary`). -/
structure MatchResults where
  matches_list : List RMatch
  unmatched_platform_transactions : List PlatformTxn
  unmatched_bank_transactions : List BankTxn
deriving DecidableEq, Repr

/-- `_preprocess_data`: filter of returned platform transactions. -/
def returnedPlatformTransactions (pts : List PlatformTxn) : List PlatformTxn :=
  pts.filter (fun pt => decide (pt.transaction_type = "returned"))

/-- `_preprocess_data`: one bank transaction's admission test — not already
linked, strictly positive amount, and name containing a returned keyword
(case-insensitively). -/
def isPotentialBankTransaction (returned_keywords : List String) (bt : BankTxn) : Bool :=
  !truthyNat bt.transaction_link &&
  decide (0 < bt.amount.getD 0) &&
  returned_keywords.any (fun kw => strHasSub (lowerStr bt.name) (lowerStr kw))

/-- `_preprocess_data`: the `_potential_bank_transactions` pool. -/
def potentialBankTransactions (kws : List String) (bts : List BankTxn) : List BankTxn :=
  bts.filter (isPotentialBankTransaction kws)

/-- `_is_amount_match`: `abs(platform_amount - bank_amount) <= 0.01`. -/
def isAmountMatch (platform_amount bank_amount : ℚ) : Bool :=
  decide (|platform_amount - bank_amount| ≤ 1/100)

/-- `_is_date_match`: `abs(platform_date - bank_date) <= timedelta(days=5)`. -/
def isDateMatch (platform_date bank_date : ℚ) : Bool :=
  decide (|platform_date - bank_date| ≤ 5)

/-- `_is_bank_account_match`: the platform `from` account id equals the bank
account id (Python `==`, so two missing ids also match). -/
def isBankAccountMatch (pt : PlatformTxn) (bt : BankTxn) : Bool :=
  decide (pt.from_bankaccount_id = bt.bankaccount_id)

/-- `bank_transactions_by_id = {bt['id']: bt ...}` followed by `.get(i)`:
for duplicate ids the last occurrence wins. -/
def bankTransactionsById (bts : List BankTxn) (i : Nat) : Option BankTxn :=
  bts.foldl (fun acc bt => if bt.id = i then some bt else acc) none

/-- The run-scoped accumulator of `match_returned_transactions`. -/
structure RunState where
  matches_list : List RMatch
  matched_bank_transaction_ids : List Nat
  matched_platform_transaction_ids : List Nat
deriving Repr

/-- The criteria record built for a Step-1 direct match. -/
def directCriteria : MatchCriteria :=
  { amount_match := true, date_match := true, keyword_match := false,
    user_match := true, is_direct_match := true }

/-- The criteria record built for a Step-2/Step-3 discovered match. -/
def discoveredCriteria : MatchCriteria :=
  { amount_match := true, date_match := true, keyword_match := true,
    user_match := true, is_direct_match := false }

/-- Step 1 of `match_returned_transactions`: honor pre-existing
`related_bank_transaction` links.  Every linked platform transaction is
marked processed; a match is appended when the linked bank record is found
and its own `transaction_link` is not truthy. -/
def step1 (bts : List BankTxn) : List PlatformTxn → RunState → RunState
  | [], s => s
  | pt :: rest, s =>
    match pt.related_bank_transaction with
    | [] => step1 bts rest s
    | related_bt_id :: _ =>
      let s1 : RunState :=
        { s with matched_platform_transaction_ids :=
            s.matched_platform_transaction_ids ++ [pt.id] }
      match bankTransactionsById bts related_bt_id with
      | none => step1 bts rest s1
      | some bank_transaction =>
        if truthyNat bank_transaction.transaction_link then step1 bts rest s1
        else
          step1 bts rest
            { s1 with
              matches_list := s1.matches_list ++
                [{ platform_transaction := pt, bank_transaction := bank_transaction,
                   match_criteria := directCriteria }],
              matched_bank_transaction_ids :=
                s1.matched_bank_transaction_ids ++ [bank_transaction.id] }

/-- Step 2 inner loop: scan `_potential_bank_transactions` for the first
candidate passing all three criteria, skipping already-matched ids.
`some none` = the loop ended without a match; `none` = a bank date failed
to parse (the run aborts). -/
def findCandidate (pt : PlatformTxn) (platform_amount platform_date : ℚ)
    (matched_bank_ids : List Nat) : List BankTxn → Option (Option BankTxn)
  | [] => some none
  | bt :: rest =>
    if bt.id ∈ matched_bank_ids then
      findCandidate pt platform_amount platform_date matched_bank_ids rest
    else
      match bt.date with
      | none => none
      | some bank_date =>
        if isAmountMatch platform_amount (bt.amount.getD 0) &&
           isDateMatch platform_date bank_date &&
           isBankAccountMatch pt bt then
          some (some bt)
        else findCandidate pt platform_amount platform_date matched_bank_ids rest

/-- Step 2 of `match_returned_transactions`: fresh discovery in input
order; the first passing candidate is consumed. -/
def step2 (pots : List BankTxn) : List PlatformTxn → RunState → Option RunState
  | [], s => some s
  | pt :: rest, s =>
    if pt.id ∈ s.matched_platform_transaction_ids then step2 pots rest s
    else
      match pt.date with
      | none => none
      | some platform_date =>
        let platform_amount := pt.amount.getD 0
        match findCandidate pt platform_amount platform_date
            s.matched_bank_transaction_ids pots with
        | none => none
        | some none => step2 pots rest s
        | some (some bt) =>
          step2 pots rest
            { s with
              matches_list := s.matches_list ++
                [{ platform_transaction := pt, bank_transaction := bt,
                   match_criteria := discoveredCriteria }],
              matched_bank_transaction_ids := s.matched_bank_transaction_ids ++ [bt.id],
              matched_platform_transaction_ids :=
                s.matched_platform_transaction_ids ++ [pt.id] }

/-- The grouping key of one platform transaction (the returned flavor keys
on the `from` side). -/
def groupKey (pt : PlatformTxn) : GroupKey :=
  (pt.date.map Int.floor, pt.amount, pt.from_bankaccount_id)

/-- Accumulator of `_resolve_unmatched_duplicates`. -/
structure ResolveState where
  new_matches : List RMatch
  newly_matched_pt_ids : List Nat
  newly_matched_bt_ids : List Nat
deriving Repr

/-- Candidate selection inside a fired duplicate group: prefer (when the
player id is truthy) the first member whose `Added_By` equals it, else the
member date-closest to the bank record (first minimum).  `some none` is the
(unreachable for nonempty groups) no-candidate outcome; `none` aborts. -/
def pickCandidate (player_id : Option Nat) (bank_date : ℚ)
    (duplicate_pts : List PlatformTxn) : Option (Option PlatformTxn) :=
  let player_added_pts :=
    if truthyNat player_id then
      duplicate_pts.filter (fun p => decide (p.added_by = player_id))
    else []
  match player_added_pts with
  | p :: _ => some (some p)
  | [] =>
    (memberDates duplicate_pts).map (fun l =>
      (firstMinBy (fun pd => |pd.2 - bank_date|) l).map (fun pd => pd.1))

/-- Inner loop of `_resolve_unmatched_duplicates`: try each duplicate group
against one bank record; on the first group that fires, append one match,
mark every group member's id and the bank id consumed, and stop (`break`). -/
def resolveGroupsForBt (player_id : Option Nat) (bt : BankTxn) (bank_date : ℚ) :
    List (GroupKey × List PlatformTxn) → ResolveState → Option ResolveState
  | [], s => some s
  | (_, duplicate_pts) :: rest, s =>
    if duplicate_pts.any (fun p => decide (p.id ∈ s.newly_matched_pt_ids)) then
      resolveGroupsForBt player_id bt bank_date rest s
    else
      match duplicate_pts with
      | [] => resolveGroupsForBt player_id bt bank_date rest s
      | ref_pt :: _ =>
        match ref_pt.date with
        | none => none
        | some ref_date =>
          if isAmountMatch (ref_pt.amount.getD 0) (bt.amount.getD 0) &&
             isDateMatch ref_date bank_date &&
             isBankAccountMatch ref_pt bt then
            match pickCandidate player_id bank_date duplicate_pts with
            | none => none
            | some none => resolveGroupsForBt player_id bt bank_date rest s
            | some (some candidate_pt) =>
              some { new_matches := s.new_matches ++
                       [{ platform_transaction := candidate_pt, bank_transaction := bt,
                          match_criteria := discoveredCriteria }],
                     newly_matched_pt_ids :=
                       s.newly_matched_pt_ids ++ duplicate_pts.map (fun p => p.id),
                     newly_matched_bt_ids := s.newly_matched_bt_ids ++ [bt.id] }
          else resolveGroupsForBt player_id bt bank_date rest s

/-- Outer loop of `_resolve_unmatched_duplicates` over the available bank
records. -/
def resolveLoop (player_id : Option Nat) (groups : List (GroupKey × List PlatformTxn)) :
    List BankTxn → ResolveState → Option ResolveState
  | [], s => some s
  | bt :: rest, s =>
    match bt.date with
    | none => none
    | some bank_date =>
      match resolveGroupsForBt player_id bt bank_date groups s with
      | none => none
      | some s2 => resolveLoop player_id groups rest s2

/-- `_resolve_unmatched_duplicates` of the returned matcher.  The player id
comes from the head of the full (unfiltered) platform-transaction list; the
`available_bts` filter against `newly_matched_bt_ids` is evaluated while
that set is still empty, exactly as in the source. -/
def resolveUnmatchedDuplicates (all_platform_transactions : List PlatformTxn)
    (unmatched_platform_transactions : List PlatformTxn)
    (unmatched_bank_transactions : List BankTxn) :
    Option (List RMatch × List Nat × List Nat) :=
  let dup := duplicateGroupsBy groupKey unmatched_platform_transactions
  if dup = [] then some ([], [], [])
  else
    let player_id : Option Nat :=
      match all_platform_transactions with
      | [] => none
      | pt :: _ => pt.player_id
    let available_bts :=
      unmatched_bank_transactions.filter (fun bt => decide (bt.id ∉ ([] : List Nat)))
    (resolveLoop player_id dup available_bts ⟨[], [], []⟩).map
      (fun s => (s.new_matches, s.newly_matched_pt_ids, s.newly_matched_bt_ids))

/-- `match_returned_transactions`: Step 1 (direct links), Step 2 (fresh
discovery), Step 3 (duplicate resolution), then the unmatched outputs.
`none` models the run aborting on an uncaught parse exception. -/
def matchReturnedTransactions (platform_transactions : List PlatformTxn)
    (bank_transactions : List BankTxn) (returned_keywords : List String) :
    Option MatchResults :=
  let returned_pts := returnedPlatformTransactions platform_transactions
  let potential_bts := potentialBankTransactions returned_keywords bank_transactions
  let s1 := step1 bank_transactions returned_pts ⟨[], [], []⟩
  match step2 potential_bts returned_pts s1 with
  | none => none
  | some s2 =>
    let unmatched_pts := returned_pts.filter
      (fun pt => decide (pt.id ∉ s2.matched_platform_transaction_ids))
    let unmatched_bts := potential_bts.filter
      (fun bt => decide (bt.id ∉ s2.matched_bank_transaction_ids))
    if unmatched_pts ≠ [] ∧ unmatched_bts ≠ [] then
      match resolveUnmatchedDuplicates platform_transactions unmatched_pts unmatched_bts with
      | none => none
      | some (new_matches, used_pt_ids, used_bt_ids) =>
        let s3 : RunState :=
          { matches_list := s2.matches_list ++ new_matches,
            matched_bank_transaction_ids :=
              s2.matched_bank_transaction_ids ++ used_bt_ids,
            matched_platform_transaction_ids :=
              s2.matched_platform_transaction_ids ++ used_pt_ids }
        some { matches_list := s3.matches_list,
               unmatched_platform_transactions := returned_pts.filter
                 (fun pt => decide (pt.id ∉ s3.matched_platform_transaction_ids)),
               unmatched_bank_transactions := potential_bts.filter
                 (fun bt => decide (bt.id ∉ s3.matched_bank_transaction_ids)) }
    else
      some { matches_list := s2.matches_list,
             unmatched_platform_transactions := unmatched_pts,
             unmatched_bank_transactions := unmatched_bts }

end Returned

namespace Received

/-! Embedding of `received_transaction_matcher.py`
(`SimpleReceivedTransactionMatcher`).  The constructor's HTTP fetch of
checkbook payments is modelled by supplying the fetched list as data (the
source's own test does the same by assigning `matcher.checkbook_payments`).
`match_date`, the `Summary` record and the write-only
`used_bank_transaction_ids` set (assigned in `__init__`, never read) are
omitted: no claim concerns them. -/

/-- `MatchCriteria` dataclass of the received matcher. -/
structure MatchCriteria where
  amount_match : Bool
  date_match : Bool
  checkbook_payment_exists : Bool
  recipient_match : Bool
  direction_match : Bool
  description_match : Bool
  user_match : Bool
  is_direct_match : Bool
deriving DecidableEq, Repr

/-- `Match` dataclass of the received matcher (sans `match_date`). -/
structure RecMatch where
  platform_transaction : PlatformTxn
  bank_transaction : BankTxn
  checkbook_payment : Option CheckbookPayment
  match_criteria : MatchCriteria
deriving DecidableEq, Repr

/-- `MatchResults` dataclass (sans `summary`). -/
structure MatchResults where
  matches_list : List RecMatch
  unmatched_platform_transactions : List PlatformTxn
  unmatched_bank_transactions : List BankTxn
  unmatched_checkbook_payments : List CheckbookPayment
deriving DecidableEq, Repr

/-- The matcher instance: the constructor inputs plus the persistent
`used_checkbook_payment_ids` map (`cp_id -> pt_id`). -/
structure Matcher where
  platform_transactions : List PlatformTxn
  bank_transactions : List BankTxn
  user_id : Nat
  checkbook_payments : List CheckbookPayment
  used_checkbook_payment_ids : UsedMap
deriving DecidableEq, Repr

/-- `_filter_potential_bank_transactions`: negative amount and link not
truthy. -/
def potentialBankTransactions (m : Matcher) : List BankTxn :=
  m.bank_transactions.filter
    (fun bt => decide (bt.amount.getD 0 < 0) && !truthyNat bt.transaction_link)

/-- `_preprocess_data`: the received platform transactions. -/
def receivedPlatformTransactions (m : Matcher) : List PlatformTxn :=
  m.platform_transactions.filter (fun pt => decide (pt.transaction_type = "received"))

/-- Description keyword `"fund"`. -/
def kwFund : String := "fund"

/-- Description keyword `"f"` (prefix test). -/
def kwF : String := "f"

/-- Description keyword `"initial deposit fee"`. -/
def kwInitialDepositFee : String := "initial deposit fee"

/-- The description test shared by `_is_valid_checkbook_payment_for_received`
and `_find_matching_checkbook_payment`: lower-cased description contains
`"fund"`, or starts with `"f"`, or contains `"initial deposit fee"`. -/
def descriptionAccepts (description : String) : Bool :=
  strHasSub (lowerStr description) kwFund ||
  strStartsWith (lowerStr description) kwF ||
  strHasSub (lowerStr description) kwInitialDepositFee

/-- `_is_valid_checkbook_payment_for_received`: truthy amount, truthy
recipient, direction `OUTGOING`, and the description test. -/
def isValidCheckbookPaymentForReceived (cp : CheckbookPayment) : Bool :=
  truthyAmount cp.amount &&
  truthyNat cp.recipient &&
  decide (cp.direction = "OUTGOING") &&
  descriptionAccepts cp.description

/-- `_preprocess_data`: the `_valid_checkbook_payments` pool. -/
def validCheckbookPayments (m : Matcher) : List CheckbookPayment :=
  m.checkbook_payments.filter isValidCheckbookPaymentForReceived

/-- The per-payment admission test of `_find_matching_checkbook_payment`'s
first loop: (not bypassing → unused), recipient equals the user, direction
`OUTGOING`, amount within 0.01 of the bank amount's absolute value,
description accepted, and a truthy timestamp within 9 days (777600
seconds) of the bank date. -/
def cpFilterAccepts (m : Matcher) (bypass_used_check : Bool)
    (bank_amount bank_date : ℚ) (cp : CheckbookPayment) : Bool :=
  (bypass_used_check || !usedMapMem m.used_checkbook_payment_ids cp.id) &&
  decide (cp.recipient = some m.user_id) &&
  decide (cp.direction = "OUTGOING") &&
  decide (|bank_amount - cp.amount.getD 0| ≤ 1/100) &&
  descriptionAccepts cp.description &&
  (match cp.date with
   | none => false
   | some checkbook_date => decide (|bank_date - checkbook_date| ≤ 9))

/-- `_find_matching_checkbook_payment`.  The outer `none` is a raised date
parse error; `some none` is "no matching payment".  Every element of
`matching_payments` carries a truthy timestamp (the admission test requires
one), so the tie-break loops below, which in the source skip falsy
timestamps, reduce to plain minima. -/
def findMatchingCheckbookPayment (m : Matcher) (bank_transaction : BankTxn)
    (platform_transaction : PlatformTxn) (bypass_used_check : Bool) :
    Option (Option CheckbookPayment) :=
  match bank_transaction.date, platform_transaction.date with
  | some bank_date, some platform_date =>
    let bank_amount := |bank_transaction.amount.getD 0|
    let matching_payments := (validCheckbookPayments m).filter
      (cpFilterAccepts m bypass_used_check bank_amount bank_date)
    match matching_payments with
    | [] => some none
    | [cp] => some (some cp)
    | _ =>
      let payments_to_consider :=
        if bypass_used_check then matching_payments
        else matching_payments.filter
          (fun cp => !usedMapMem m.used_checkbook_payment_ids cp.id)
      let same_date_payments := payments_to_consider.filter (fun cp =>
        match cp.date with
        | none => false
        | some checkbook_date => decide (Int.floor platform_date = Int.floor checkbook_date))
      let best_payment :=
        if same_date_payments ≠ [] then
          firstMinBy (fun cp => |bank_date - cp.date.getD 0|) same_date_payments
        else
          firstMinBy (fun cp => |bank_date - cp.date.getD 0|) payments_to_consider
      some best_payment
  | _, _ => none

/-- `_is_amount_match` (received flavor): the absolute values are compared. -/
def isAmountMatch (platform_amount bank_amount : ℚ) : Bool :=
  decide (|(|platform_amount| - |bank_amount|)| ≤ 1/100)

/-- `_is_date_match` (received flavor):
`abs(platform_date - bank_date) <= timedelta(days=9)`. -/
def isDateMatch (platform_date bank_date : ℚ) : Bool :=
  decide (|platform_date - bank_date| ≤ 9)

/-- `_is_bank_account_match` (received flavor keys on the `to` side). -/
def isBankAccountMatch (pt : PlatformTxn) (bt : BankTxn) : Bool :=
  decide (pt.to_bankaccount_id = bt.bankaccount_id)

/-- `bank_transactions_by_id` lookup (last occurrence wins). -/
def bankTransactionsById (bts : List BankTxn) (i : Nat) : Option BankTxn :=
  bts.foldl (fun acc bt => if bt.id = i then some bt else acc) none

/-- The run-scoped accumulator of `match_received_transactions`.
`matched_checkbook_payment_ids` is initialised empty and — exactly as in
the source — never added to. -/
structure RunState where
  matches_list : List RecMatch
  matched_bank_transaction_ids : List Nat
  matched_platform_transaction_ids : List Nat
  matched_checkbook_payment_ids : List Nat
deriving Repr

/-- The criteria record built for a Step-1 direct match. -/
def directCriteria : MatchCriteria :=
  { amount_match := true, date_match := true, checkbook_payment_exists := false,
    recipient_match := false, direction_match := false, description_match := false,
    user_match := true, is_direct_match := true }

/-- The criteria record built for a Step-3 duplicate-resolution match. -/
def resolveCriteria : MatchCriteria :=
  { amount_match := true, date_match := true, checkbook_payment_exists := true,
    recipient_match := true, direction_match := true, description_match := true,
    user_match := true, is_direct_match := false }

/-- Step 1 of `match_received_transactions`: honor pre-existing
`related_bank_transaction` links (no checkbook payment is attached). -/
def step1 (bts : List BankTxn) : List PlatformTxn → RunState → RunState
  | [], s => s
  | pt :: rest, s =>
    match pt.related_bank_transaction with
    | [] => step1 bts rest s
    | related_bt_id :: _ =>
      let s1 : RunState :=
        { s with matched_platform_transaction_ids :=
            s.matched_platform_transaction_ids ++ [pt.id] }
      match bankTransactionsById bts related_bt_id with
      | none => step1 bts rest s1
      | some bank_transaction =>
        if truthyNat bank_transaction.transaction_link then step1 bts rest s1
        else
          step1 bts rest
            { s1 with
              matches_list := s1.matches_list ++
                [{ platform_transaction := pt, bank_transaction := bank_transaction,
                   checkbook_payment := none, match_criteria := directCriteria }],
              matched_bank_transaction_ids :=
                s1.matched_bank_transaction_ids ++ [bank_transaction.id] }

/-- One Step-2 candidate: a bank transaction, its checkbook payment, and
the date-difference data used for prioritisation. -/
structure CandidateInfo where
  bank_transaction : BankTxn
  checkbook_payment : CheckbookPayment
  date_diff : ℚ
  is_exact_date_match : Bool
deriving DecidableEq, Repr

/-- Step-2 candidate collection for one platform transaction: every
unconsumed potential bank transaction passing amount/date/account whose
checkbook-payment lookup succeeds (the lookup runs for every candidate,
before the combined criteria test, exactly as in the source).
`is_exact_date_match` is `date_diff.days == 0`, i.e. a floor test. -/
def collectCandidates (m : Matcher) (pt : PlatformTxn)
    (platform_amount platform_date : ℚ)
    (matched_bank_ids matched_cp_ids : List Nat) :
    List BankTxn → Option (List CandidateInfo)
  | [] => some []
  | bt :: rest =>
    if bt.id ∈ matched_bank_ids then
      collectCandidates m pt platform_amount platform_date matched_bank_ids matched_cp_ids rest
    else
      match bt.date with
      | none => none
      | some bank_date =>
        let amount_match := isAmountMatch platform_amount (bt.amount.getD 0)
        let date_match := isDateMatch platform_date bank_date
        let bank_account_match := isBankAccountMatch pt bt
        match findMatchingCheckbookPayment m bt pt false with
        | none => none
        | some none =>
          collectCandidates m pt platform_amount platform_date matched_bank_ids matched_cp_ids rest
        | some (some checkbook_payment) =>
          if amount_match && date_match && bank_account_match then
            if checkbook_payment.id ∈ matched_cp_ids then
              collectCandidates m pt platform_amount platform_date matched_bank_ids matched_cp_ids rest
            else
              let date_diff := |platform_date - bank_date|
              (collectCandidates m pt platform_amount platform_date matched_bank_ids
                  matched_cp_ids rest).map
                (fun l =>
                  { bank_transaction := bt, checkbook_payment := checkbook_payment,
                    date_diff := date_diff,
                    is_exact_date_match := decide (Int.floor date_diff = 0) } :: l)
          else
            collectCandidates m pt platform_amount platform_date matched_bank_ids matched_cp_ids rest

/-- Step-2 best-candidate selection: exact-date matches first (closest
within them), else the closest date overall, else nothing. -/
def selectBestCandidate (matching_bank_transactions : List CandidateInfo) :
    Option CandidateInfo :=
  let exact_date_matches :=
    matching_bank_transactions.filter (fun c => c.is_exact_date_match)
  if exact_date_matches ≠ [] then
    firstMinBy (fun c => c.date_diff) exact_date_matches
  else
    firstMinBy (fun c => c.date_diff) matching_bank_transactions

/-- Step 2 of `match_received_transactions`: fresh discovery with date
prioritisation and a final already-used check on the selected checkbook
payment.  The matcher itself is threaded because a created match writes
`self.used_checkbook_payment_ids`. -/
def step2 (pots : List BankTxn) :
    List PlatformTxn → Matcher → RunState → Option (Matcher × RunState)
  | [], m, s => some (m, s)
  | pt :: rest, m, s =>
    if pt.id ∈ s.matched_platform_transaction_ids then step2 pots rest m s
    else
      match pt.date with
      | none => none
      | some platform_date =>
        let platform_amount := pt.amount.getD 0
        match collectCandidates m pt platform_amount platform_date
            s.matched_bank_transaction_ids s.matched_checkbook_payment_ids pots with
        | none => none
        | some matching_bank_transactions =>
          match selectBestCandidate matching_bank_transactions with
          | none => step2 pots rest m s
          | some best =>
            if usedMapMem m.used_checkbook_payment_ids best.checkbook_payment.id then
              step2 pots rest m s
            else
              let cp := best.checkbook_payment
              let criteria : MatchCriteria :=
                { amount_match := true, date_match := true,
                  checkbook_payment_exists := true,
                  recipient_match := decide (cp.recipient = some m.user_id),
                  direction_match := decide (cp.direction = "OUTGOING"),
                  description_match := isValidCheckbookPaymentForReceived cp,
                  user_match := true, is_direct_match := false }
              step2 pots rest
                { m with used_checkbook_payment_ids :=
                    usedMapSet m.used_checkbook_payment_ids cp.id pt.id }
                { s with
                  matches_list := s.matches_list ++
                    [{ platform_transaction := pt,
                       bank_transaction := best.bank_transaction,
                       checkbook_payment := some cp, match_criteria := criteria }],
                  matched_bank_transaction_ids :=
                    s.matched_bank_transaction_ids ++ [best.bank_transaction.id],
                  matched_platform_transaction_ids :=
                    s.matched_platform_transaction_ids ++ [pt.id] }

/-- The grouping key of one platform transaction (the received flavor keys
on the `to` side). -/
def groupKey (pt : PlatformTxn) : GroupKey :=
  (pt.date.map Int.floor, pt.amount, pt.to_bankaccount_id)

/-- Accumulator of `_resolve_unmatched_duplicates` (received flavor). -/
structure ResolveState where
  new_matches : List RecMatch
  newly_matched_pt_ids : List Nat
  newly_matched_bt_ids : List Nat
  newly_matched_cp_ids_map : UsedMap
deriving Repr

/-- Candidate selection inside a fired duplicate group (received flavor):
the first member whose `Added_By` equals `self.user_id`, else the member
date-closest to the bank record (first minimum). -/
def pickCandidate (m : Matcher) (bank_date : ℚ)
    (duplicate_pts : List PlatformTxn) : Option (Option PlatformTxn) :=
  let player_added_pts :=
    duplicate_pts.filter (fun p => decide (p.added_by = some m.user_id))
  match player_added_pts with
  | p :: _ => some (some p)
  | [] =>
    (memberDates duplicate_pts).map (fun l =>
      (firstMinBy (fun pd => |pd.2 - bank_date|) l).map (fun pd => pd.1))

/-- Inner loop of `_resolve_unmatched_duplicates` (received flavor): a
group fires only when the candidate's checkbook-payment lookup succeeds
and the payment is claimed neither in `self.used_checkbook_payment_ids`
nor in the run-local map; on firing, every group member's id is marked
consumed and the loop breaks. -/
def resolveGroupsForBt (m : Matcher) (bt : BankTxn) (bank_date : ℚ) :
    List (GroupKey × List PlatformTxn) → ResolveState → Option ResolveState
  | [], s => some s
  | (_, duplicate_pts) :: rest, s =>
    if duplicate_pts.any (fun p => decide (p.id ∈ s.newly_matched_pt_ids)) then
      resolveGroupsForBt m bt bank_date rest s
    else
      match duplicate_pts with
      | [] => resolveGroupsForBt m bt bank_date rest s
      | ref_pt :: _ =>
        match ref_pt.date with
        | none => none
        | some ref_date =>
          if isAmountMatch (ref_pt.amount.getD 0) (bt.amount.getD 0) &&
             isDateMatch ref_date bank_date &&
             isBankAccountMatch ref_pt bt then
            match pickCandidate m bank_date duplicate_pts with
            | none => none
            | some none => resolveGroupsForBt m bt bank_date rest s
            | some (some candidate_pt) =>
              match findMatchingCheckbookPayment m bt candidate_pt false with
              | none => none
              | some none => resolveGroupsForBt m bt bank_date rest s
              | some (some checkbook_payment) =>
                if !usedMapMem m.used_checkbook_payment_ids checkbook_payment.id &&
                   !usedMapMem s.newly_matched_cp_ids_map checkbook_payment.id then
                  some { new_matches := s.new_matches ++
                           [{ platform_transaction := candidate_pt,
                              bank_transaction := bt,
                              checkbook_payment := some checkbook_payment,
                              match_criteria := resolveCriteria }],
                         newly_matched_pt_ids :=
                           s.newly_matched_pt_ids ++ duplicate_pts.map (fun p => p.id),
                         newly_matched_bt_ids := s.newly_matched_bt_ids ++ [bt.id],
                         newly_matched_cp_ids_map :=
                           usedMapSet s.newly_matched_cp_ids_map
                             checkbook_payment.id candidate_pt.id }
                else resolveGroupsForBt m bt bank_date rest s
          else resolveGroupsForBt m bt bank_date rest s

/-- Outer loop of `_resolve_unmatched_duplicates` (received flavor). -/
def resolveLoop (m : Matcher) (groups : List (GroupKey × List PlatformTxn)) :
    List BankTxn → ResolveState → Option ResolveState
  | [], s => some s
  | bt :: rest, s =>
    match bt.date with
    | none => none
    | some bank_date =>
      match resolveGroupsForBt m bt bank_date groups s with
      | none => none
      | some s2 => resolveLoop m groups rest s2

/-- `_resolve_unmatched_duplicates` (received flavor).  The `available_bts`
filter against `newly_matched_bt_ids` is evaluated while that set is still
empty, exactly as in the source. -/
def resolveUnmatchedDuplicates (m : Matcher)
    (unmatched_platform_transactions : List PlatformTxn)
    (unmatched_bank_transactions : List BankTxn) :
    Option (List RecMatch × List Nat × List Nat × UsedMap) :=
  let dup := duplicateGroupsBy groupKey unmatched_platform_transactions
  if dup = [] then some ([], [], [], [])
  else
    let available_bts :=
      unmatched_bank_transactions.filter (fun bt => decide (bt.id ∉ ([] : List Nat)))
    (resolveLoop m dup available_bts ⟨[], [], [], []⟩).map
      (fun s => (s.new_matches, s.newly_matched_pt_ids,
                 s.newly_matched_bt_ids, s.newly_matched_cp_ids_map))

/-- `match_received_transactions`: Step 1 (direct links), Step 2 (fresh
discovery), Step 3 (duplicate resolution), then the unmatched outputs.
The returned `Matcher` carries the updated `used_checkbook_payment_ids`
instance state; `none` models the run aborting on an uncaught parse
exception.  (The source guards Step 3 and the merge behind emptiness
tests; the unguarded merge below is observably identical because an empty
resolution contributes nothing.) -/
def matchReceivedTransactions (m0 : Matcher) : Option (MatchResults × Matcher) :=
  let received_pts := receivedPlatformTransactions m0
  let pots := potentialBankTransactions m0
  let s1 := step1 m0.bank_transactions received_pts ⟨[], [], [], []⟩
  match step2 pots received_pts m0 s1 with
  | none => none
  | some (m1, s2) =>
    let unmatched_pts := received_pts.filter
      (fun pt => decide (pt.id ∉ s2.matched_platform_transaction_ids))
    let unmatched_bts := pots.filter
      (fun bt => decide (bt.id ∉ s2.matched_bank_transaction_ids))
    match (if unmatched_pts ≠ [] ∧ unmatched_bts ≠ [] then
             resolveUnmatchedDuplicates m1 unmatched_pts unmatched_bts
           else some ([], [], [], [])) with
    | none => none
    | some (new_matches, used_pt_ids, used_bt_ids, used_cp_ids_map) =>
      let merged_used : UsedMap :=
        used_cp_ids_map.foldl (fun u e => usedMapSet u e.1 e.2)
          m1.used_checkbook_payment_ids
      let m2 : Matcher := { m1 with used_checkbook_payment_ids := merged_used }
      let final_matched_pt_ids := s2.matched_platform_transaction_ids ++ used_pt_ids
      let final_matched_bt_ids := s2.matched_bank_transaction_ids ++ used_bt_ids
      some ({ matches_list := s2.matches_list ++ new_matches,
              unmatched_platform_transactions := received_pts.filter
                (fun pt => decide (pt.id ∉ final_matched_pt_ids)),
              unmatched_bank_transactions := pots.filter
                (fun bt => decide (bt.id ∉ final_matched_bt_ids)),
              unmatched_checkbook_payments := (validCheckbookPayments m1).filter
                (fun cp => decide (cp.id ∉ s2.matched_checkbook_payment_ids)) },
            m2)

end Received

/-- `abs((a - b).days) <= n`: the `.days` attribute of a (possibly
negative) timedelta is the floor of the day difference. -/
def dayDiffAbsLe (a b : ℚ) (n : ℤ) : Bool := decide (|Int.floor (a - b)| ≤ n)

namespace PPB

/-! Embedding of the fee-aware (three-way) matching path of
`paypal_to_bank_matcher.py` (`PayPalToBankMatcher._check_three_way_match`
with its helpers `_find_matching_scraped_transaction` and the module-level
`find_corresponding_bank_transaction`).  The whole method body sits in a
`try` returning `None` on `ValueError`/`KeyError`, so a missing or
unparsable date/amount is embedded as the `none` result. -/

/-- `ThreeWayMatch` dataclass (sans `match_date`).  The PayPal-side bank
transaction is `None` in the fallback path. -/
structure ThreeWayMatch where
  original_platform_transaction : PlatformTxn
  paypal_bank_transaction : Option BankTxn
  bank_side_transaction : BankTxn
  scraped_transaction : ScrapedTxn
  net_amount : ℚ
  fee_amount : ℚ
deriving DecidableEq, Repr

/-- `_find_matching_scraped_transaction`: first scraped line of type
`transfer_sent` whose truthy-guarded rounded absolute gross equals the
(raw, possibly missing) bank amount, within 3 days of the target date. -/
def findMatchingScrapedTransaction (scraped_transactions : List ScrapedTxn)
    (gross_amount : Option ℚ) (target_date : ℚ) : Option ScrapedTxn :=
  match scraped_transactions with
  | [] => none
  | st :: rest =>
    let st_gross := if st.gross ≠ 0 then round2 |st.gross| else 0
    if some st_gross = gross_amount ∧ st.scraped_type = "transfer_sent" then
      if dayDiffAbsLe st.transaction_date target_date 3 then some st
      else findMatchingScrapedTransaction rest gross_amount target_date
    else findMatchingScrapedTransaction rest gross_amount target_date

/-- `find_corresponding_bank_transaction`: first bank transaction on the
account with exactly the given (raw) amount within 7 days.  The outer
`none` is a raised bank-date parse error. -/
def findCorrespondingBankTransaction (bank_account_id : Option Nat) (amount : ℚ)
    (target_date : ℚ) : List BankTxn → Option (Option BankTxn)
  | [] => some none
  | bt :: rest =>
    if bt.bankaccount_id = bank_account_id ∧ bt.amount = some amount then
      match bt.date with
      | none => none
      | some bt_date =>
        if dayDiffAbsLe bt_date target_date 7 then some (some bt)
        else findCorrespondingBankTransaction bank_account_id amount target_date rest
    else findCorrespondingBankTransaction bank_account_id amount target_date rest

/-- Step 1 of `_check_three_way_match`: scan for a PayPal-side candidate
(`amount >= transfer_amount` on the `from` account, within 7 days) whose
scraped verification succeeds, the platform amount equals the rounded
gross or net, and — the fee gate — rounded gross and net differ. -/
def primaryScan (scraped_transactions : List ScrapedTxn)
    (transfer_amount transfer_date : ℚ) (from_bank_account_id : Option Nat) :
    List BankTxn → Option (Option (BankTxn × ScrapedTxn))
  | [] => some none
  | bt :: rest =>
    if transfer_amount ≤ bt.amount.getD 0 ∧ bt.bankaccount_id = from_bank_account_id then
      match bt.date with
      | none => none
      | some bt_date =>
        if dayDiffAbsLe bt_date transfer_date 7 then
          match findMatchingScrapedTransaction scraped_transactions bt.amount bt_date with
          | some potential_scraped_match =>
            let scraped_gross := round2 |potential_scraped_match.gross|
            let scraped_net := round2 |potential_scraped_match.net|
            if transfer_amount = scraped_gross ∨ transfer_amount = scraped_net then
              if scraped_gross ≠ scraped_net then some (some (bt, potential_scraped_match))
              else primaryScan scraped_transactions transfer_amount transfer_date
                from_bank_account_id rest
            else primaryScan scraped_transactions transfer_amount transfer_date
              from_bank_account_id rest
          | none => primaryScan scraped_transactions transfer_amount transfer_date
              from_bank_account_id rest
        else primaryScan scraped_transactions transfer_amount transfer_date
          from_bank_account_id rest
    else primaryScan scraped_transactions transfer_amount transfer_date
      from_bank_account_id rest

/-- The fallback of `_check_three_way_match`: when no PayPal-side bank
transaction was found, accept a scraped `transfer_sent` line matching the
platform amount (gross or net) within 7 days, whose net-side bank record
exists — again gated on rounded gross ≠ net. -/
def fallbackScan (available_bts : List BankTxn) (pt : PlatformTxn)
    (transfer_amount transfer_date : ℚ) (to_bank_account_id : Option Nat) :
    List ScrapedTxn → Option (Option ThreeWayMatch)
  | [] => some none
  | st :: rest =>
    if st.scraped_type = "transfer_sent" then
      let st_gross := round2 |st.gross|
      let st_net := round2 |st.net|
      if transfer_amount = st_gross ∨ transfer_amount = st_net then
        if dayDiffAbsLe st.transaction_date transfer_date 7 then
          match findCorrespondingBankTransaction to_bank_account_id (-st_net)
              st.transaction_date available_bts with
          | none => none
          | some none => fallbackScan available_bts pt transfer_amount transfer_date
              to_bank_account_id rest
          | some (some bank_bt_fallback) =>
            if st_gross ≠ st_net then
              some (some
                { original_platform_transaction := pt, paypal_bank_transaction := none,
                  bank_side_transaction := bank_bt_fallback, scraped_transaction := st,
                  net_amount := st_net, fee_amount := round2 (st_gross - st_net) })
            else fallbackScan available_bts pt transfer_amount transfer_date
              to_bank_account_id rest
        else fallbackScan available_bts pt transfer_amount transfer_date
          to_bank_account_id rest
      else fallbackScan available_bts pt transfer_amount transfer_date
        to_bank_account_id rest
    else fallbackScan available_bts pt transfer_amount transfer_date
      to_bank_account_id rest

/-- Step 2 of `_check_three_way_match`: the bank-side (net, negated)
transaction on the `to` account within 7 days, distinct from the
PayPal-side record (Python `!=` on dicts is structural). -/
def bankSideScan (paypal_bt : BankTxn) (expected_bank_amount : ℚ)
    (to_bank_account_id : Option Nat) (transfer_date : ℚ) :
    List BankTxn → Option (Option BankTxn)
  | [] => some none
  | bt :: rest =>
    if bt ≠ paypal_bt ∧ bt.amount = some expected_bank_amount ∧
       bt.bankaccount_id = to_bank_account_id then
      match bt.date with
      | none => none
      | some bank_txn_date =>
        if dayDiffAbsLe bank_txn_date transfer_date 7 then some (some bt)
        else bankSideScan paypal_bt expected_bank_amount to_bank_account_id transfer_date rest
    else bankSideScan paypal_bt expected_bank_amount to_bank_account_id transfer_date rest

/-- `_check_three_way_match`.  A missing platform amount would raise an
uncaught `TypeError` in the source; the embedding returns `none` there, a
distinction no claim in scope observes. -/
def checkThreeWayMatch (scraped_transactions : List ScrapedTxn) (pt : PlatformTxn)
    (available_bts : List BankTxn) : Option ThreeWayMatch :=
  match pt.amount, pt.date with
  | some transfer_amount, some transfer_date =>
    match primaryScan scraped_transactions transfer_amount transfer_date
        pt.from_bankaccount_id available_bts with
    | none => none
    | some none =>
      match fallbackScan available_bts pt transfer_amount transfer_date
          pt.to_bankaccount_id scraped_transactions with
      | none => none
      | some r => r
    | some (some (paypal_bt, scraped_match)) =>
      let scraped_gross := round2 |scraped_match.gross|
      let scraped_net := round2 |scraped_match.net|
      let scraped_fees := scraped_gross - scraped_net
      match bankSideScan paypal_bt (-scraped_net) pt.to_bankaccount_id transfer_date
          available_bts with
      | none => none
      | some none => none
      | some (some bank_bt) =>
        some { original_platform_transaction := pt,
               paypal_bank_transaction := some paypal_bt,
               bank_side_transaction := bank_bt, scraped_transaction := scraped_match,
               net_amount := scraped_net, fee_amount := round2 scraped_fees }
  | _, _ => none

end PPB

namespace SPM

/-! Embedding of the three-way path of `simplified_paypal_matcher.py`
(`SimplifiedPayPalMatcher._find_three_way_match` with the
`keywords=None` mode of `_find_bank_transaction`, the only mode that path
uses).  The `(account, rounded amount)` hash-index lookup of the source is
embedded as an in-order scan with the same key equality; records whose
date failed to parse (skipped at index build or by `if not bt_date`) are
the `date = none` records skipped by the scan. -/

/-- `ThreeWayMatch` dataclass of the simplified matcher (sans `match_date`). -/
structure SThreeWayMatch where
  original_platform_transaction : PlatformTxn
  scraped_transaction : ScrapedTxn
  paypal_bank_transaction : BankTxn
  bank_side_transaction : Option BankTxn
  gross_amount : ℚ
  net_amount : ℚ
  fee_amount : ℚ
deriving DecidableEq, Repr

/-- The candidate scan inside `_find_bank_transaction` (no keywords):
skip used ids and unparsable dates, return the first record within 7 days. -/
def findBankTxnScan (used_bt_ids : List Nat) (date : ℚ) :
    List BankTxn → Option BankTxn
  | [] => none
  | bt :: rest =>
    if bt.id ∈ used_bt_ids then findBankTxnScan used_bt_ids date rest
    else
      match bt.date with
      | none => findBankTxnScan used_bt_ids date rest
      | some bt_date =>
        if dayDiffAbsLe bt_date date 7 then some bt
        else findBankTxnScan used_bt_ids date rest

/-- `_find_bank_transaction(account_id, amount, date, used_bt_ids)` with
`keywords=None`: index lookup by `(account_id, round(amount, 2))`, then
the candidate scan. -/
def findBankTransaction (bank_transactions : List BankTxn) (account_id : Option Nat)
    (amount : ℚ) (date : ℚ) (used_bt_ids : List Nat) : Option BankTxn :=
  let target_amount := round2 amount
  findBankTxnScan used_bt_ids date
    (bank_transactions.filter (fun bt =>
      decide (bt.bankaccount_id = account_id) &&
      decide (round2 (bt.amount.getD 0) = target_amount)))

/-- The scraped-candidate list of `_find_three_way_match`: the gross-index
bucket for the platform amount, then the net-index bucket deduplicated
against it (buckets keep scraped-input order). -/
def scrapedCandidates (scraped_transactions : List ScrapedTxn) (pt_amount : ℚ) :
    List ScrapedTxn :=
  let gross_cands := scraped_transactions.filter
    (fun st => decide (round2 |st.gross| = pt_amount))
  let net_cands := scraped_transactions.filter
    (fun st => decide (round2 |st.net| = pt_amount))
  gross_cands ++ net_cands.filter (fun st => decide (st ∉ gross_cands))

/-- The candidate loop of `_find_three_way_match`: within 7 days, require
`fee = round(gross - net, 2) > 0.01`, look up both legs, and fire as soon
as the gross (PayPal-side) leg exists — the net leg may be `None`. -/
def findThreeWayLoop (bank_transactions : List BankTxn) (used_bt_ids : List Nat)
    (pt : PlatformTxn) (pt_amount pt_date : ℚ)
    (from_bank_account_id to_bank_account_id : Option Nat) :
    List ScrapedTxn → Option SThreeWayMatch
  | [] => none
  | st :: rest =>
    let st_gross := round2 |st.gross|
    let st_net := round2 |st.net|
    if dayDiffAbsLe st.transaction_date pt_date 7 then
      let fee_amount := round2 (st_gross - st_net)
      if 1/100 < fee_amount then
        let paypal_bt := findBankTransaction bank_transactions from_bank_account_id
          st_gross st.transaction_date used_bt_ids
        let bank_side_bt := findBankTransaction bank_transactions to_bank_account_id
          (-st_net) st.transaction_date used_bt_ids
        match paypal_bt with
        | some paypal_bank_transaction =>
          some { original_platform_transaction := pt, scraped_transaction := st,
                 paypal_bank_transaction := paypal_bank_transaction,
                 bank_side_transaction := bank_side_bt, gross_amount := st_gross,
                 net_amount := st_net, fee_amount := fee_amount }
        | none =>
          findThreeWayLoop bank_transactions used_bt_ids pt pt_amount pt_date
            from_bank_account_id to_bank_account_id rest
      else
        findThreeWayLoop bank_transactions used_bt_ids pt pt_amount pt_date
          from_bank_account_id to_bank_account_id rest
    else
      findThreeWayLoop bank_transactions used_bt_ids pt pt_amount pt_date
        from_bank_account_id to_bank_account_id rest

/-- `_find_three_way_match`: only completely un-linked platform
transactions are considered; a missing platform date (which would raise
uncaught in the source) is the `none` result. -/
def findThreeWayMatch (bank_transactions : List BankTxn)
    (scraped_transactions : List ScrapedTxn) (used_bt_ids : List Nat)
    (pt : PlatformTxn) : Option SThreeWayMatch :=
  if pt.related_bank_transaction.length ≠ 0 then none
  else
    match pt.date with
    | none => none
    | some pt_date =>
      let pt_amount := round2 (pt.amount.getD 0)
      findThreeWayLoop bank_transactions used_bt_ids pt pt_amount pt_date
        pt.from_bankaccount_id pt.to_bankaccount_id
        (scrapedCandidates scraped_transactions pt_amount)

end SPM

namespace Runner

/-! Embedding of `investigate_unmatched_received` from
`run_returned_received_matcher.py`.  The reason strings are embedded as a
tagged value carrying the data interpolated into them.  Matcher methods are
threaded in state-transformer style: `_find_matching_checkbook_payment`
contains no write to the matcher, so its transformer returns the matcher
unchanged — the faithful translation of a method without mutations. -/

/-- The `to` Account_Type filter string. -/
def kwBettingBankAccount : String := "betting bank account"

/-- The three reason shapes produced by `investigate_unmatched_received`. -/
inductive NoMatchReason
  | noSuitableBankTransaction
  | checkbookPaymentAlreadyUsed (cp_id : Nat) (conflicting_pt_id : Option Nat)
  | noValidCheckbookPayment
deriving DecidableEq, Repr

/-- One finding record appended per unmatched betting-bank transaction. -/
structure Finding where
  platform_transaction_id : Nat
  platform_transaction_amount : Option ℚ
  platform_transaction_date : Option ℚ
  from_account_type : String
  to_account_type : String
  reason_for_no_match : NoMatchReason
deriving DecidableEq, Repr

/-- `unmatched_betting_pts`: unmatched platform transactions whose `to`
account type contains "betting bank account" and which carry no
pre-existing bank link. -/
def unmatchedBettingPts (match_results : Received.MatchResults) : List PlatformTxn :=
  match_results.unmatched_platform_transactions.filter (fun pt =>
    strHasSub (lowerStr pt.to_account_type) kwBettingBankAccount &&
    decide (pt.related_bank_transaction = []))

/-- `_find_matching_checkbook_payment` in state-transformer form: the
method performs no writes, so the matcher comes back unchanged. -/
def findMatchingCheckbookPaymentST (m : Received.Matcher) (bt : BankTxn)
    (pt : PlatformTxn) (bypass_used_check : Bool) :
    Option (Option CheckbookPayment) × Received.Matcher :=
  (Received.findMatchingCheckbookPayment m bt pt bypass_used_check, m)

/-- `potential_bank_matches`: the amount/date/account scan over
`matcher._potential_bank_transactions`.  Python's `and` short-circuits, so
the date parses (which can raise, aborting) only run when the amount
matches. -/
def potentialScan (m : Received.Matcher) (pt : PlatformTxn) :
    List BankTxn → Option (List BankTxn)
  | [] => some []
  | bt :: rest =>
    if Received.isAmountMatch (pt.amount.getD 0) (bt.amount.getD 0) then
      match pt.date, bt.date with
      | some platform_date, some bank_date =>
        if Received.isDateMatch platform_date bank_date &&
           Received.isBankAccountMatch pt bt then
          (potentialScan m pt rest).map (fun l => bt :: l)
        else potentialScan m pt rest
      | _, _ => none
    else potentialScan m pt rest

/-- The bypassed re-discovery loop: the first potential bank transaction
whose checkbook payment (found with `bypass_used_check=True`) is already
claimed yields the already-used reason; `some none` means the loop ended
without one. -/
def usedCpReasonLoop (pt : PlatformTxn) :
    List BankTxn → Received.Matcher → Option (Option NoMatchReason) × Received.Matcher
  | [], m => (some none, m)
  | pot_bt :: rest, m =>
    match findMatchingCheckbookPaymentST m pot_bt pt true with
    | (none, m2) => (none, m2)
    | (some none, m2) => usedCpReasonLoop pt rest m2
    | (some (some checkbook_payment), m2) =>
      if usedMapMem m2.used_checkbook_payment_ids checkbook_payment.id then
        (some (some (NoMatchReason.checkbookPaymentAlreadyUsed checkbook_payment.id
          (usedMapFind m2.used_checkbook_payment_ids checkbook_payment.id))), m2)
      else usedCpReasonLoop pt rest m2

/-- Build the finding record for one platform transaction. -/
def mkFinding (pt : PlatformTxn) (reason : NoMatchReason) : Finding :=
  { platform_transaction_id := pt.id, platform_transaction_amount := pt.amount,
    platform_transaction_date := pt.date, from_account_type := pt.from_account_type,
    to_account_type := pt.to_account_type, reason_for_no_match := reason }

/-- The per-transaction body of `investigate_unmatched_received`. -/
def investigateOne (pt : PlatformTxn) (m : Received.Matcher) :
    Option Finding × Received.Matcher :=
  match potentialScan m pt (Received.potentialBankTransactions m) with
  | none => (none, m)
  | some [] => (some (mkFinding pt NoMatchReason.noSuitableBankTransaction), m)
  | some potential_bank_matches =>
    match usedCpReasonLoop pt potential_bank_matches m with
    | (none, m2) => (none, m2)
    | (some none, m2) => (some (mkFinding pt NoMatchReason.noValidCheckbookPayment), m2)
    | (some (some reason), m2) => (some (mkFinding pt reason), m2)

/-- The findings loop of `investigate_unmatched_received`. -/
def investigateLoop :
    List PlatformTxn → Received.Matcher → Option (List Finding) × Received.Matcher
  | [], m => (some [], m)
  | pt :: rest, m =>
    match investigateOne pt m with
    | (none, m2) => (none, m2)
    | (some f, m2) =>
      match investigateLoop rest m2 with
      | (none, m3) => (none, m3)
      | (some fs, m3) => (some (f :: fs), m3)

/-- `investigate_unmatched_received(player_id, matcher, match_results)`:
the diagnostic reasoner over the engine's final state.  The first
component is the findings (`none` = a parse exception aborted); the second
is the matcher state after the analysis. -/
def investigateUnmatchedReceived (m : Received.Matcher)
    (match_results : Received.MatchResults) :
    Option (List Finding) × Received.Matcher :=
  investigateLoop (unmatchedBettingPts match_results) m

end Runner

namespace Cex

/-! Concrete record instances used by the counterexamples and witnesses
below.  Dates are day numbers; amounts are exact multiples of 0.01. -/

/-- A returned platform transaction carrying a pre-existing direct link to
bank record 7. -/
def pt_direct_a : PlatformTxn :=
  { id := 1, transaction_type := "returned", amount := some 100, date := some 10,
    from_bankaccount_id := some 50, to_bankaccount_id := some 60,
    from_account_type := "Betting bank account", to_account_type := "Backer bank account",
    related_bank_transaction := [7], added_by := none, player_id := none }

/-- A second returned platform transaction linked to the same bank record 7. -/
def pt_direct_b : PlatformTxn := { pt_direct_a with id := 2 }

/-- The unclaimed bank record both direct links point at. -/
def bank7 : BankTxn :=
  { id := 7, name := "checkbook", amount := some 100, date := some 10,
    bankaccount_id := some 50, transaction_link := none }

/-- A returned platform transaction with no pre-existing link, for fresh
discovery. -/
def pt_fresh : PlatformTxn :=
  { pt_direct_a with id := 3, date := some 12, related_bank_transaction := [] }

/-- A passing candidate one day away from `pt_fresh`, first in input order. -/
def bank_off : BankTxn := { bank7 with id := 11, date := some 13 }

/-- A passing candidate on exactly `pt_fresh`'s date, second in input order. -/
def bank_exact : BankTxn := { bank7 with id := 12, date := some 12 }

/-- First member of a duplicate group (same day, amount, account as
`dup_b`), not attributed to the player. -/
def dup_a : PlatformTxn :=
  { pt_direct_a with
    id := 4, date := some 20, related_bank_transaction := [],
    added_by := none, player_id := some 777 }

/-- Second member of the duplicate group, attributed to player 777. -/
def dup_b : PlatformTxn := { dup_a with id := 5, added_by := some 777 }

/-- The single unclaimed bank candidate matching the duplicate group. -/
def bank_dup : BankTxn := { bank7 with id := 13, date := some 20 }

/-- The returned-flavor duplicate-resolution output on
`[dup_a, dup_b]` versus `[bank_dup]`. -/
def c4_out : List Returned.RMatch × List Nat × List Nat :=
  (Returned.resolveUnmatchedDuplicates [dup_a, dup_b] [dup_a, dup_b] [bank_dup]).getD
    ([], [], [])

/-- A platform transfer from PayPal account 1 to bank account 2. -/
def pt_transfer : PlatformTxn :=
  { id := 31, transaction_type := "transfer", amount := some 100, date := some 10,
    from_bankaccount_id := some 1, to_bankaccount_id := some 2,
    from_account_type := "Betting PayPal Account", to_account_type := "Betting Bank account",
    related_bank_transaction := [], added_by := none, player_id := none }

/-- The PayPal-side (gross) bank record for `pt_transfer`. -/
def bank_paypal_side : BankTxn :=
  { id := 32, name := "Money Transfer to WELLS", amount := some 100, date := some 10,
    bankaccount_id := some 1, transaction_link := none }

/-- The net-side bank record when the fee is exactly one cent. -/
def bank_net_cent : BankTxn :=
  { id := 33, name := "PAYPAL TRANSFER", amount := some (-(9999/100)), date := some 10,
    bankaccount_id := some 2, transaction_link := none }

/-- A scraped line with gross 100.00 and net 99.99: fee exactly 0.01. -/
def scraped_cent : ScrapedTxn :=
  { id := 34, gross := 100, net := 9999/100, scraped_type := "transfer_sent",
    transaction_date := 10 }

/-- The three-way match `_check_three_way_match` builds on the one-cent-fee
input. -/
def ppb_cent : PPB.ThreeWayMatch :=
  (PPB.checkThreeWayMatch [scraped_cent] pt_transfer
    [bank_paypal_side, bank_net_cent]).getD
    { original_platform_transaction := pt_transfer, paypal_bank_transaction := none,
      bank_side_transaction := bank_paypal_side, scraped_transaction := scraped_cent,
      net_amount := 0, fee_amount := 0 }

/-- A scraped line with gross 100.00 and net 98.50: fee 1.50. -/
def scraped_150 : ScrapedTxn :=
  { id := 35, gross := 100, net := 197/2, scraped_type := "transfer_sent",
    transaction_date := 10 }

/-- The net-side bank record for the 1.50-fee scraped line. -/
def bank_net_150 : BankTxn :=
  { id := 36, name := "PAYPAL TRANSFER", amount := some (-(197/2)), date := some 10,
    bankaccount_id := some 2, transaction_link := none }

/-- The three-way match the simplified matcher builds on the 1.50-fee
input. -/
def spm_150 : SPM.SThreeWayMatch :=
  (SPM.findThreeWayMatch [bank_paypal_side, bank_net_150] [scraped_150] []
    pt_transfer).getD
    { original_platform_transaction := pt_transfer, scraped_transaction := scraped_150,
      paypal_bank_transaction := bank_paypal_side, bank_side_transaction := none,
      gross_amount := 0, net_amount := 0, fee_amount := 0 }

/-- A received platform transaction whose `Date` is missing/unparsable. -/
def pt_bad_date : PlatformTxn :=
  { id := 41, transaction_type := "received", amount := some 100, date := none,
    from_bankaccount_id := some 99999, to_bankaccount_id := some 18668,
    from_account_type := "External account", to_account_type := "Betting bank account",
    related_bank_transaction := [], added_by := none, player_id := some 15121 }

/-- A well-formed received platform transaction that matches `bank_good8`
and `cp_good8`. -/
def pt_good8 : PlatformTxn :=
  { pt_bad_date with id := 42, amount := some 2500, date := some 100 }

/-- The matching bank record for `pt_good8`. -/
def bank_good8 : BankTxn :=
  { id := 43, name := "DEPOSIT FROM EXTERNAL SOURCE", amount := some (-2500),
    date := some 100, bankaccount_id := some 18668, transaction_link := none }

/-- The corroborating checkbook payment for `pt_good8`. -/
def cp_good8 : CheckbookPayment :=
  { id := 44, amount := some 2500, recipient := some 15121, direction := "OUTGOING",
    description := "Funding check", date := some 100 }

/-- The received matcher over a record set containing the malformed
`pt_bad_date` alongside the well-formed pair. -/
def m8_bad : Received.Matcher :=
  { platform_transactions := [pt_bad_date, pt_good8], bank_transactions := [bank_good8],
    user_id := 15121, checkbook_payments := [cp_good8],
    used_checkbook_payment_ids := [] }

/-- The same record set without the malformed record. -/
def m8_good : Received.Matcher := { m8_bad with platform_transactions := [pt_good8] }

/-- The run of the well-formed received record set. -/
def m8_good_run : Received.MatchResults × Received.Matcher :=
  (Received.matchReceivedTransactions m8_good).getD (⟨[], [], [], []⟩, m8_good)

/-- A received platform transaction direct-linked to bank record 77. -/
def pt_rec_direct : PlatformTxn :=
  { pt_bad_date with id := 45, date := some 100, related_bank_transaction := [77] }

/-- The unclaimed bank record 77. -/
def bank77 : BankTxn :=
  { id := 77, name := "WIRE IN", amount := some (-2500), date := some 100,
    bankaccount_id := some 18668, transaction_link := none }

/-- Received matcher holding the direct-linked pair. -/
def m_rec_direct : Received.Matcher :=
  { platform_transactions := [pt_rec_direct], bank_transactions := [bank77],
    user_id := 15121, checkbook_payments := [], used_checkbook_payment_ids := [] }

/-- The run of `m_rec_direct`. -/
def m_rec_direct_run : Received.MatchResults × Received.Matcher :=
  (Received.matchReceivedTransactions m_rec_direct).getD (⟨[], [], [], []⟩, m_rec_direct)

/-- A returned platform transaction direct-linked to the absent bank
record 9. -/
def pt_direct_absent : PlatformTxn :=
  { pt_direct_a with id := 6, related_bank_transaction := [9] }

/-- A received platform transaction direct-linked to the absent bank
record 9. -/
def pt_rec_absent : PlatformTxn :=
  { pt_rec_direct with id := 46, related_bank_transaction := [9] }

/-- Received matcher whose direct link points at an absent record. -/
def m_rec_absent : Received.Matcher :=
  { m_rec_direct with platform_transactions := [pt_rec_absent] }

/-- The run of `m_rec_absent`. -/
def m_rec_absent_run : Received.MatchResults × Received.Matcher :=
  (Received.matchReceivedTransactions m_rec_absent).getD (⟨[], [], [], []⟩, m_rec_absent)

/-- The run of the single direct-linked returned transaction, for
witnesses. -/
def c1w_result : Returned.MatchResults :=
  (Returned.matchReturnedTransactions [pt_direct_a] [bank7]
    Returned.RETURNED_KEYWORDS).getD ⟨[], [], []⟩

/-- The run of the returned fresh-discovery scenario, for the C5
counterexample. -/
def c5_result : Returned.MatchResults :=
  (Returned.matchReturnedTransactions [pt_fresh] [bank_off, bank_exact]
    Returned.RETURNED_KEYWORDS).getD ⟨[], [], []⟩

/-- First member of a received-flavor duplicate group. -/
def dup_ra : PlatformTxn :=
  { id := 47, transaction_type := "received", amount := some 100, date := some 20,
    from_bankaccount_id := some 99999, to_bankaccount_id := some 18668,
    from_account_type := "External account", to_account_type := "Betting bank account",
    related_bank_transaction := [], added_by := none, player_id := some 777 }

/-- Second member of the received-flavor duplicate group, attributed to
user 777. -/
def dup_rb : PlatformTxn := { dup_ra with id := 48, added_by := some 777 }

/-- The single unclaimed bank candidate matching the received duplicate
group. -/
def bank_dupr : BankTxn :=
  { id := 49, name := "DEPOSIT", amount := some (-100), date := some 20,
    bankaccount_id := some 18668, transaction_link := none }

/-- The corroborating checkbook payment for the received duplicate group. -/
def cp_dupr : CheckbookPayment :=
  { id := 50, amount := some 100, recipient := some 777, direction := "OUTGOING",
    description := "Fund transfer", date := some 20 }

/-- Received matcher for the duplicate-group scenario. -/
def m_dupr : Received.Matcher :=
  { platform_transactions := [dup_ra, dup_rb], bank_transactions := [bank_dupr],
    user_id := 777, checkbook_payments := [cp_dupr], used_checkbook_payment_ids := [] }

/-- The received-flavor duplicate-resolution output. -/
def c4r_out : List Received.RecMatch × List Nat × List Nat × UsedMap :=
  (Received.resolveUnmatchedDuplicates m_dupr [dup_ra, dup_rb] [bank_dupr]).getD
    ([], [], [], [])

/-- The run of the returned matcher whose direct link points at an absent
bank record. -/
def c10w_result : Returned.MatchResults :=
  (Returned.matchReturnedTransactions [pt_direct_absent] [bank7]
    Returned.RETURNED_KEYWORDS).getD ⟨[], [], []⟩

/-- A non-exact-date step-2 candidate record (one day away). -/
def cand_off : Received.CandidateInfo :=
  { bank_transaction := bank_off, checkbook_payment := cp_good8, date_diff := 1,
    is_exact_date_match := false }

/-- An exact-date step-2 candidate record. -/
def cand_ex : Received.CandidateInfo :=
  { bank_transaction := bank_exact, checkbook_payment := cp_good8, date_diff := 0,
    is_exact_date_match := true }

end Cex

/-- The list of bank-record ids targeted by pre-existing direct links:
each platform transaction with a non-empty `related_bank_transaction`
contributes its first linked id (the only one Step 1 reads). -/
def directLinkHeads (pts : List PlatformTxn) : List Nat :=
  pts.filterMap (fun pt => pt.related_bank_transaction.head?)

unseal Rat.sub Rat.add Rat.mul Rat.inv Rat.ofScientific in
/-- Claim C3, counterexample: the received matcher's date predicate
(`SimpleReceivedTransactionMatcher._is_date_match`) accepts two dates
exactly 6 days apart, contradicting the claim that both matchers use a
5-day window rejecting differences of 6 days or more. -/
theorem c3_counterexample :
    |(6 : ℚ) - 0| = 6 ∧ Received.isDateMatch 6 0 = true := by
  constructor
  · norm_num
  · rfl

/-- Claim C3, amended: the returned matcher's date predicate uses a 5-day
window — it accepts absolute differences of at most 5 days (in particular
exactly 5) and rejects 6 or more — while the received matcher's uses a
9-day window — it accepts at most 9 and rejects 10 or more. -/
theorem c3_amended_date_windows (p b : ℚ) :
    (|p - b| ≤ 5 → Returned.isDateMatch p b = true) ∧
    (6 ≤ |p - b| → Returned.isDateMatch p b = false) ∧
    (|p - b| ≤ 9 → Received.isDateMatch p b = true) ∧
    (10 ≤ |p - b| → Received.isDateMatch p b = false) := by
  refine ⟨fun h => ?_, fun h => ?_, fun h => ?_, fun h => ?_⟩ <;>
    simp only [Returned.isDateMatch, Received.isDateMatch, decide_eq_true_eq,
      decide_eq_false_iff_not, not_le]
  · exact h
  · linarith
  · exact h
  · linarith

/-- Witness for the amended C3 theorem at the four boundary instances. -/
theorem c3_witness :
    Returned.isDateMatch 5 0 = true ∧ Returned.isDateMatch 6 0 = false ∧
    Received.isDateMatch 9 0 = true ∧ Received.isDateMatch 10 0 = false :=
  ⟨(c3_amended_date_windows 5 0).1 (by norm_num),
   (c3_amended_date_windows 6 0).2.1 (by norm_num),
   (c3_amended_date_windows 9 0).2.2.1 (by norm_num),
   (c3_amended_date_windows 10 0).2.2.2 (by norm_num)⟩

unseal Rat.sub Rat.add Rat.mul Rat.inv Rat.ofScientific in
/-- Claim C7, counterexample: the received matcher's amount predicate
compares absolute values, so at `a = 0.01`, `b = -0.01` we have
`|a - b| = 0.02` yet the predicate returns `true`, contradicting the claim
that the amount predicate is false whenever `|a - b| = 0.02`. -/
theorem c7_counterexample :
    |(1 : ℚ)/100 - (-(1 : ℚ)/100)| = 2/100 ∧
    Received.isAmountMatch (1/100) (-(1/100)) = true := by
  constructor
  · norm_num
  · rfl

/-- Claim C7, amended: both amount predicates are symmetric and accept
whenever `|a - b| ≤ 0.01`; the returned predicate is false whenever
`|a - b| = 0.02`, while the received predicate compares absolute values —
it is false whenever `||a| - |b|| = 0.02` but can accept opposite-signed
amounts with `|a - b| = 0.02`. -/
theorem c7_amended_amount_predicates (a b : ℚ) :
    Returned.isAmountMatch a b = Returned.isAmountMatch b a ∧
    Received.isAmountMatch a b = Received.isAmountMatch b a ∧
    (|a - b| ≤ 1/100 →
      Returned.isAmountMatch a b = true ∧ Received.isAmountMatch a b = true) ∧
    (|a - b| = 2/100 → Returned.isAmountMatch a b = false) ∧
    (|(|a| - |b|)| = 2/100 → Received.isAmountMatch a b = false) := by
  refine ⟨?_, ?_, fun h => ⟨?_, ?_⟩, fun h => ?_, fun h => ?_⟩
  · exact decide_eq_decide.2 (by rw [abs_sub_comm])
  · exact decide_eq_decide.2 (by rw [abs_sub_comm (|a|) (|b|)])
  · simpa only [Returned.isAmountMatch, decide_eq_true_eq] using h
  · simp only [Received.isAmountMatch, decide_eq_true_eq]
    exact le_trans (abs_abs_sub_abs_le_abs_sub a b) h
  · simp only [Returned.isAmountMatch, decide_eq_false_iff_not, not_le]
    rw [h]; norm_num
  · simp only [Received.isAmountMatch, decide_eq_false_iff_not, not_le]
    rw [h]; norm_num

/-- Witness for the amended C7 theorem at concrete amounts. -/
theorem c7_witness :
    (Returned.isAmountMatch 5 (5 + 1/100) = true ∧
     Received.isAmountMatch 5 (5 + 1/100) = true) ∧
    Returned.isAmountMatch 5 (5 + 2/100) = false ∧
    Received.isAmountMatch 5 (5 + 2/100) = false :=
  ⟨(c7_amended_amount_predicates 5 (5 + 1/100)).2.2.1 (by
      rw [show (5 : ℚ) - (5 + 1/100) = -(1/100) by ring, abs_neg,
        abs_of_nonneg (by norm_num : (0:ℚ) ≤ 1/100)]),
   (c7_amended_amount_predicates 5 (5 + 2/100)).2.2.2.1 (by
      rw [show (5 : ℚ) - (5 + 2/100) = -(2/100) by ring, abs_neg,
        abs_of_nonneg (by norm_num : (0:ℚ) ≤ 2/100)]),
   (c7_amended_amount_predicates 5 (5 + 2/100)).2.2.2.2 (by
      rw [show |(5 : ℚ)| = 5 from abs_of_nonneg (by norm_num),
        show |(5 : ℚ) + 2/100| = 5 + 2/100 from abs_of_nonneg (by norm_num),
        show (5 : ℚ) - (5 + 2/100) = -(2/100) by ring, abs_neg,
        abs_of_nonneg (by norm_num : (0:ℚ) ≤ 2/100)])⟩

unseal Rat.sub Rat.add Rat.mul Rat.inv Rat.ofScientific in
/-- Claim C1, counterexample: when two returned platform transactions both
carry a pre-existing direct link to the same unclaimed bank record, Step 1
of `match_returned_transactions` emits one Match per link without
consulting the run-scoped consumed set, so bank record 7 is consumed by
two Matches of one run — exactly the scenario the claim asserts cannot
happen. -/
theorem c1_counterexample :
    (Returned.matchReturnedTransactions [Cex.pt_direct_a, Cex.pt_direct_b] [Cex.bank7]
        Returned.RETURNED_KEYWORDS).map
      (fun r => r.matches_list.map
        (fun mm => (mm.platform_transaction.id, mm.bank_transaction.id))) =
      some [(1, 7), (2, 7)] := by rfl

unseal Rat.sub Rat.add Rat.mul Rat.inv Rat.ofScientific in
/-- Claim C5, counterexample: in the returned matcher's fresh discovery the
platform transaction is paired with the first passing candidate in bank
input order (`bank_off`, one day away) even though `bank_exact` carries the
exact same date and passes every predicate — it is left unmatched.  This
contradicts the claimed exact-date preference for the returned engine. -/
theorem c5_counterexample :
    Returned.matchReturnedTransactions [Cex.pt_fresh] [Cex.bank_off, Cex.bank_exact]
        Returned.RETURNED_KEYWORDS = some Cex.c5_result ∧
    Cex.c5_result.matches_list.map
      (fun mm => (mm.platform_transaction.id, mm.bank_transaction.id)) = [(3, 11)] ∧
    Cex.c5_result.unmatched_bank_transactions = [Cex.bank_exact] ∧
    Cex.pt_fresh.date = Cex.bank_exact.date ∧
    Cex.bank_off.date = Cex.pt_fresh.date.map (fun d => d + 1) ∧
    (Returned.isAmountMatch (Cex.pt_fresh.amount.getD 0) (Cex.bank_exact.amount.getD 0) &&
     Returned.isDateMatch 12 12 &&
     Returned.isBankAccountMatch Cex.pt_fresh Cex.bank_exact) = true := by
  refine ⟨by rfl, by rfl, by rfl, by rfl, by rfl, by rfl⟩

unseal Rat.sub Rat.add Rat.mul Rat.inv Rat.ofScientific in
/-- Claim C4, counterexample: the returned-flavor duplicate second pass,
given the two-member group `[dup_a, dup_b]` and one matching unclaimed
bank candidate, emits exactly one Match (consuming `dup_b`, the
`Added_By`-preferred member) but adds BOTH members' ids to the consumed
`used_pt_ids` set.  `match_returned_transactions` merges that set into
`matched_platform_transaction_ids` and filters the unmatched output by it
(source lines 211-216 and 232-235), so the non-chosen `dup_a` is removed
from the unmatched platform-transaction output — contradicting the claim
that every other group member remains in it. -/
theorem c4_counterexample :
    Returned.resolveUnmatchedDuplicates [Cex.dup_a, Cex.dup_b] [Cex.dup_a, Cex.dup_b]
        [Cex.bank_dup] = some Cex.c4_out ∧
    Cex.c4_out.1.map (fun mm => mm.platform_transaction) = [Cex.dup_b] ∧
    Cex.c4_out.1.map (fun mm => mm.bank_transaction.id) = [Cex.bank_dup.id] ∧
    Cex.c4_out.2.1 = [Cex.dup_a.id, Cex.dup_b.id] := by
  refine ⟨by rfl, by rfl, by rfl, by rfl⟩

unseal Rat.sub Rat.add Rat.mul Rat.inv Rat.ofScientific in
/-- Claim C6, counterexample: `PayPalToBankMatcher._check_three_way_match`
gates the split only on rounded gross ≠ rounded net, so a scraped line
with gross 100.00 and net 99.99 — fee exactly 0.01, not greater than
0.01 — still produces a three-way match. -/
theorem c6_counterexample :
    PPB.checkThreeWayMatch [Cex.scraped_cent] Cex.pt_transfer
        [Cex.bank_paypal_side, Cex.bank_net_cent] = some Cex.ppb_cent ∧
    Cex.ppb_cent.fee_amount = 1/100 := by
  constructor
  · rfl
  · rfl

unseal Rat.sub Rat.add Rat.mul Rat.inv Rat.ofScientific in
/-- Claim C8 (code bug), evaluation at the failing input: the received
matcher has no per-record exception handling, so one received platform
transaction with a missing/unparsable `Date` aborts the whole run (the
`datetime.fromisoformat` `ValueError` propagates out of
`match_received_transactions`) — no other record is processed — whereas
the same record set without the malformed record produces its match. -/
theorem c8_failing_run :
    Received.matchReceivedTransactions Cex.m8_bad = none ∧
    (Received.matchReceivedTransactions Cex.m8_good).isSome = true ∧
    Cex.m8_good_run.1.matches_list.map
      (fun mm => (mm.platform_transaction.id, mm.bank_transaction.id)) = [(42, 43)] := by
  refine ⟨by rfl, by rfl, by rfl⟩

/-- The bypassed checkbook-payment re-discovery loop threads the matcher
through unchanged. -/
lemma usedCpReasonLoop_matcher_eq (pt : PlatformTxn) (l : List BankTxn)
    (m : Received.Matcher) : (Runner.usedCpReasonLoop pt l m).2 = m := by
  induction l generalizing m with
  | nil => rfl
  | cons bt rest ih =>
    unfold Runner.usedCpReasonLoop Runner.findMatchingCheckbookPaymentST
    rcases hcp : Received.findMatchingCheckbookPayment m bt pt true with _ | cp
    · simp
    · rcases cp with _ | c
      · simpa using ih m
      · by_cases hu : usedMapMem m.used_checkbook_payment_ids c.id
        · simp [hu]
        · simpa [hu] using ih m

/-- The per-transaction diagnostic body returns the matcher unchanged. -/
lemma investigateOne_matcher_eq (pt : PlatformTxn) (m : Received.Matcher) :
    (Runner.investigateOne pt m).2 = m := by
  unfold Runner.investigateOne
  rcases hp : Runner.potentialScan m pt (Received.potentialBankTransactions m) with _ | l
  · simp
  · rcases l with _ | ⟨b, bs⟩
    · simp
    · rcases hl : Runner.usedCpReasonLoop pt (b :: bs) m with ⟨r, m2⟩
      have hm2 : m2 = m := by
        have h := usedCpReasonLoop_matcher_eq pt (b :: bs) m
        rw [hl] at h; exact h
      rcases r with _ | ro
      · simpa [hl] using hm2
      · rcases ro with _ | reason
        · simpa [hl] using hm2
        · simpa [hl] using hm2

/-- The findings loop threads the matcher through unchanged. -/
lemma investigateLoop_matcher_eq (l : List PlatformTxn) (m : Received.Matcher) :
    (Runner.investigateLoop l m).2 = m := by
  induction l generalizing m with
  | nil => rfl
  | cons pt rest ih =>
    unfold Runner.investigateLoop
    rcases h1 : Runner.investigateOne pt m with ⟨f, m2⟩
    have hm2 : m2 = m := by
      have h := investigateOne_matcher_eq pt m
      rw [h1] at h; exact h
    subst hm2
    rcases f with _ | f0
    · simp
    · rcases h2 : Runner.investigateLoop rest m2 with ⟨fs, m3⟩
      have hm3 : m3 = m2 := by
        have h := ih m2
        rw [h2] at h; exact h
      rcases fs with _ | fs0
      · simp [h2, hm3]
      · simp [h2, hm3]

/-- Claim C9: the diagnostic reasoner (`investigate_unmatched_received`,
which re-runs checkbook-payment discovery with `bypass_used_check=True`)
leaves the engine's shared state — in particular
`used_checkbook_payment_ids` — exactly as it found it, for every matcher
state and every result set.  In the embedding every matcher field,
including the used-payment map, is part of the threaded state, so state
equality covers all shared "used" data; the run-scoped matched-id sets are
locals of the finished run and are not touched either (the reasoner only
reads the result object). -/
theorem c9_reasoner_frame (m : Received.Matcher)
    (match_results : Received.MatchResults) :
    (Runner.investigateUnmatchedReceived m match_results).2 = m :=
  investigateLoop_matcher_eq (Runner.unmatchedBettingPts match_results) m

/-- Every match produced by the simplified matcher's candidate loop passed
the `fee_amount > 0.01` gate. -/
lemma findThreeWayLoop_fee (bts : List BankTxn) (used : List Nat) (pt : PlatformTxn)
    (pa pd : ℚ) (fa ta : Option Nat) :
    ∀ (sts : List ScrapedTxn) (mres : SPM.SThreeWayMatch),
      SPM.findThreeWayLoop bts used pt pa pd fa ta sts = some mres →
      1/100 < mres.fee_amount := by
  intro sts
  induction sts with
  | nil => intro mres h; simp [SPM.findThreeWayLoop] at h
  | cons st rest ih =>
    intro mres h
    simp only [SPM.findThreeWayLoop] at h
    split at h
    · split at h
      · rename_i hfee
        split at h
        · cases h
          exact hfee
        · exact ih mres h
      · exact ih mres h
    · exact ih mres h

/-- Every three-way match of the simplified matcher satisfies
`fee_amount > 0.01`. -/
lemma findThreeWayMatch_fee (bts : List BankTxn) (sts : List ScrapedTxn)
    (used : List Nat) (pt : PlatformTxn) (mres : SPM.SThreeWayMatch)
    (h : SPM.findThreeWayMatch bts sts used pt = some mres) :
    1/100 < mres.fee_amount := by
  unfold SPM.findThreeWayMatch at h
  split at h
  · simp at h
  · split at h
    · simp at h
    · exact findThreeWayLoop_fee bts used pt _ _ _ _ _ mres h

/-- The primary scan of `_check_three_way_match` only returns a scraped
line whose rounded gross and net differ. -/
lemma primaryScan_gross_ne_net (sts : List ScrapedTxn) (ta td : ℚ)
    (fid : Option Nat) :
    ∀ (bts : List BankTxn) (bt : BankTxn) (st : ScrapedTxn),
      PPB.primaryScan sts ta td fid bts = some (some (bt, st)) →
      round2 |st.gross| ≠ round2 |st.net| := by
  intro bts
  induction bts with
  | nil => intro bt st h; simp [PPB.primaryScan] at h
  | cons b rest ih =>
    intro bt st h
    simp only [PPB.primaryScan] at h
    split at h
    · split at h
      · simp at h
      · split at h
        · split at h
          · split at h
            · split at h
              · rename_i hne
                cases h
                exact hne
              · exact ih bt st h
            · exact ih bt st h
          · exact ih bt st h
        · exact ih bt st h
    · exact ih bt st h

/-- The fallback scan of `_check_three_way_match` only returns a match
whose scraped line has differing rounded gross and net. -/
lemma fallbackScan_gross_ne_net (bts : List BankTxn) (pt : PlatformTxn)
    (ta td : ℚ) (tid : Option Nat) :
    ∀ (sts : List ScrapedTxn) (mres : PPB.ThreeWayMatch),
      PPB.fallbackScan bts pt ta td tid sts = some (some mres) →
      round2 |mres.scraped_transaction.gross| ≠ round2 |mres.scraped_transaction.net| := by
  intro sts
  induction sts with
  | nil => intro mres h; simp [PPB.fallbackScan] at h
  | cons st rest ih =>
    intro mres h
    simp only [PPB.fallbackScan] at h
    split at h
    · split at h
      · split at h
        · split at h
          · simp at h
          · exact ih mres h
          · rename_i hbb
            split at h
            · rename_i hne
              cases h
              exact hne
            · exact ih mres h
        · exact ih mres h
      · exact ih mres h
    · exact ih mres h

/-- Every three-way match of `_check_three_way_match` carries a scraped
line whose rounded gross and net differ. -/
lemma checkThreeWayMatch_gross_ne_net (sts : List ScrapedTxn) (pt : PlatformTxn)
    (bts : List BankTxn) (mres : PPB.ThreeWayMatch)
    (h : PPB.checkThreeWayMatch sts pt bts = some mres) :
    round2 |mres.scraped_transaction.gross| ≠ round2 |mres.scraped_transaction.net| := by
  unfold PPB.checkThreeWayMatch at h
  split at h
  · rename_i transfer_amount transfer_date hta htd
    split at h
    · simp at h
    · rename_i hps
      split at h
      · simp at h
      · rename_i r hfb
        exact fallbackScan_gross_ne_net bts pt transfer_amount transfer_date
          pt.to_bankaccount_id sts mres (by rw [hfb, h])
    · rename_i pr paypal_bt scraped_match hps
      dsimp only at h
      split at h
      · simp at h
      · simp at h
      · rename_i bank_bt hbs
        cases h
        exact primaryScan_gross_ne_net sts transfer_amount transfer_date
          pt.from_bankaccount_id bts paypal_bt scraped_match hps
  · simp at h

/-- Claim C6, amended: the simplified PayPal matcher produces a three-way
match only when the fee `round(gross - net, 2)` exceeds 0.01; the
PayPal-to-bank matcher gates the split only on rounded gross ≠ rounded
net — so a fee of exactly 0.01 still produces a three-way match there,
while for every input with equal scraped gross and net neither matcher
ever produces one. -/
theorem c6_amended_fee_gates :
    (∀ (bts : List BankTxn) (sts : List ScrapedTxn) (used : List Nat)
       (pt : PlatformTxn) (mres : SPM.SThreeWayMatch),
       SPM.findThreeWayMatch bts sts used pt = some mres →
       1/100 < mres.fee_amount) ∧
    (∀ (sts : List ScrapedTxn) (pt : PlatformTxn) (bts : List BankTxn)
       (mres : PPB.ThreeWayMatch),
       PPB.checkThreeWayMatch sts pt bts = some mres →
       round2 |mres.scraped_transaction.gross| ≠
         round2 |mres.scraped_transaction.net|) :=
  ⟨fun bts sts used pt mres h => findThreeWayMatch_fee bts sts used pt mres h,
   fun sts pt bts mres h => checkThreeWayMatch_gross_ne_net sts pt bts mres h⟩

unseal Rat.sub Rat.add Rat.mul Rat.inv Rat.ofScientific in
/-- Witness for the amended C6 theorem: the simplified matcher's 1.50-fee
match and the PayPal-to-bank matcher's one-cent-fee match. -/
theorem c6_witness :
    (1 : ℚ)/100 < Cex.spm_150.fee_amount ∧
    round2 |Cex.ppb_cent.scraped_transaction.gross| ≠
      round2 |Cex.ppb_cent.scraped_transaction.net| :=
  ⟨c6_amended_fee_gates.1 [Cex.bank_paypal_side, Cex.bank_net_150] [Cex.scraped_150]
     [] Cex.pt_transfer Cex.spm_150 rfl,
   c6_amended_fee_gates.2 [Cex.scraped_cent] Cex.pt_transfer
     [Cex.bank_paypal_side, Cex.bank_net_cent] Cex.ppb_cent rfl⟩

/-- Step 1 of the returned matcher only appends to each accumulator field. -/
lemma ret_step1_append (bts : List BankTxn) :
    ∀ (l : List PlatformTxn) (s : Returned.RunState),
      ∃ tm tb tp, Returned.step1 bts l s =
        ⟨s.matches_list ++ tm, s.matched_bank_transaction_ids ++ tb,
         s.matched_platform_transaction_ids ++ tp⟩ := by
  intro l
  induction l with
  | nil =>
    intro s
    exact ⟨[], [], [], by simp [Returned.step1]⟩
  | cons pt rest ih =>
    intro s
    rcases hrel : pt.related_bank_transaction with _ | ⟨rid, rl⟩
    · obtain ⟨tm, tb, tp, h⟩ := ih s
      exact ⟨tm, tb, tp, by simp only [Returned.step1, hrel]; exact h⟩
    · rcases hby : Returned.bankTransactionsById bts rid with _ | bt
      · obtain ⟨tm, tb, tp, h⟩ := ih
          ⟨s.matches_list, s.matched_bank_transaction_ids,
           s.matched_platform_transaction_ids ++ [pt.id]⟩
        refine ⟨tm, tb, [pt.id] ++ tp, ?_⟩
        simp only [Returned.step1, hrel, hby]
        rw [h]; simp
      · by_cases hlink : truthyNat bt.transaction_link
        · obtain ⟨tm, tb, tp, h⟩ := ih
            ⟨s.matches_list, s.matched_bank_transaction_ids,
             s.matched_platform_transaction_ids ++ [pt.id]⟩
          refine ⟨tm, tb, [pt.id] ++ tp, ?_⟩
          simp only [Returned.step1, hrel, hby, hlink, if_true]
          rw [h]; simp
        · obtain ⟨tm, tb, tp, h⟩ := ih
            ⟨s.matches_list ++ [⟨pt, bt, Returned.directCriteria⟩],
             s.matched_bank_transaction_ids ++ [bt.id],
             s.matched_platform_transaction_ids ++ [pt.id]⟩
          refine ⟨[⟨pt, bt, Returned.directCriteria⟩] ++ tm, [bt.id] ++ tb,
            [pt.id] ++ tp, ?_⟩
          simp only [Returned.step1, hrel, hby, hlink, if_false]
          rw [h]; simp

/-- Step 2 of the returned matcher only appends to each accumulator field. -/
lemma ret_step2_append (pots : List BankTxn) :
    ∀ (l : List PlatformTxn) (s s' : Returned.RunState),
      Returned.step2 pots l s = some s' →
      ∃ tm tb tp, s' =
        ⟨s.matches_list ++ tm, s.matched_bank_transaction_ids ++ tb,
         s.matched_platform_transaction_ids ++ tp⟩ := by
  intro l
  induction l with
  | nil =>
    intro s s' h
    refine ⟨[], [], [], ?_⟩
    simp only [Returned.step2] at h
    cases h
    simp
  | cons pt rest ih =>
    intro s s' h
    simp only [Returned.step2] at h
    split at h
    · exact ih s s' h
    · split at h
      · exact absurd h (by simp)
      · split at h
        · exact absurd h (by simp)
        · exact ih s s' h
        · rename_i bt heq
          obtain ⟨tm, tb, tp, h2⟩ := ih _ s' h
          exact ⟨⟨pt, bt, Returned.discoveredCriteria⟩ :: tm, bt.id :: tb,
            pt.id :: tp, by simpa using h2⟩

/-- A candidate returned by the Step-2 scan is an unconsumed member of the
pool passing all three criteria, and everything before it in the pool was
either consumed or failing. -/
lemma ret_findCandidate_sound (pt : PlatformTxn) (pa pd : ℚ)
    (matched : List Nat) :
    ∀ (pots : List BankTxn) (bt : BankTxn),
      Returned.findCandidate pt pa pd matched pots = some (some bt) →
      ∃ pre post bd, pots = pre ++ bt :: post ∧ ¬ bt.id ∈ matched ∧
        bt.date = some bd ∧
        (Returned.isAmountMatch pa (bt.amount.getD 0) &&
         Returned.isDateMatch pd bd && Returned.isBankAccountMatch pt bt) = true ∧
        ∀ b ∈ pre, b.id ∈ matched ∨ ∃ bd2, b.date = some bd2 ∧
          (Returned.isAmountMatch pa (b.amount.getD 0) &&
           Returned.isDateMatch pd bd2 && Returned.isBankAccountMatch pt b) = false := by
  intro pots
  induction pots with
  | nil => intro bt h; simp [Returned.findCandidate] at h
  | cons b rest ih =>
    intro bt h
    simp only [Returned.findCandidate] at h
    split at h
    · rename_i hmem
      obtain ⟨pre, post, bd, h1, h2, h3, h4, h5⟩ := ih bt h
      refine ⟨b :: pre, post, bd, by simp [h1], h2, h3, h4, ?_⟩
      intro b2 hb2
      rcases List.mem_cons.1 hb2 with rfl | hb2
      · exact Or.inl hmem
      · exact h5 b2 hb2
    · rename_i hmem
      split at h
      · exact absurd h (by simp)
      · rename_i bd hbd
        split at h
        · rename_i hcrit
          cases h
          exact ⟨[], rest, bd, rfl, hmem, hbd, hcrit, by simp⟩
        · rename_i hcrit
          obtain ⟨pre, post, bd2, h1, h2, h3, h4, h5⟩ := ih bt h
          refine ⟨b :: pre, post, bd2, by simp [h1], h2, h3, h4, ?_⟩
          intro b2 hb2
          rcases List.mem_cons.1 hb2 with rfl | hb2
          · exact Or.inr ⟨bd, hbd, by simpa using hcrit⟩
          · exact h5 b2 hb2

/-- Step 1 processes every direct-linked platform transaction in the list:
its id is marked, and when the linked bank record is present and unclaimed
the direct match is appended and the bank id marked. -/
lemma ret_step1_direct (bts : List BankTxn) (pt : PlatformTxn) (rid : Nat)
    (rl : List Nat) (hrel : pt.related_bank_transaction = rid :: rl) :
    ∀ (l : List PlatformTxn) (s : Returned.RunState), pt ∈ l →
      pt.id ∈ (Returned.step1 bts l s).matched_platform_transaction_ids ∧
      (∀ bt, Returned.bankTransactionsById bts rid = some bt →
        truthyNat bt.transaction_link = false →
        (⟨pt, bt, Returned.directCriteria⟩ : Returned.RMatch) ∈
            (Returned.step1 bts l s).matches_list ∧
          bt.id ∈ (Returned.step1 bts l s).matched_bank_transaction_ids) := by
  intro l
  induction l with
  | nil => intro s hmem; cases hmem
  | cons q rest ih =>
    intro s hmem
    rcases List.mem_cons.1 hmem with rfl | hmem
    · rcases hby : Returned.bankTransactionsById bts rid with _ | bt0
      · have hstep : Returned.step1 bts (pt :: rest) s = Returned.step1 bts rest
            ⟨s.matches_list, s.matched_bank_transaction_ids,
             s.matched_platform_transaction_ids ++ [pt.id]⟩ := by
          simp only [Returned.step1, hrel, hby]
        obtain ⟨tm, tb, tp, happ⟩ := ret_step1_append bts rest
          ⟨s.matches_list, s.matched_bank_transaction_ids,
           s.matched_platform_transaction_ids ++ [pt.id]⟩
        rw [hstep, happ]
        refine ⟨by simp, ?_⟩
        intro bt hbt
        exact absurd hbt (by simp)
      · by_cases hlink : truthyNat bt0.transaction_link
        · have hstep : Returned.step1 bts (pt :: rest) s = Returned.step1 bts rest
              ⟨s.matches_list, s.matched_bank_transaction_ids,
               s.matched_platform_transaction_ids ++ [pt.id]⟩ := by
            simp [Returned.step1, hrel, hby, hlink]
          obtain ⟨tm, tb, tp, happ⟩ := ret_step1_append bts rest
            ⟨s.matches_list, s.matched_bank_transaction_ids,
             s.matched_platform_transaction_ids ++ [pt.id]⟩
          rw [hstep, happ]
          refine ⟨by simp, ?_⟩
          intro bt hbt hl2
          cases hbt
          simp [hlink] at hl2
        · have hstep : Returned.step1 bts (pt :: rest) s = Returned.step1 bts rest
              ⟨s.matches_list ++ [⟨pt, bt0, Returned.directCriteria⟩],
               s.matched_bank_transaction_ids ++ [bt0.id],
               s.matched_platform_transaction_ids ++ [pt.id]⟩ := by
            simp [Returned.step1, hrel, hby, hlink]
          obtain ⟨tm, tb, tp, happ⟩ := ret_step1_append bts rest
            ⟨s.matches_list ++ [⟨pt, bt0, Returned.directCriteria⟩],
             s.matched_bank_transaction_ids ++ [bt0.id],
             s.matched_platform_transaction_ids ++ [pt.id]⟩
          rw [hstep, happ]
          refine ⟨by simp, ?_⟩
          intro bt hbt hl2
          cases hbt
          exact ⟨by simp, by simp⟩
    · rcases hrel2 : q.related_bank_transaction with _ | ⟨rid2, rl2⟩
      · have hstep : Returned.step1 bts (q :: rest) s = Returned.step1 bts rest s := by
          simp only [Returned.step1, hrel2]
        rw [hstep]
        exact ih s hmem
      · rcases hby2 : Returned.bankTransactionsById bts rid2 with _ | bt2
        · have hstep : Returned.step1 bts (q :: rest) s = Returned.step1 bts rest
              ⟨s.matches_list, s.matched_bank_transaction_ids,
               s.matched_platform_transaction_ids ++ [q.id]⟩ := by
            simp only [Returned.step1, hrel2, hby2]
          rw [hstep]
          exact ih _ hmem
        · by_cases hlink2 : truthyNat bt2.transaction_link
          · have hstep : Returned.step1 bts (q :: rest) s = Returned.step1 bts rest
                ⟨s.matches_list, s.matched_bank_transaction_ids,
                 s.matched_platform_transaction_ids ++ [q.id]⟩ := by
              simp [Returned.step1, hrel2, hby2, hlink2]
            rw [hstep]
            exact ih _ hmem
          · have hstep : Returned.step1 bts (q :: rest) s = Returned.step1 bts rest
                ⟨s.matches_list ++ [⟨q, bt2, Returned.directCriteria⟩],
                 s.matched_bank_transaction_ids ++ [bt2.id],
                 s.matched_platform_transaction_ids ++ [q.id]⟩ := by
              simp [Returned.step1, hrel2, hby2, hlink2]
            rw [hstep]
            exact ih _ hmem

/-- If the direct link of `pt` points at an absent bank record or at one
already carrying a truthy link, Step 1 never emits a Match whose platform
transaction equals `pt`. -/
lemma ret_step1_no_match (bts : List BankTxn) (pt : PlatformTxn)
    (hsafe : ∀ rid rl, pt.related_bank_transaction = rid :: rl →
      Returned.bankTransactionsById bts rid = none ∨
      ∃ bt, Returned.bankTransactionsById bts rid = some bt ∧
        truthyNat bt.transaction_link = true) :
    ∀ (l : List PlatformTxn) (s : Returned.RunState),
      (∀ m ∈ s.matches_list, m.platform_transaction ≠ pt) →
      ∀ m ∈ (Returned.step1 bts l s).matches_list, m.platform_transaction ≠ pt := by
  intro l
  induction l with
  | nil => intro s hs; simpa [Returned.step1] using hs
  | cons q rest ih =>
    intro s hs
    rcases hrel2 : q.related_bank_transaction with _ | ⟨rid2, rl2⟩
    · have hstep : Returned.step1 bts (q :: rest) s = Returned.step1 bts rest s := by
        simp [Returned.step1, hrel2]
      rw [hstep]; exact ih s hs
    · rcases hby2 : Returned.bankTransactionsById bts rid2 with _ | bt2
      · have hstep : Returned.step1 bts (q :: rest) s = Returned.step1 bts rest
            ⟨s.matches_list, s.matched_bank_transaction_ids,
             s.matched_platform_transaction_ids ++ [q.id]⟩ := by
          simp [Returned.step1, hrel2, hby2]
        rw [hstep]; exact ih _ hs
      · by_cases hlink2 : truthyNat bt2.transaction_link
        · have hstep : Returned.step1 bts (q :: rest) s = Returned.step1 bts rest
              ⟨s.matches_list, s.matched_bank_transaction_ids,
               s.matched_platform_transaction_ids ++ [q.id]⟩ := by
            simp [Returned.step1, hrel2, hby2, hlink2]
          rw [hstep]; exact ih _ hs
        · have hq : q ≠ pt := by
            intro hqp
            rcases hsafe rid2 rl2 (by rw [← hqp]; exact hrel2) with hnone | ⟨bt3, hbt3, hl3⟩
            · rw [hby2] at hnone; cases hnone
            · rw [hby2] at hbt3
              cases hbt3
              exact hlink2 hl3
          have hstep : Returned.step1 bts (q :: rest) s = Returned.step1 bts rest
              ⟨s.matches_list ++ [⟨q, bt2, Returned.directCriteria⟩],
               s.matched_bank_transaction_ids ++ [bt2.id],
               s.matched_platform_transaction_ids ++ [q.id]⟩ := by
            simp [Returned.step1, hrel2, hby2, hlink2]
          rw [hstep]
          refine ih _ ?_
          intro m hm
          rcases List.mem_append.1 hm with hm | hm
          · exact hs m hm
          · rcases List.mem_singleton.1 hm with rfl
            simpa using hq
    
/-- Step 2 never emits a Match for a platform transaction whose id is
already marked: the invariant that `pt` occurs in no match is preserved. -/
lemma ret_step2_no_match (pots : List BankTxn) (pt : PlatformTxn) :
    ∀ (l : List PlatformTxn) (s s' : Returned.RunState),
      Returned.step2 pots l s = some s' →
      pt.id ∈ s.matched_platform_transaction_ids →
      (∀ m ∈ s.matches_list, m.platform_transaction ≠ pt) →
      (pt.id ∈ s'.matched_platform_transaction_ids ∧
       ∀ m ∈ s'.matches_list, m.platform_transaction ≠ pt) := by
  intro l
  induction l with
  | nil =>
    intro s s' h hid hs
    simp only [Returned.step2] at h
    cases h
    exact ⟨hid, hs⟩
  | cons q rest ih =>
    intro s s' h hid hs
    simp only [Returned.step2] at h
    split at h
    · exact ih s s' h hid hs
    · rename_i hqid
      split at h
      · exact absurd h (by simp)
      · split at h
        · exact absurd h (by simp)
        · exact ih s s' h hid hs
        · rename_i bt heq
          refine ih _ s' h (by simpa using Or.inl hid) ?_
          intro m hm
          rcases List.mem_append.1 hm with hm | hm
          · exact hs m hm
          · rcases List.mem_singleton.1 hm with rfl
            intro hqpt
            exact hqid (by rw [show q = pt from hqpt]; exact hid)

/-- `firstMinBy` never returns `none` on a nonempty list. -/
lemma firstMinBy_ne_none {α : Type} (f : α → ℚ) (x : α) (l : List α) :
    firstMinBy f (x :: l) ≠ none := by
  simp only [firstMinBy]
  rcases firstMinBy f l with _ | b
  · simp
  · by_cases hlt : f b < f x
    · simp [hlt]
    · simp [hlt]

/-- `firstMinBy` returns an element of the list. -/
lemma firstMinBy_mem {α : Type} (f : α → ℚ) :
    ∀ (l : List α) (a : α), firstMinBy f l = some a → a ∈ l := by
  intro l
  induction l with
  | nil => intro a h; simp [firstMinBy] at h
  | cons x rest ih =>
    intro a h
    rcases hfm : firstMinBy f rest with _ | b
    · simp only [firstMinBy, hfm] at h
      cases h
      exact List.mem_cons_self _ _
    · simp only [firstMinBy, hfm] at h
      by_cases hlt : f b < f x
      · rw [if_pos hlt] at h
        cases h
        exact List.mem_cons_of_mem _ (ih a hfm)
      · rw [if_neg hlt] at h
        cases h
        exact List.mem_cons_self _ _

/-- `firstMinBy` returns a minimiser of the key. -/
lemma firstMinBy_le {α : Type} (f : α → ℚ) :
    ∀ (l : List α) (a : α), firstMinBy f l = some a → ∀ b ∈ l, f a ≤ f b := by
  intro l
  induction l with
  | nil => intro a h; simp [firstMinBy] at h
  | cons x rest ih =>
    intro a h b hb
    rcases hfm : firstMinBy f rest with _ | c
    · rcases rest with _ | ⟨y, ys⟩
      · simp only [firstMinBy, hfm] at h
        cases h
        rcases List.mem_cons.1 hb with rfl | hb
        · exact le_refl _
        · cases hb
      · exact absurd hfm (firstMinBy_ne_none f y ys)
    · simp only [firstMinBy, hfm] at h
      by_cases hlt : f c < f x
      · rw [if_pos hlt] at h
        cases h
        rcases List.mem_cons.1 hb with rfl | hb
        · exact le_of_lt hlt
        · exact ih a hfm b hb
      · rw [if_neg hlt] at h
        cases h
        rcases List.mem_cons.1 hb with rfl | hb
        · exact le_refl _
        · exact le_trans (not_lt.1 hlt) (ih c hfm b hb)

/-- `memberDates` pairs every member with its parsed date. -/
lemma memberDates_sound :
    ∀ (l : List PlatformTxn) (dl : List (PlatformTxn × ℚ)),
      memberDates l = some dl →
      (∀ pd ∈ dl, pd.1 ∈ l ∧ pd.1.date = some pd.2) ∧
      (∀ q ∈ l, ∃ qd, (q, qd) ∈ dl) := by
  intro l
  induction l with
  | nil =>
    intro dl h
    simp only [memberDates] at h
    cases h
    exact ⟨by simp, by simp⟩
  | cons pt rest ih =>
    intro dl h
    simp only [memberDates] at h
    split at h
    · exact absurd h (by simp)
    · rename_i d hd
      rcases hrest : memberDates rest with _ | dl2
      · rw [hrest] at h; cases h
      · rw [hrest] at h
        simp only [Option.map_some'] at h
        cases h
        obtain ⟨h1, h2⟩ := ih dl2 hrest
        constructor
        · intro pd hpd
          rcases List.mem_cons.1 hpd with rfl | hpd
          · exact ⟨List.mem_cons_self _ _, hd⟩
          · exact ⟨List.mem_cons_of_mem _ (h1 pd hpd).1, (h1 pd hpd).2⟩
        · intro q hq
          rcases List.mem_cons.1 hq with rfl | hq
          · exact ⟨d, List.mem_cons_self _ _⟩
          · obtain ⟨qd, hqd⟩ := h2 q hq
            exact ⟨qd, List.mem_cons_of_mem _ hqd⟩

/-- In an association list with pairwise-distinct keys, a key determines
its bucket. -/
lemma nodup_keys_eq {α : Type} :
    ∀ (l : List (GroupKey × α)) (k : GroupKey) (g1 g2 : α),
      (l.map Prod.fst).Nodup → (k, g1) ∈ l → (k, g2) ∈ l → g1 = g2 := by
  intro l
  induction l with
  | nil => intro k g1 g2 _ h1; cases h1
  | cons e rest ih =>
    intro k g1 g2 hnd h1 h2
    simp only [List.map_cons, List.nodup_cons] at hnd
    rcases List.mem_cons.1 h1 with heq1 | hm1
    · rcases List.mem_cons.1 h2 with heq2 | hm2
      · rw [← heq1] at heq2
        cases heq2
        rfl
      · subst heq1
        exact absurd (show (k, g1).1 ∈ rest.map Prod.fst from
          List.mem_map.2 ⟨(k, g2), hm2, rfl⟩) hnd.1
    · rcases List.mem_cons.1 h2 with heq2 | hm2
      · subst heq2
        exact absurd (show (k, g2).1 ∈ rest.map Prod.fst from
          List.mem_map.2 ⟨(k, g1), hm1, rfl⟩) hnd.1
      · exact ih k g1 g2 hnd.2 hm1 hm2

/-- The date-closest fallback of the duplicate-group candidate selection:
the selected member carries a parsed date at minimal distance from the
bank record's date. -/
lemma argminDates_sound (bank_date : ℚ) (grp : List PlatformTxn) (c : PlatformTxn)
    (h : (memberDates grp).map
        (fun l => (firstMinBy (fun pd => |pd.2 - bank_date|) l).map (fun pd => pd.1)) =
      some (some c)) :
    c ∈ grp ∧ ∃ cd, c.date = some cd ∧
      ∀ q ∈ grp, ∀ qd, q.date = some qd → |cd - bank_date| ≤ |qd - bank_date| := by
  rcases hmd : memberDates grp with _ | dl
  · rw [hmd] at h; cases h
  · rw [hmd] at h
    simp only [Option.map_some'] at h
    have hinj := Option.some.inj h
    rcases hfm : firstMinBy (fun pd => |pd.2 - bank_date|) dl with _ | pd
    · rw [hfm] at hinj; cases hinj
    · rw [hfm] at hinj
      simp only [Option.map_some'] at hinj
      have hc := Option.some.inj hinj
      subst hc
      obtain ⟨h1, h2⟩ := memberDates_sound grp dl hmd
      obtain ⟨hc_mem, hc_date⟩ := h1 pd (firstMinBy_mem _ dl pd hfm)
      refine ⟨hc_mem, pd.2, hc_date, ?_⟩
      intro q hq qd hqd
      obtain ⟨qd2, hqd2⟩ := h2 q hq
      have hq_date : q.date = some qd2 := (h1 _ hqd2).2
      rw [hqd] at hq_date
      have hqeq := Option.some.inj hq_date
      subst hqeq
      exact firstMinBy_le _ dl pd hfm (q, qd) hqd2

/-- The `{bt['id']: bt}` dictionary lookup returns a record whose id is the
key looked up, drawn from the list. -/
lemma bankById_fold_sound (i : Nat) :
    ∀ (bts : List BankTxn) (acc : Option BankTxn) (bt : BankTxn),
      bts.foldl (fun acc b => if b.id = i then some b else acc) acc = some bt →
      (bt.id = i ∧ bt ∈ bts) ∨ acc = some bt := by
  intro bts
  induction bts with
  | nil => intro acc bt h; exact Or.inr h
  | cons b rest ih =>
    intro acc bt h
    simp only [List.foldl_cons] at h
    rcases ih _ bt h with ⟨h1, h2⟩ | h2
    · exact Or.inl ⟨h1, List.mem_cons_of_mem _ h2⟩
    · by_cases hb : b.id = i
      · rw [if_pos hb] at h2
        cases h2
        exact Or.inl ⟨hb, List.mem_cons_self _ _⟩
      · rw [if_neg hb] at h2
        exact Or.inr h2

/-- `bank_transactions_by_id.get(i)` (returned flavor) returns a member of
the list whose id is `i`. -/
lemma ret_bankById_sound (bts : List BankTxn) (i : Nat) (bt : BankTxn)
    (h : Returned.bankTransactionsById bts i = some bt) : bt.id = i ∧ bt ∈ bts := by
  simp only [Returned.bankTransactionsById] at h
  rcases bankById_fold_sound i bts none bt h with h2 | h2
  · exact h2
  · cases h2

/-- `bank_transactions_by_id.get(i)` (received flavor) returns a member of
the list whose id is `i`. -/
lemma rec_bankById_sound (bts : List BankTxn) (i : Nat) (bt : BankTxn)
    (h : Received.bankTransactionsById bts i = some bt) : bt.id = i ∧ bt ∈ bts := by
  simp only [Received.bankTransactionsById] at h
  rcases bankById_fold_sound i bts none bt h with h2 | h2
  · exact h2
  · cases h2

/-- After `used_map[k] = v` the key `k` is present. -/
lemma usedMapMem_set_self (m : UsedMap) (k v : Nat) :
    usedMapMem (usedMapSet m k v) k = true := by
  simp only [usedMapSet]
  by_cases hm : usedMapMem m k
  · rw [if_pos hm]
    simp only [usedMapMem, List.any_map, List.any_eq_true] at hm ⊢
    obtain ⟨e, he, hek⟩ := hm
    refine ⟨e, he, ?_⟩
    simp [of_decide_eq_true hek]
  · rw [if_neg hm]
    simp [usedMapMem, List.any_append]

/-- Writing one key never removes another. -/
lemma usedMapMem_set_mono (m : UsedMap) (k v j : Nat) (h : usedMapMem m j = true) :
    usedMapMem (usedMapSet m k v) j = true := by
  simp only [usedMapSet]
  by_cases hm : usedMapMem m k
  · rw [if_pos hm]
    simp only [usedMapMem, List.any_map, List.any_eq_true] at h ⊢
    obtain ⟨e, he, hej⟩ := h
    refine ⟨e, he, ?_⟩
    simp only [Function.comp]
    by_cases hek : e.1 = k
    · simp [hek, hek.symm.trans (of_decide_eq_true hej)]
    · simpa [hek] using hej
  · rw [if_neg hm]
    simp only [usedMapMem, List.any_append] at h ⊢
    simp [h]

/-- The no-op `available_bts` filter against the still-empty
`newly_matched_bank_transaction_ids` set keeps every record. -/
lemma filter_not_mem_nil (l : List BankTxn) :
    l.filter (fun bt => decide (bt.id ∉ ([] : List Nat))) = l := by
  induction l with
  | nil => rfl
  | cons b rest ih => simp [List.filter, ih]

/-- A relation holding for all pairs of members holds pairwise. -/
lemma pairwise_of_all {α : Type} (R : α → α → Prop) :
    ∀ (l : List α), (∀ a ∈ l, ∀ b ∈ l, R a b) → l.Pairwise R := by
  intro l
  induction l with
  | nil => intro _; exact List.Pairwise.nil
  | cons a rest ih =>
    intro h
    refine List.Pairwise.cons ?_ (ih ?_)
    · intro b hb
      exact h a (List.mem_cons_self _ _) b (List.mem_cons_of_mem _ hb)
    · intro x hx y hy
      exact h x (List.mem_cons_of_mem _ hx) y (List.mem_cons_of_mem _ hy)

/-- Every member of a bucket after one `defaultdict` insertion was already
in that key's bucket, or is the inserted transaction under its key. -/
lemma insertGrouped_members :
    ∀ (acc : List (GroupKey × List PlatformTxn)) (k : GroupKey) (pt : PlatformTxn)
      (k2 : GroupKey) (grp : List PlatformTxn),
      (k2, grp) ∈ insertGrouped k pt acc → ∀ q ∈ grp,
        (∃ grp0, (k2, grp0) ∈ acc ∧ q ∈ grp0) ∨ (q = pt ∧ k2 = k) := by
  intro acc
  induction acc with
  | nil =>
    intro k pt k2 grp hmem q hq
    simp only [insertGrouped, List.mem_singleton, Prod.mk.injEq] at hmem
    obtain ⟨hk, hg⟩ := hmem
    subst hk
    subst hg
    rcases List.mem_singleton.1 hq with rfl
    exact Or.inr ⟨rfl, rfl⟩
  | cons e rest ih =>
    intro k pt k2 grp hmem q hq
    obtain ⟨k3, g3⟩ := e
    simp only [insertGrouped] at hmem
    by_cases hk : k3 = k
    · rw [if_pos hk] at hmem
      rcases List.mem_cons.1 hmem with heq | hmem2
      · simp only [Prod.mk.injEq] at heq
        obtain ⟨hk2, hg⟩ := heq
        subst hk2
        subst hg
        rcases List.mem_append.1 hq with hq2 | hq2
        · exact Or.inl ⟨g3, List.mem_cons_self _ _, hq2⟩
        · rcases List.mem_singleton.1 hq2 with rfl
          exact Or.inr ⟨rfl, hk⟩
      · exact Or.inl ⟨grp, List.mem_cons_of_mem _ hmem2, hq⟩
    · rw [if_neg hk] at hmem
      rcases List.mem_cons.1 hmem with heq | hmem2
      · simp only [Prod.mk.injEq] at heq
        obtain ⟨hk2, hg⟩ := heq
        subst hk2
        subst hg
        exact Or.inl ⟨grp, List.mem_cons_self _ _, hq⟩
      · rcases ih k pt k2 grp hmem2 q hq with ⟨grp0, hg0, hq0⟩ | h2
        · exact Or.inl ⟨grp0, List.mem_cons_of_mem _ hg0, hq0⟩
        · exact Or.inr h2

/-- Members of `grouped_pts` buckets over an accumulator: each comes from
the accumulator's bucket of the same key or from the folded list with the
bucket's key. -/
lemma groupPtsBy_members_aux (key : PlatformTxn → GroupKey) :
    ∀ (pts : List PlatformTxn) (acc : List (GroupKey × List PlatformTxn))
      (k : GroupKey) (grp : List PlatformTxn),
      (k, grp) ∈ pts.foldl (fun a pt => insertGrouped (key pt) pt a) acc →
      ∀ q ∈ grp,
        (∃ grp0, (k, grp0) ∈ acc ∧ q ∈ grp0) ∨ (q ∈ pts ∧ key q = k) := by
  intro pts
  induction pts with
  | nil => intro acc k grp hmem q hq; exact Or.inl ⟨grp, hmem, hq⟩
  | cons pt rest ih =>
    intro acc k grp hmem q hq
    simp only [List.foldl_cons] at hmem
    rcases ih _ k grp hmem q hq with ⟨grp0, hg0, hq0⟩ | ⟨hqr, hkq⟩
    · rcases insertGrouped_members acc (key pt) pt k grp0 hg0 q hq0 with
        ⟨grp1, hg1, hq1⟩ | ⟨hqpt, hkk⟩
      · exact Or.inl ⟨grp1, hg1, hq1⟩
      · subst hqpt
        exact Or.inr ⟨List.mem_cons_self _ _, hkk.symm⟩
    · exact Or.inr ⟨List.mem_cons_of_mem _ hqr, hkq⟩

/-- Every member of a `grouped_pts` bucket is one of the grouped
transactions, and its key is the bucket's key. -/
lemma groupPtsBy_members (key : PlatformTxn → GroupKey) (pts : List PlatformTxn)
    (k : GroupKey) (grp : List PlatformTxn) (h : (k, grp) ∈ groupPtsBy key pts) :
    ∀ q ∈ grp, q ∈ pts ∧ key q = k := by
  intro q hq
  rcases groupPtsBy_members_aux key pts [] k grp h q hq with ⟨grp0, hg0, _⟩ | h2
  · cases hg0
  · exact h2

/-- One `defaultdict` insertion either keeps the key list (key present) or
appends the fresh key at the end. -/
lemma insertGrouped_keys :
    ∀ (acc : List (GroupKey × List PlatformTxn)) (k : GroupKey) (pt : PlatformTxn),
      ((insertGrouped k pt acc).map Prod.fst = acc.map Prod.fst ∧
        k ∈ acc.map Prod.fst) ∨
      ((insertGrouped k pt acc).map Prod.fst = acc.map Prod.fst ++ [k] ∧
        k ∉ acc.map Prod.fst) := by
  intro acc
  induction acc with
  | nil => intro k pt; exact Or.inr ⟨by simp [insertGrouped], by simp⟩
  | cons e rest ih =>
    intro k pt
    obtain ⟨k3, g3⟩ := e
    simp only [insertGrouped]
    by_cases hk : k3 = k
    · rw [if_pos hk]
      exact Or.inl ⟨by simp, by simp [hk]⟩
    · rw [if_neg hk]
      rcases ih k pt with ⟨h1, h2⟩ | ⟨h1, h2⟩
      · exact Or.inl ⟨by simp [h1], by simp [h2]⟩
      · refine Or.inr ⟨by simp [h1], ?_⟩
        simp only [List.map_cons, List.mem_cons]
        rintro (hkk | hmm)
        · exact hk hkk.symm
        · exact h2 hmm

/-- The bucket keys of `grouped_pts` are pairwise distinct (dict keys). -/
lemma groupPtsBy_keys_nodup_aux (key : PlatformTxn → GroupKey) :
    ∀ (pts : List PlatformTxn) (acc : List (GroupKey × List PlatformTxn)),
      (acc.map Prod.fst).Nodup →
      ((pts.foldl (fun a pt => insertGrouped (key pt) pt a) acc).map Prod.fst).Nodup := by
  intro pts
  induction pts with
  | nil => intro acc h; exact h
  | cons pt rest ih =>
    intro acc h
    simp only [List.foldl_cons]
    apply ih
    rcases insertGrouped_keys acc (key pt) pt with ⟨h1, _⟩ | ⟨h1, h2⟩
    · rw [h1]; exact h
    · rw [h1]
      exact h.append (List.nodup_singleton _)
        (by simpa [List.disjoint_singleton] using h2)

/-- The bucket keys of `grouped_pts` are pairwise distinct. -/
lemma groupPtsBy_keys_nodup (key : PlatformTxn → GroupKey) (pts : List PlatformTxn) :
    ((groupPtsBy key pts).map Prod.fst).Nodup :=
  groupPtsBy_keys_nodup_aux key pts [] (by simp)

/-- A duplicate group is a `grouped_pts` bucket with more than one member. -/
lemma dupGroups_mem (key : PlatformTxn → GroupKey) (pts : List PlatformTxn)
    (kg : GroupKey × List PlatformTxn) (h : kg ∈ duplicateGroupsBy key pts) :
    kg ∈ groupPtsBy key pts ∧ 1 < kg.2.length := by
  have h2 := List.mem_filter.1 h
  exact ⟨h2.1, of_decide_eq_true h2.2⟩

/-- The duplicate-group keys are pairwise distinct. -/
lemma dupGroups_keys_nodup (key : PlatformTxn → GroupKey) (pts : List PlatformTxn) :
    ((duplicateGroupsBy key pts).map Prod.fst).Nodup :=
  (groupPtsBy_keys_nodup key pts).sublist
    ((List.filter_sublist _).map Prod.fst)

/-- Soundness of the returned-flavor duplicate-group candidate selection:
the chosen member belongs to the group, and is either (player id truthy)
one attributed to the player, else — when no member is so attributed — a
member whose date is closest to the bank record's date. -/
lemma ret_pickCandidate_sound (pid : Option Nat) (bd : ℚ) (grp : List PlatformTxn)
    (c : PlatformTxn) (h : Returned.pickCandidate pid bd grp = some (some c)) :
    c ∈ grp ∧
      ((truthyNat pid = true ∧ c.added_by = pid) ∨
       ((∀ p ∈ grp, ¬(truthyNat pid = true ∧ p.added_by = pid)) ∧
        ∃ cd, c.date = some cd ∧
          ∀ q ∈ grp, ∀ qd, q.date = some qd → |cd - bd| ≤ |qd - bd|)) := by
  by_cases htr : truthyNat pid = true
  · rcases hfl : grp.filter (fun p => decide (p.added_by = pid)) with _ | ⟨p, ps⟩
    · have hnone : ∀ p ∈ grp, ¬ p.added_by = pid := by
        intro p hp hadd
        have hpmem : p ∈ grp.filter (fun p => decide (p.added_by = pid)) :=
          List.mem_filter.2 ⟨hp, by simp [hadd]⟩
        rw [hfl] at hpmem
        cases hpmem
      have h2 : (memberDates grp).map
          (fun l => (firstMinBy (fun pd => |pd.2 - bd|) l).map (fun pd => pd.1)) =
          some (some c) := by
        simpa [Returned.pickCandidate, htr, hfl] using h
      obtain ⟨hc, cd, hcd, hmin⟩ := argminDates_sound bd grp c h2
      exact ⟨hc, Or.inr ⟨fun p hp hand => hnone p hp hand.2, cd, hcd, hmin⟩⟩
    · have hceq : p = c := by
        have h2 := h
        simp [Returned.pickCandidate, htr, hfl] at h2
        exact h2
      have hpmem : p ∈ grp.filter (fun p => decide (p.added_by = pid)) := by
        rw [hfl]; exact List.mem_cons_self _ _
      obtain ⟨hpg, hpa⟩ := List.mem_filter.1 hpmem
      subst hceq
      exact ⟨hpg, Or.inl ⟨htr, of_decide_eq_true hpa⟩⟩
  · have h2 : (memberDates grp).map
        (fun l => (firstMinBy (fun pd => |pd.2 - bd|) l).map (fun pd => pd.1)) =
        some (some c) := by
      simpa [Returned.pickCandidate, htr] using h
    obtain ⟨hc, cd, hcd, hmin⟩ := argminDates_sound bd grp c h2
    exact ⟨hc, Or.inr ⟨fun p hp hand => htr hand.1, cd, hcd, hmin⟩⟩

/-- Soundness of the received-flavor duplicate-group candidate selection:
the chosen member belongs to the group, and is either one whose `Added_By`
equals the matcher's user, else — when no member qualifies — a member whose
date is closest to the bank record's date. -/
lemma rec_pickCandidate_sound (m : Received.Matcher) (bd : ℚ)
    (grp : List PlatformTxn) (c : PlatformTxn)
    (h : Received.pickCandidate m bd grp = some (some c)) :
    c ∈ grp ∧
      (c.added_by = some m.user_id ∨
       ((∀ p ∈ grp, ¬ p.added_by = some m.user_id) ∧
        ∃ cd, c.date = some cd ∧
          ∀ q ∈ grp, ∀ qd, q.date = some qd → |cd - bd| ≤ |qd - bd|)) := by
  rcases hfl : grp.filter (fun p => decide (p.added_by = some m.user_id)) with _ | ⟨p, ps⟩
  · have hnone : ∀ p ∈ grp, ¬ p.added_by = some m.user_id := by
      intro p hp hadd
      have hpmem : p ∈ grp.filter (fun p => decide (p.added_by = some m.user_id)) :=
        List.mem_filter.2 ⟨hp, by simp [hadd]⟩
      rw [hfl] at hpmem
      cases hpmem
    have h2 : (memberDates grp).map
        (fun l => (firstMinBy (fun pd => |pd.2 - bd|) l).map (fun pd => pd.1)) =
        some (some c) := by
      simpa [Received.pickCandidate, hfl] using h
    obtain ⟨hc, cd, hcd, hmin⟩ := argminDates_sound bd grp c h2
    exact ⟨hc, Or.inr ⟨hnone, cd, hcd, hmin⟩⟩
  · have hceq : p = c := by
      have h2 := h
      simp [Received.pickCandidate, hfl] at h2
      exact h2
    have hpmem : p ∈ grp.filter (fun p => decide (p.added_by = some m.user_id)) := by
      rw [hfl]; exact List.mem_cons_self _ _
    obtain ⟨hpg, hpa⟩ := List.mem_filter.1 hpmem
    subst hceq
    exact ⟨hpg, Or.inl (of_decide_eq_true hpa)⟩

/-- One pass of the returned duplicate-resolution inner loop over the
groups: either nothing fires and the state is unchanged, or exactly one
group — none of whose members was consumed — fires, appending one match for
its selected candidate and consuming every member id and the bank id. -/
lemma ret_rgfb_chr (pid : Option Nat) (bt : BankTxn) (bd : ℚ) :
    ∀ (groups : List (GroupKey × List PlatformTxn)) (s s' : Returned.ResolveState),
      Returned.resolveGroupsForBt pid bt bd groups s = some s' →
      s' = s ∨
      ∃ k grp c, (k, grp) ∈ groups ∧
        (∀ p ∈ grp, p.id ∉ s.newly_matched_pt_ids) ∧
        Returned.pickCandidate pid bd grp = some (some c) ∧
        s' = { new_matches := s.new_matches ++
                 [{ platform_transaction := c, bank_transaction := bt,
                    match_criteria := Returned.discoveredCriteria }],
               newly_matched_pt_ids :=
                 s.newly_matched_pt_ids ++ grp.map (fun p => p.id),
               newly_matched_bt_ids := s.newly_matched_bt_ids ++ [bt.id] } := by
  intro groups
  induction groups with
  | nil =>
    intro s s' h
    simp only [Returned.resolveGroupsForBt] at h
    cases h
    exact Or.inl rfl
  | cons g rest ih =>
    intro s s' h
    obtain ⟨k0, grp0⟩ := g
    simp only [Returned.resolveGroupsForBt] at h
    split at h
    · rcases ih s s' h with h1 | ⟨k, grp, c, h1, h2, h3, h4⟩
      · exact Or.inl h1
      · exact Or.inr ⟨k, grp, c, List.mem_cons_of_mem _ h1, h2, h3, h4⟩
    · rename_i hany
      have hany2 : ∀ p ∈ grp0, p.id ∉ s.newly_matched_pt_ids := by
        intro p hp hpid
        exact hany (List.any_eq_true.2 ⟨p, hp, by simpa using hpid⟩)
      split at h
      · rcases ih s s' h with h1 | ⟨k, grp, c, h1, h2, h3, h4⟩
        · exact Or.inl h1
        · exact Or.inr ⟨k, grp, c, List.mem_cons_of_mem _ h1, h2, h3, h4⟩
      · rename_i ref_pt tl
        split at h
        · exact absurd h (by simp)
        · rename_i ref_date hdate
          split at h
          · split at h
            · exact absurd h (by simp)
            · rcases ih s s' h with h1 | ⟨k, grp, c, h1, h2, h3, h4⟩
              · exact Or.inl h1
              · exact Or.inr ⟨k, grp, c, List.mem_cons_of_mem _ h1, h2, h3, h4⟩
            · rename_i c hpick
              cases h
              exact Or.inr ⟨k0, ref_pt :: tl, c, List.mem_cons_self _ _, hany2, hpick, rfl⟩
          · rcases ih s s' h with h1 | ⟨k, grp, c, h1, h2, h3, h4⟩
            · exact Or.inl h1
            · exact Or.inr ⟨k, grp, c, List.mem_cons_of_mem _ h1, h2, h3, h4⟩

/-- One pass of the received duplicate-resolution inner loop over the
groups: either nothing fires and the state is unchanged, or exactly one
group fires, requiring an unclaimed checkbook payment for the selected
candidate and consuming every member id, the bank id and the payment id. -/
lemma rec_rgfb_chr (m : Received.Matcher) (bt : BankTxn) (bd : ℚ) :
    ∀ (groups : List (GroupKey × List PlatformTxn)) (s s' : Received.ResolveState),
      Received.resolveGroupsForBt m bt bd groups s = some s' →
      s' = s ∨
      ∃ k grp c cp, (k, grp) ∈ groups ∧
        (∀ p ∈ grp, p.id ∉ s.newly_matched_pt_ids) ∧
        Received.pickCandidate m bd grp = some (some c) ∧
        Received.findMatchingCheckbookPayment m bt c false = some (some cp) ∧
        usedMapMem m.used_checkbook_payment_ids cp.id = false ∧
        usedMapMem s.newly_matched_cp_ids_map cp.id = false ∧
        s' = { new_matches := s.new_matches ++
                 [{ platform_transaction := c, bank_transaction := bt,
                    checkbook_payment := some cp,
                    match_criteria := Received.resolveCriteria }],
               newly_matched_pt_ids :=
                 s.newly_matched_pt_ids ++ grp.map (fun p => p.id),
               newly_matched_bt_ids := s.newly_matched_bt_ids ++ [bt.id],
               newly_matched_cp_ids_map :=
                 usedMapSet s.newly_matched_cp_ids_map cp.id c.id } := by
  intro groups
  induction groups with
  | nil =>
    intro s s' h
    simp only [Received.resolveGroupsForBt] at h
    cases h
    exact Or.inl rfl
  | cons g rest ih =>
    intro s s' h
    obtain ⟨k0, grp0⟩ := g
    simp only [Received.resolveGroupsForBt] at h
    split at h
    · rcases ih s s' h with h1 | ⟨k, grp, c, cp, h1, h2, h3, h4, h5, h6, h7⟩
      · exact Or.inl h1
      · exact Or.inr ⟨k, grp, c, cp, List.mem_cons_of_mem _ h1, h2, h3, h4, h5, h6, h7⟩
    · rename_i hany
      have hany2 : ∀ p ∈ grp0, p.id ∉ s.newly_matched_pt_ids := by
        intro p hp hpid
        exact hany (List.any_eq_true.2 ⟨p, hp, by simpa using hpid⟩)
      split at h
      · rcases ih s s' h with h1 | ⟨k, grp, c, cp, h1, h2, h3, h4, h5, h6, h7⟩
        · exact Or.inl h1
        · exact Or.inr ⟨k, grp, c, cp, List.mem_cons_of_mem _ h1, h2, h3, h4, h5, h6, h7⟩
      · rename_i ref_pt tl
        split at h
        · exact absurd h (by simp)
        · rename_i ref_date hdate
          split at h
          · split at h
            · exact absurd h (by simp)
            · rcases ih s s' h with h1 | ⟨k, grp, c, cp, h1, h2, h3, h4, h5, h6, h7⟩
              · exact Or.inl h1
              · exact Or.inr ⟨k, grp, c, cp, List.mem_cons_of_mem _ h1, h2, h3, h4, h5, h6, h7⟩
            · rename_i c hpick
              split at h
              · exact absurd h (by simp)
              · rcases ih s s' h with h1 | ⟨k, grp, c2, cp, h1, h2, h3, h4, h5, h6, h7⟩
                · exact Or.inl h1
                · exact Or.inr ⟨k, grp, c2, cp, List.mem_cons_of_mem _ h1, h2, h3, h4, h5, h6, h7⟩
              · rename_i cp hcp
                split at h
                · rename_i hguard
                  simp only [Bool.and_eq_true, Bool.not_eq_true'] at hguard
                  obtain ⟨hg1, hg2⟩ := hguard
                  cases h
                  exact Or.inr ⟨k0, ref_pt :: tl, c, cp, List.mem_cons_self _ _, hany2,
                    hpick, hcp, hg1, hg2, rfl⟩
                · rcases ih s s' h with h1 | ⟨k, grp, c2, cp2, h1, h2, h3, h4, h5, h6, h7⟩
                  · exact Or.inl h1
                  · exact Or.inr ⟨k, grp, c2, cp2, List.mem_cons_of_mem _ h1,
                      h2, h3, h4, h5, h6, h7⟩
          · rcases ih s s' h with h1 | ⟨k, grp, c, cp, h1, h2, h3, h4, h5, h6, h7⟩
            · exact Or.inl h1
            · exact Or.inr ⟨k, grp, c, cp, List.mem_cons_of_mem _ h1, h2, h3, h4, h5, h6, h7⟩

/-- The returned duplicate-resolution outer loop only appends matches; the
consumed bank ids form a sublist of the iterated bank records (so each bank
record fires at most once), and every appended match pairs a selected
duplicate-group candidate with one of the iterated bank records. -/
lemma ret_resolveLoop_sound (pid : Option Nat)
    (groups : List (GroupKey × List PlatformTxn)) :
    ∀ (bts : List BankTxn) (s s' : Returned.ResolveState),
      Returned.resolveLoop pid groups bts s = some s' →
      ∃ extra, s'.new_matches = s.new_matches ++ extra ∧
        List.Sublist (extra.map (fun mt => mt.bank_transaction.id)) (bts.map BankTxn.id) ∧
        ∀ mt ∈ extra,
          mt.bank_transaction ∈ bts ∧
          ∃ bd, mt.bank_transaction.date = some bd ∧
            ∃ k grp, (k, grp) ∈ groups ∧
              Returned.pickCandidate pid bd grp = some (some mt.platform_transaction) := by
  intro bts
  induction bts with
  | nil =>
    intro s s' h
    simp only [Returned.resolveLoop] at h
    cases h
    exact ⟨[], by simp, by simp, by simp⟩
  | cons bt rest ih =>
    intro s s' h
    simp only [Returned.resolveLoop] at h
    split at h
    · exact absurd h (by simp)
    · rename_i bank_date hdate
      split at h
      · exact absurd h (by simp)
      · rename_i s2 hgro
        obtain ⟨extra, hm, hsub, hall⟩ := ih s2 s' h
        rcases ret_rgfb_chr pid bt bank_date groups s s2 hgro with heq |
          ⟨k, grp, c, h1, h2, h3, h4⟩
        · subst heq
          refine ⟨extra, hm, hsub.cons _, ?_⟩
          intro mt hmt
          obtain ⟨hb, bd, hbd, k, grp, hg, hp⟩ := hall mt hmt
          exact ⟨List.mem_cons_of_mem _ hb, bd, hbd, k, grp, hg, hp⟩
        · subst h4
          dsimp only at hm
          refine ⟨(⟨c, bt, Returned.discoveredCriteria⟩ : Returned.RMatch) :: extra,
            ?_, ?_, ?_⟩
          · rw [hm]; simp
          · simpa using hsub.cons₂ bt.id
          · intro mt hmt
            rcases List.mem_cons.1 hmt with rfl | hmt
            · exact ⟨List.mem_cons_self _ _, bank_date, hdate, k, grp, h1, h3⟩
            · obtain ⟨hb, bd, hbd, k2, grp2, hg2, hp2⟩ := hall mt hmt
              exact ⟨List.mem_cons_of_mem _ hb, bd, hbd, k2, grp2, hg2, hp2⟩

/-- Through the returned duplicate-resolution outer loop, any group holding
a consumed platform transaction is wholly marked, and all matches touching
one group share the same (single) chosen consumer. -/
lemma ret_resolveLoop_unique (pid : Option Nat)
    (groups : List (GroupKey × List PlatformTxn))
    (Hkey : ∀ kg ∈ groups, ∀ q ∈ kg.2, Returned.groupKey q = kg.1)
    (Hnd : (groups.map Prod.fst).Nodup) :
    ∀ (bts : List BankTxn) (s s' : Returned.ResolveState),
      Returned.resolveLoop pid groups bts s = some s' →
      ((∀ mt ∈ s.new_matches, ∀ k grp, (k, grp) ∈ groups →
          mt.platform_transaction ∈ grp → ∀ q ∈ grp, q.id ∈ s.newly_matched_pt_ids) ∧
       (∀ mt ∈ s.new_matches, ∀ mt' ∈ s.new_matches, ∀ k grp, (k, grp) ∈ groups →
          mt.platform_transaction ∈ grp → mt'.platform_transaction ∈ grp →
          mt.platform_transaction = mt'.platform_transaction)) →
      ((∀ mt ∈ s'.new_matches, ∀ k grp, (k, grp) ∈ groups →
          mt.platform_transaction ∈ grp → ∀ q ∈ grp, q.id ∈ s'.newly_matched_pt_ids) ∧
       (∀ mt ∈ s'.new_matches, ∀ mt' ∈ s'.new_matches, ∀ k grp, (k, grp) ∈ groups →
          mt.platform_transaction ∈ grp → mt'.platform_transaction ∈ grp →
          mt.platform_transaction = mt'.platform_transaction)) := by
  intro bts
  induction bts with
  | nil =>
    intro s s' h hinv
    simp only [Returned.resolveLoop] at h
    cases h
    exact hinv
  | cons bt rest ih =>
    intro s s' h hinv
    simp only [Returned.resolveLoop] at h
    split at h
    · exact absurd h (by simp)
    · rename_i bank_date hdate
      split at h
      · exact absurd h (by simp)
      · rename_i s2 hgro
        refine ih s2 s' h ?_
        rcases ret_rgfb_chr pid bt bank_date groups s s2 hgro with heq |
          ⟨k1, grp1, c, hg1, hfresh, hpick, hs2⟩
        · subst heq; exact hinv
        · obtain ⟨hmg, huq⟩ := hinv
          have hcg : c ∈ grp1 := (ret_pickCandidate_sound pid bank_date grp1 c hpick).1
          have hdet : ∀ k grp, (k, grp) ∈ groups → c ∈ grp → grp = grp1 := by
            intro k grp hg hcmem
            have e1 : Returned.groupKey c = k := Hkey (k, grp) hg c hcmem
            have e2 : Returned.groupKey c = k1 := Hkey (k1, grp1) hg1 c hcg
            have ekk : k = k1 := e1.symm.trans e2
            subst ekk
            exact nodup_keys_eq groups k grp grp1 Hnd hg hg1
          subst hs2
          dsimp only
          constructor
          · intro mt hmt k grp hg hmem q hq
            rcases List.mem_append.1 hmt with hmt | hmt
            · exact List.mem_append.2 (Or.inl (hmg mt hmt k grp hg hmem q hq))
            · rcases List.mem_singleton.1 hmt with rfl
              have hgg : grp = grp1 := hdet k grp hg hmem
              subst hgg
              exact List.mem_append.2 (Or.inr (List.mem_map.2 ⟨q, hq, rfl⟩))
          · intro mt hmt mt' hmt' k grp hg hmem hmem'
            rcases List.mem_append.1 hmt with hmt | hmt
            · rcases List.mem_append.1 hmt' with hmt' | hmt'
              · exact huq mt hmt mt' hmt' k grp hg hmem hmem'
              · rcases List.mem_singleton.1 hmt' with rfl
                have hgg : grp = grp1 := hdet k grp hg hmem'
                subst hgg
                exact absurd (hmg mt hmt k grp hg hmem mt.platform_transaction hmem)
                  (hfresh mt.platform_transaction hmem)
            · rcases List.mem_singleton.1 hmt with rfl
              rcases List.mem_append.1 hmt' with hmt' | hmt'
              · have hgg : grp = grp1 := hdet k grp hg hmem
                subst hgg
                exact absurd (hmg mt' hmt' k grp hg hmem' mt'.platform_transaction hmem')
                  (hfresh mt'.platform_transaction hmem')
              · rcases List.mem_singleton.1 hmt' with rfl
                rfl

/-- The received duplicate-resolution outer loop only appends matches; the
consumed bank ids form a sublist of the iterated bank records, and every
appended match pairs a selected duplicate-group candidate — together with
its matching unclaimed checkbook payment — with one of those records. -/
lemma rec_resolveLoop_sound (m : Received.Matcher)
    (groups : List (GroupKey × List PlatformTxn)) :
    ∀ (bts : List BankTxn) (s s' : Received.ResolveState),
      Received.resolveLoop m groups bts s = some s' →
      ∃ extra, s'.new_matches = s.new_matches ++ extra ∧
        List.Sublist (extra.map (fun mt => mt.bank_transaction.id)) (bts.map BankTxn.id) ∧
        ∀ mt ∈ extra,
          mt.bank_transaction ∈ bts ∧
          ∃ bd, mt.bank_transaction.date = some bd ∧
            (∃ k grp, (k, grp) ∈ groups ∧
              Received.pickCandidate m bd grp = some (some mt.platform_transaction)) ∧
            ∃ cp, mt.checkbook_payment = some cp ∧
              Received.findMatchingCheckbookPayment m mt.bank_transaction
                mt.platform_transaction false = some (some cp) ∧
              usedMapMem m.used_checkbook_payment_ids cp.id = false := by
  intro bts
  induction bts with
  | nil =>
    intro s s' h
    simp only [Received.resolveLoop] at h
    cases h
    exact ⟨[], by simp, by simp, by simp⟩
  | cons bt rest ih =>
    intro s s' h
    simp only [Received.resolveLoop] at h
    split at h
    · exact absurd h (by simp)
    · rename_i bank_date hdate
      split at h
      · exact absurd h (by simp)
      · rename_i s2 hgro
        obtain ⟨extra, hm, hsub, hall⟩ := ih s2 s' h
        rcases rec_rgfb_chr m bt bank_date groups s s2 hgro with heq |
          ⟨k, grp, c, cp, h1, h2, h3, h4, h5, h6, h7⟩
        · subst heq
          refine ⟨extra, hm, hsub.cons _, ?_⟩
          intro mt hmt
          obtain ⟨hb, rest_payload⟩ := hall mt hmt
          exact ⟨List.mem_cons_of_mem _ hb, rest_payload⟩
        · subst h7
          dsimp only at hm
          refine ⟨(⟨c, bt, some cp, Received.resolveCriteria⟩ : Received.RecMatch) :: extra,
            ?_, ?_, ?_⟩
          · rw [hm]; simp
          · simpa using hsub.cons₂ bt.id
          · intro mt hmt
            rcases List.mem_cons.1 hmt with rfl | hmt
            · exact ⟨List.mem_cons_self _ _, bank_date, hdate, ⟨k, grp, h1, h3⟩,
                cp, rfl, h4, h5⟩
            · obtain ⟨hb, rest_payload⟩ := hall mt hmt
              exact ⟨List.mem_cons_of_mem _ hb, rest_payload⟩

/-- Through the received duplicate-resolution outer loop, any group holding
a consumed platform transaction is wholly marked, and all matches touching
one group share the same chosen consumer. -/
lemma rec_resolveLoop_unique (m : Received.Matcher)
    (groups : List (GroupKey × List PlatformTxn))
    (Hkey : ∀ kg ∈ groups, ∀ q ∈ kg.2, Received.groupKey q = kg.1)
    (Hnd : (groups.map Prod.fst).Nodup) :
    ∀ (bts : List BankTxn) (s s' : Received.ResolveState),
      Received.resolveLoop m groups bts s = some s' →
      ((∀ mt ∈ s.new_matches, ∀ k grp, (k, grp) ∈ groups →
          mt.platform_transaction ∈ grp → ∀ q ∈ grp, q.id ∈ s.newly_matched_pt_ids) ∧
       (∀ mt ∈ s.new_matches, ∀ mt' ∈ s.new_matches, ∀ k grp, (k, grp) ∈ groups →
          mt.platform_transaction ∈ grp → mt'.platform_transaction ∈ grp →
          mt.platform_transaction = mt'.platform_transaction)) →
      ((∀ mt ∈ s'.new_matches, ∀ k grp, (k, grp) ∈ groups →
          mt.platform_transaction ∈ grp → ∀ q ∈ grp, q.id ∈ s'.newly_matched_pt_ids) ∧
       (∀ mt ∈ s'.new_matches, ∀ mt' ∈ s'.new_matches, ∀ k grp, (k, grp) ∈ groups →
          mt.platform_transaction ∈ grp → mt'.platform_transaction ∈ grp →
          mt.platform_transaction = mt'.platform_transaction)) := by
  intro bts
  induction bts with
  | nil =>
    intro s s' h hinv
    simp only [Received.resolveLoop] at h
    cases h
    exact hinv
  | cons bt rest ih =>
    intro s s' h hinv
    simp only [Received.resolveLoop] at h
    split at h
    · exact absurd h (by simp)
    · rename_i bank_date hdate
      split at h
      · exact absurd h (by simp)
      · rename_i s2 hgro
        refine ih s2 s' h ?_
        rcases rec_rgfb_chr m bt bank_date groups s s2 hgro with heq |
          ⟨k1, grp1, c, cp, hg1, hfresh, hpick, hcp, hu1, hu2, hs2⟩
        · subst heq; exact hinv
        · obtain ⟨hmg, huq⟩ := hinv
          have hcg : c ∈ grp1 := (rec_pickCandidate_sound m bank_date grp1 c hpick).1
          have hdet : ∀ k grp, (k, grp) ∈ groups → c ∈ grp → grp = grp1 := by
            intro k grp hg hcmem
            have e1 : Received.groupKey c = k := Hkey (k, grp) hg c hcmem
            have e2 : Received.groupKey c = k1 := Hkey (k1, grp1) hg1 c hcg
            have ekk : k = k1 := e1.symm.trans e2
            subst ekk
            exact nodup_keys_eq groups k grp grp1 Hnd hg hg1
          subst hs2
          dsimp only
          constructor
          · intro mt hmt k grp hg hmem q hq
            rcases List.mem_append.1 hmt with hmt | hmt
            · exact List.mem_append.2 (Or.inl (hmg mt hmt k grp hg hmem q hq))
            · rcases List.mem_singleton.1 hmt with rfl
              have hgg : grp = grp1 := hdet k grp hg hmem
              subst hgg
              exact List.mem_append.2 (Or.inr (List.mem_map.2 ⟨q, hq, rfl⟩))
          · intro mt hmt mt' hmt' k grp hg hmem hmem'
            rcases List.mem_append.1 hmt with hmt | hmt
            · rcases List.mem_append.1 hmt' with hmt' | hmt'
              · exact huq mt hmt mt' hmt' k grp hg hmem hmem'
              · rcases List.mem_singleton.1 hmt' with rfl
                have hgg : grp = grp1 := hdet k grp hg hmem'
                subst hgg
                exact absurd (hmg mt hmt k grp hg hmem mt.platform_transaction hmem)
                  (hfresh mt.platform_transaction hmem)
            · rcases List.mem_singleton.1 hmt with rfl
              rcases List.mem_append.1 hmt' with hmt' | hmt'
              · have hgg : grp = grp1 := hdet k grp hg hmem
                subst hgg
                exact absurd (hmg mt' hmt' k grp hg hmem' mt'.platform_transaction hmem')
                  (hfresh mt'.platform_transaction hmem')
              · rcases List.mem_singleton.1 hmt' with rfl
                rfl

/-- Through the received duplicate-resolution outer loop, every consumed
checkbook payment is recorded in the run-local map and was unclaimed in the
matcher's persistent map, and no two resolution matches consume the same
payment. -/
lemma rec_resolveLoop_cp (m : Received.Matcher)
    (groups : List (GroupKey × List PlatformTxn)) :
    ∀ (bts : List BankTxn) (s s' : Received.ResolveState),
      Received.resolveLoop m groups bts s = some s' →
      ((∀ mt ∈ s.new_matches, ∀ c, mt.checkbook_payment = some c →
          usedMapMem s.newly_matched_cp_ids_map c.id = true ∧
          usedMapMem m.used_checkbook_payment_ids c.id = false) ∧
       s.new_matches.Pairwise (fun m1 m2 => ∀ c1 c2,
         m1.checkbook_payment = some c1 → m2.checkbook_payment = some c2 →
         c1.id ≠ c2.id)) →
      ((∀ mt ∈ s'.new_matches, ∀ c, mt.checkbook_payment = some c →
          usedMapMem s'.newly_matched_cp_ids_map c.id = true ∧
          usedMapMem m.used_checkbook_payment_ids c.id = false) ∧
       s'.new_matches.Pairwise (fun m1 m2 => ∀ c1 c2,
         m1.checkbook_payment = some c1 → m2.checkbook_payment = some c2 →
         c1.id ≠ c2.id)) := by
  intro bts
  induction bts with
  | nil =>
    intro s s' h hinv
    simp only [Received.resolveLoop] at h
    cases h
    exact hinv
  | cons bt rest ih =>
    intro s s' h hinv
    simp only [Received.resolveLoop] at h
    split at h
    · exact absurd h (by simp)
    · rename_i bank_date hdate
      split at h
      · exact absurd h (by simp)
      · rename_i s2 hgro
        refine ih s2 s' h ?_
        rcases rec_rgfb_chr m bt bank_date groups s s2 hgro with heq |
          ⟨k1, grp1, c, cp, hg1, hfresh, hpick, hcp, hu1, hu2, hs2⟩
        · subst heq; exact hinv
        · obtain ⟨hrec, hpw⟩ := hinv
          subst hs2
          dsimp only
          constructor
          · intro mt hmt c2 hc2
            rcases List.mem_append.1 hmt with hmt | hmt
            · obtain ⟨ha, hb⟩ := hrec mt hmt c2 hc2
              exact ⟨usedMapMem_set_mono _ _ _ _ ha, hb⟩
            · rcases List.mem_singleton.1 hmt with rfl
              have hceq : cp = c2 := Option.some.inj hc2
              subst hceq
              exact ⟨usedMapMem_set_self _ _ _, hu1⟩
          · rw [List.pairwise_append]
            refine ⟨hpw, List.pairwise_singleton _ _, ?_⟩
            intro m1 hm1 m2 hm2 c1 c2 hc1 hc2
            rcases List.mem_singleton.1 hm2 with rfl
            have hceq : cp = c2 := Option.some.inj hc2
            subst hceq
            intro hid
            obtain ⟨ha, _⟩ := hrec m1 hm1 c1 hc1
            rw [hid] at ha
            rw [ha] at hu2
            cases hu2

/-- Core characterization of one returned duplicate-resolution loop run
from the empty accumulator: every produced match consumes the selected
candidate of one duplicate group, marks every member of that group, is the
group's unique consumer, and uses one of the available bank records. -/
lemma ret_resolveUD_core (pid : Option Nat) (upts : List PlatformTxn)
    (ubts : List BankTxn) (sfin : Returned.ResolveState)
    (hloop : Returned.resolveLoop pid (duplicateGroupsBy Returned.groupKey upts)
      ubts ⟨[], [], []⟩ = some sfin) :
    ∀ mt ∈ sfin.new_matches,
      ∃ k grp, (k, grp) ∈ duplicateGroupsBy Returned.groupKey upts ∧
        1 < grp.length ∧
        mt.platform_transaction ∈ grp ∧
        (∀ q ∈ grp, q.id ∈ sfin.newly_matched_pt_ids) ∧
        (∀ mt' ∈ sfin.new_matches, mt'.platform_transaction ∈ grp →
          mt'.platform_transaction = mt.platform_transaction) ∧
        mt.bank_transaction ∈ ubts ∧
        ∃ bd, mt.bank_transaction.date = some bd ∧
          Returned.pickCandidate pid bd grp = some (some mt.platform_transaction) := by
  have Hkey : ∀ kg ∈ duplicateGroupsBy Returned.groupKey upts, ∀ q ∈ kg.2,
      Returned.groupKey q = kg.1 := by
    intro kg hkg q hq
    obtain ⟨hgp, _⟩ := dupGroups_mem _ _ kg hkg
    exact (groupPtsBy_members _ _ kg.1 kg.2 hgp q hq).2
  have Hnd := dupGroups_keys_nodup Returned.groupKey upts
  obtain ⟨extra, hmeq, hsub, hall⟩ :=
    ret_resolveLoop_sound pid (duplicateGroupsBy Returned.groupKey upts)
      ubts ⟨[], [], []⟩ sfin hloop
  have hextra : sfin.new_matches = extra := by simpa using hmeq
  obtain ⟨hmg, huq⟩ :=
    ret_resolveLoop_unique pid (duplicateGroupsBy Returned.groupKey upts) Hkey Hnd
      ubts ⟨[], [], []⟩ sfin hloop
      ⟨fun mt hmt => absurd hmt (by simp), fun mt hmt => absurd hmt (by simp)⟩
  intro mt hmt
  have hmt2 : mt ∈ extra := by rwa [hextra] at hmt
  obtain ⟨hbmem, bd, hbd, k, grp, hg, hp⟩ := hall mt hmt2
  have hcg : mt.platform_transaction ∈ grp :=
    (ret_pickCandidate_sound pid bd grp mt.platform_transaction hp).1
  refine ⟨k, grp, hg, (dupGroups_mem _ _ (k, grp) hg).2, hcg, ?_, ?_, hbmem, bd, hbd, hp⟩
  · exact hmg mt hmt k grp hg hcg
  · intro mt' hmt' hmem'
    exact huq mt' hmt' mt hmt k grp hg hmem' hcg

/-- `_resolve_unmatched_duplicates` (returned flavor): every produced match
consumes the preference-selected candidate of one duplicate group (which is
that group's unique consumer), marks every member id of the group as used,
and consumes one of the unmatched bank records. -/
lemma ret_resolveUD_sound (all_pts upts : List PlatformTxn) (ubts : List BankTxn)
    (nm : List Returned.RMatch) (upids ubids : List Nat) (pid : Option Nat)
    (hpid : all_pts = [] ∧ pid = none ∨
      ∃ p0 l0, all_pts = p0 :: l0 ∧ pid = p0.player_id)
    (h : Returned.resolveUnmatchedDuplicates all_pts upts ubts = some (nm, upids, ubids)) :
    ∀ mt ∈ nm,
      ∃ k grp, (k, grp) ∈ duplicateGroupsBy Returned.groupKey upts ∧
        1 < grp.length ∧
        mt.platform_transaction ∈ grp ∧
        (∀ q ∈ grp, q.id ∈ upids) ∧
        (∀ mt' ∈ nm, mt'.platform_transaction ∈ grp →
          mt'.platform_transaction = mt.platform_transaction) ∧
        mt.bank_transaction ∈ ubts ∧
        ∃ bd, mt.bank_transaction.date = some bd ∧
          Returned.pickCandidate pid bd grp = some (some mt.platform_transaction) := by
  rcases hpid with ⟨h0, hp⟩ | ⟨p0, l0, h0, hp⟩ <;> subst h0 <;> subst hp <;>
    simp only [Returned.resolveUnmatchedDuplicates] at h <;>
    split at h
  · cases h
    intro mt hmt
    cases hmt
  · rw [Option.map_eq_some'] at h
    obtain ⟨sfin, hloop, hf⟩ := h
    rw [filter_not_mem_nil] at hloop
    simp only [Prod.mk.injEq] at hf
    obtain ⟨hnm, hup, hub⟩ := hf
    subst hnm
    subst hup
    subst hub
    exact ret_resolveUD_core none upts ubts sfin hloop
  · cases h
    intro mt hmt
    cases hmt
  · rw [Option.map_eq_some'] at h
    obtain ⟨sfin, hloop, hf⟩ := h
    rw [filter_not_mem_nil] at hloop
    simp only [Prod.mk.injEq] at hf
    obtain ⟨hnm, hup, hub⟩ := hf
    subst hnm
    subst hup
    subst hub
    exact ret_resolveUD_core p0.player_id upts ubts sfin hloop

/-- `_resolve_unmatched_duplicates` (returned flavor) consumes pairwise
distinct bank records drawn from the unmatched pool (each available record
fires at most once). -/
lemma ret_resolveUD_banks (all_pts upts : List PlatformTxn) (ubts : List BankTxn)
    (nm : List Returned.RMatch) (upids ubids : List Nat)
    (h : Returned.resolveUnmatchedDuplicates all_pts upts ubts = some (nm, upids, ubids)) :
    List.Sublist (nm.map (fun mt => mt.bank_transaction.id)) (ubts.map BankTxn.id) ∧
    ∀ mt ∈ nm, mt.bank_transaction ∈ ubts := by
  simp only [Returned.resolveUnmatchedDuplicates] at h
  split at h
  · cases h
    exact ⟨by simp, by simp⟩
  · rw [Option.map_eq_some'] at h
    obtain ⟨sfin, hloop, hf⟩ := h
    rw [filter_not_mem_nil] at hloop
    simp only [Prod.mk.injEq] at hf
    obtain ⟨hnm, hup, hub⟩ := hf
    subst hnm
    subst hup
    subst hub
    obtain ⟨extra, hmeq, hsub, hall⟩ :=
      ret_resolveLoop_sound _ (duplicateGroupsBy Returned.groupKey upts)
        ubts ⟨[], [], []⟩ sfin hloop
    have hextra : sfin.new_matches = extra := by simpa using hmeq
    rw [hextra]
    exact ⟨hsub, fun mt hmt => (hall mt hmt).1⟩

/-- Core characterization of one received duplicate-resolution loop run
from the empty accumulator. -/
lemma rec_resolveUD_core (m : Received.Matcher) (upts : List PlatformTxn)
    (ubts : List BankTxn) (sfin : Received.ResolveState)
    (hloop : Received.resolveLoop m (duplicateGroupsBy Received.groupKey upts)
      ubts ⟨[], [], [], []⟩ = some sfin) :
    ∀ mt ∈ sfin.new_matches,
      ∃ k grp, (k, grp) ∈ duplicateGroupsBy Received.groupKey upts ∧
        1 < grp.length ∧
        mt.platform_transaction ∈ grp ∧
        (∀ q ∈ grp, q.id ∈ sfin.newly_matched_pt_ids) ∧
        (∀ mt' ∈ sfin.new_matches, mt'.platform_transaction ∈ grp →
          mt'.platform_transaction = mt.platform_transaction) ∧
        mt.bank_transaction ∈ ubts ∧
        ∃ bd, mt.bank_transaction.date = some bd ∧
          Received.pickCandidate m bd grp = some (some mt.platform_transaction) ∧
          ∃ cp, mt.checkbook_payment = some cp ∧
            Received.findMatchingCheckbookPayment m mt.bank_transaction
              mt.platform_transaction false = some (some cp) ∧
            usedMapMem m.used_checkbook_payment_ids cp.id = false := by
  have Hkey : ∀ kg ∈ duplicateGroupsBy Received.groupKey upts, ∀ q ∈ kg.2,
      Received.groupKey q = kg.1 := by
    intro kg hkg q hq
    obtain ⟨hgp, _⟩ := dupGroups_mem _ _ kg hkg
    exact (groupPtsBy_members _ _ kg.1 kg.2 hgp q hq).2
  have Hnd := dupGroups_keys_nodup Received.groupKey upts
  obtain ⟨extra, hmeq, hsub, hall⟩ :=
    rec_resolveLoop_sound m (duplicateGroupsBy Received.groupKey upts)
      ubts ⟨[], [], [], []⟩ sfin hloop
  have hextra : sfin.new_matches = extra := by simpa using hmeq
  obtain ⟨hmg, huq⟩ :=
    rec_resolveLoop_unique m (duplicateGroupsBy Received.groupKey upts) Hkey Hnd
      ubts ⟨[], [], [], []⟩ sfin hloop
      ⟨fun mt hmt => absurd hmt (by simp), fun mt hmt => absurd hmt (by simp)⟩
  intro mt hmt
  have hmt2 : mt ∈ extra := by rwa [hextra] at hmt
  obtain ⟨hbmem, bd, hbd, ⟨k, grp, hg, hp⟩, cp, hcpeq, hcpf, hcpu⟩ := hall mt hmt2
  have hcg : mt.platform_transaction ∈ grp :=
    (rec_pickCandidate_sound m bd grp mt.platform_transaction hp).1
  refine ⟨k, grp, hg, (dupGroups_mem _ _ (k, grp) hg).2, hcg, ?_, ?_, hbmem, bd, hbd,
    hp, cp, hcpeq, hcpf, hcpu⟩
  · exact hmg mt hmt k grp hg hcg
  · intro mt' hmt' hmem'
    exact huq mt' hmt' mt hmt k grp hg hmem' hcg

/-- `_resolve_unmatched_duplicates` (received flavor): every produced match
consumes the preference-selected candidate of one duplicate group (which is
that group's unique consumer), marks every member id of the group, consumes
one of the unmatched bank records, and carries an unclaimed matching
checkbook payment. -/
lemma rec_resolveUD_sound (m : Received.Matcher) (upts : List PlatformTxn)
    (ubts : List BankTxn) (nm : List Received.RecMatch)
    (upids ubids : List Nat) (ucp : UsedMap)
    (h : Received.resolveUnmatchedDuplicates m upts ubts = some (nm, upids, ubids, ucp)) :
    ∀ mt ∈ nm,
      ∃ k grp, (k, grp) ∈ duplicateGroupsBy Received.groupKey upts ∧
        1 < grp.length ∧
        mt.platform_transaction ∈ grp ∧
        (∀ q ∈ grp, q.id ∈ upids) ∧
        (∀ mt' ∈ nm, mt'.platform_transaction ∈ grp →
          mt'.platform_transaction = mt.platform_transaction) ∧
        mt.bank_transaction ∈ ubts ∧
        ∃ bd, mt.bank_transaction.date = some bd ∧
          Received.pickCandidate m bd grp = some (some mt.platform_transaction) ∧
          ∃ cp, mt.checkbook_payment = some cp ∧
            Received.findMatchingCheckbookPayment m mt.bank_transaction
              mt.platform_transaction false = some (some cp) ∧
            usedMapMem m.used_checkbook_payment_ids cp.id = false := by
  simp only [Received.resolveUnmatchedDuplicates] at h
  split at h
  · cases h
    intro mt hmt
    cases hmt
  · rw [Option.map_eq_some'] at h
    obtain ⟨sfin, hloop, hf⟩ := h
    rw [filter_not_mem_nil] at hloop
    simp only [Prod.mk.injEq] at hf
    obtain ⟨hnm, hup, hub, huc⟩ := hf
    subst hnm
    subst hup
    subst hub
    subst huc
    exact rec_resolveUD_core m upts ubts sfin hloop

/-- `_resolve_unmatched_duplicates` (received flavor) never consumes the
same checkbook payment twice, and only consumes payments unclaimed in the
matcher's persistent used map. -/
lemma rec_resolveUD_cp (m : Received.Matcher) (upts : List PlatformTxn)
    (ubts : List BankTxn) (nm : List Received.RecMatch)
    (upids ubids : List Nat) (ucp : UsedMap)
    (h : Received.resolveUnmatchedDuplicates m upts ubts = some (nm, upids, ubids, ucp)) :
    nm.Pairwise (fun m1 m2 => ∀ c1 c2, m1.checkbook_payment = some c1 →
      m2.checkbook_payment = some c2 → c1.id ≠ c2.id) ∧
    ∀ mt ∈ nm, ∀ c, mt.checkbook_payment = some c →
      usedMapMem m.used_checkbook_payment_ids c.id = false := by
  simp only [Received.resolveUnmatchedDuplicates] at h
  split at h
  · cases h
    exact ⟨List.Pairwise.nil, fun mt hmt => absurd hmt (by simp)⟩
  · rw [Option.map_eq_some'] at h
    obtain ⟨sfin, hloop, hf⟩ := h
    rw [filter_not_mem_nil] at hloop
    simp only [Prod.mk.injEq] at hf
    obtain ⟨hnm, hup, hub, huc⟩ := hf
    subst hnm
    subst hup
    subst hub
    subst huc
    obtain ⟨hrec, hpw⟩ :=
      rec_resolveLoop_cp m (duplicateGroupsBy Received.groupKey upts)
        ubts ⟨[], [], [], []⟩ sfin hloop
        ⟨fun mt hmt => absurd hmt (by simp), List.Pairwise.nil⟩
    exact ⟨hpw, fun mt hmt c hc => (hrec mt hmt c hc).2⟩

/-- Step 1 of the received matcher only appends to each accumulator field,
never touches the checkbook-payment id set, and attaches no checkbook
payment to the matches it creates. -/
lemma rec_step1_append (bts : List BankTxn) :
    ∀ (l : List PlatformTxn) (s : Received.RunState),
      ∃ tm tb tp, Received.step1 bts l s =
        ⟨s.matches_list ++ tm, s.matched_bank_transaction_ids ++ tb,
         s.matched_platform_transaction_ids ++ tp,
         s.matched_checkbook_payment_ids⟩ ∧
        ∀ mt ∈ tm, mt.checkbook_payment = none := by
  intro l
  induction l with
  | nil =>
    intro s
    exact ⟨[], [], [], by simp [Received.step1], by simp⟩
  | cons pt rest ih =>
    intro s
    rcases hrel : pt.related_bank_transaction with _ | ⟨rid, rl⟩
    · obtain ⟨tm, tb, tp, h, hcp⟩ := ih s
      exact ⟨tm, tb, tp, by simp only [Received.step1, hrel]; exact h, hcp⟩
    · rcases hby : Received.bankTransactionsById bts rid with _ | bt
      · obtain ⟨tm, tb, tp, h, hcp⟩ := ih
          ⟨s.matches_list, s.matched_bank_transaction_ids,
           s.matched_platform_transaction_ids ++ [pt.id],
           s.matched_checkbook_payment_ids⟩
        refine ⟨tm, tb, [pt.id] ++ tp, ?_, hcp⟩
        simp only [Received.step1, hrel, hby]
        rw [h]; simp
      · by_cases hlink : truthyNat bt.transaction_link
        · obtain ⟨tm, tb, tp, h, hcp⟩ := ih
            ⟨s.matches_list, s.matched_bank_transaction_ids,
             s.matched_platform_transaction_ids ++ [pt.id],
             s.matched_checkbook_payment_ids⟩
          refine ⟨tm, tb, [pt.id] ++ tp, ?_, hcp⟩
          simp only [Received.step1, hrel, hby, hlink, if_true]
          rw [h]; simp
        · obtain ⟨tm, tb, tp, h, hcp⟩ := ih
            ⟨s.matches_list ++ [⟨pt, bt, none, Received.directCriteria⟩],
             s.matched_bank_transaction_ids ++ [bt.id],
             s.matched_platform_transaction_ids ++ [pt.id],
             s.matched_checkbook_payment_ids⟩
          refine ⟨(⟨pt, bt, none, Received.directCriteria⟩ : Received.RecMatch) :: tm,
            [bt.id] ++ tb, [pt.id] ++ tp, ?_, ?_⟩
          · simp only [Received.step1, hrel, hby, hlink, if_false]
            rw [h]; simp
          · intro mt hmt
            rcases List.mem_cons.1 hmt with rfl | hmt
            · rfl
            · exact hcp mt hmt

/-- Step 2 of the received matcher only appends to each accumulator field
and never touches the checkbook-payment id set. -/
lemma rec_step2_append (pots : List BankTxn) :
    ∀ (l : List PlatformTxn) (m : Received.Matcher) (s : Received.RunState)
      (m' : Received.Matcher) (s' : Received.RunState),
      Received.step2 pots l m s = some (m', s') →
      ∃ tm tb tp, s' =
        ⟨s.matches_list ++ tm, s.matched_bank_transaction_ids ++ tb,
         s.matched_platform_transaction_ids ++ tp,
         s.matched_checkbook_payment_ids⟩ := by
  intro l
  induction l with
  | nil =>
    intro m s m' s' h
    refine ⟨[], [], [], ?_⟩
    simp only [Received.step2] at h
    cases h
    simp
  | cons pt rest ih =>
    intro m s m' s' h
    simp only [Received.step2] at h
    split at h
    · exact ih _ _ _ _ h
    · split at h
      · exact absurd h (by simp)
      · split at h
        · exact absurd h (by simp)
        · split at h
          · exact ih _ _ _ _ h
          · rename_i best hbest
            split at h
            · exact ih _ _ _ _ h
            · obtain ⟨tm, tb, tp, h2⟩ := ih _ _ _ _ h
              refine ⟨(⟨pt, best.bank_transaction, some best.checkbook_payment,
                  ⟨true, true, true,
                   decide (best.checkbook_payment.recipient = some m.user_id),
                   decide (best.checkbook_payment.direction = "OUTGOING"),
                   Received.isValidCheckbookPaymentForReceived best.checkbook_payment,
                   true, false⟩⟩ : Received.RecMatch) :: tm,
                best.bank_transaction.id :: tb, pt.id :: tp, ?_⟩
              simpa using h2

/-- Step 1 of the received matcher processes every direct-linked platform
transaction: its id is marked, and when the linked bank record is present
and unclaimed the direct match (with no checkbook payment) is appended and
the bank id marked. -/
lemma rec_step1_direct (bts : List BankTxn) (pt : PlatformTxn) (rid : Nat)
    (rl : List Nat) (hrel : pt.related_bank_transaction = rid :: rl) :
    ∀ (l : List PlatformTxn) (s : Received.RunState), pt ∈ l →
      pt.id ∈ (Received.step1 bts l s).matched_platform_transaction_ids ∧
      (∀ bt, Received.bankTransactionsById bts rid = some bt →
        truthyNat bt.transaction_link = false →
        (⟨pt, bt, none, Received.directCriteria⟩ : Received.RecMatch) ∈
            (Received.step1 bts l s).matches_list ∧
          bt.id ∈ (Received.step1 bts l s).matched_bank_transaction_ids) := by
  intro l
  induction l with
  | nil => intro s hmem; cases hmem
  | cons q rest ih =>
    intro s hmem
    rcases List.mem_cons.1 hmem with rfl | hmem
    · rcases hby : Received.bankTransactionsById bts rid with _ | bt0
      · have hstep : Received.step1 bts (pt :: rest) s = Received.step1 bts rest
            ⟨s.matches_list, s.matched_bank_transaction_ids,
             s.matched_platform_transaction_ids ++ [pt.id],
             s.matched_checkbook_payment_ids⟩ := by
          simp only [Received.step1, hrel, hby]
        obtain ⟨tm, tb, tp, happ, _⟩ := rec_step1_append bts rest
          ⟨s.matches_list, s.matched_bank_transaction_ids,
           s.matched_platform_transaction_ids ++ [pt.id],
           s.matched_checkbook_payment_ids⟩
        rw [hstep, happ]
        refine ⟨by simp, ?_⟩
        intro bt hbt
        exact absurd hbt (by simp)
      · by_cases hlink : truthyNat bt0.transaction_link
        · have hstep : Received.step1 bts (pt :: rest) s = Received.step1 bts rest
              ⟨s.matches_list, s.matched_bank_transaction_ids,
               s.matched_platform_transaction_ids ++ [pt.id],
               s.matched_checkbook_payment_ids⟩ := by
            simp [Received.step1, hrel, hby, hlink]
          obtain ⟨tm, tb, tp, happ, _⟩ := rec_step1_append bts rest
            ⟨s.matches_list, s.matched_bank_transaction_ids,
             s.matched_platform_transaction_ids ++ [pt.id],
             s.matched_checkbook_payment_ids⟩
          rw [hstep, happ]
          refine ⟨by simp, ?_⟩
          intro bt hbt hl2
          cases hbt
          simp [hlink] at hl2
        · have hstep : Received.step1 bts (pt :: rest) s = Received.step1 bts rest
              ⟨s.matches_list ++ [⟨pt, bt0, none, Received.directCriteria⟩],
               s.matched_bank_transaction_ids ++ [bt0.id],
               s.matched_platform_transaction_ids ++ [pt.id],
               s.matched_checkbook_payment_ids⟩ := by
            simp [Received.step1, hrel, hby, hlink]
          obtain ⟨tm, tb, tp, happ, _⟩ := rec_step1_append bts rest
            ⟨s.matches_list ++ [⟨pt, bt0, none, Received.directCriteria⟩],
             s.matched_bank_transaction_ids ++ [bt0.id],
             s.matched_platform_transaction_ids ++ [pt.id],
             s.matched_checkbook_payment_ids⟩
          rw [hstep, happ]
          refine ⟨by simp, ?_⟩
          intro bt hbt hl2
          cases hbt
          exact ⟨by simp, by simp⟩
    · rcases hrel2 : q.related_bank_transaction with _ | ⟨rid2, rl2⟩
      · have hstep : Received.step1 bts (q :: rest) s = Received.step1 bts rest s := by
          simp only [Received.step1, hrel2]
        rw [hstep]
        exact ih s hmem
      · rcases hby2 : Received.bankTransactionsById bts rid2 with _ | bt2
        · have hstep : Received.step1 bts (q :: rest) s = Received.step1 bts rest
              ⟨s.matches_list, s.matched_bank_transaction_ids,
               s.matched_platform_transaction_ids ++ [q.id],
               s.matched_checkbook_payment_ids⟩ := by
            simp only [Received.step1, hrel2, hby2]
          rw [hstep]
          exact ih _ hmem
        · by_cases hlink2 : truthyNat bt2.transaction_link
          · have hstep : Received.step1 bts (q :: rest) s = Received.step1 bts rest
                ⟨s.matches_list, s.matched_bank_transaction_ids,
                 s.matched_platform_transaction_ids ++ [q.id],
                 s.matched_checkbook_payment_ids⟩ := by
              simp [Received.step1, hrel2, hby2, hlink2]
            rw [hstep]
            exact ih _ hmem
          · have hstep : Received.step1 bts (q :: rest) s = Received.step1 bts rest
                ⟨s.matches_list ++ [⟨q, bt2, none, Received.directCriteria⟩],
                 s.matched_bank_transaction_ids ++ [bt2.id],
                 s.matched_platform_transaction_ids ++ [q.id],
                 s.matched_checkbook_payment_ids⟩ := by
              simp [Received.step1, hrel2, hby2, hlink2]
            rw [hstep]
            exact ih _ hmem

/-- If the direct link of `pt` points at an absent bank record or at one
already carrying a truthy link, Step 1 of the received matcher never emits
a Match whose platform transaction equals `pt`. -/
lemma rec_step1_no_match (bts : List BankTxn) (pt : PlatformTxn)
    (hsafe : ∀ rid rl, pt.related_bank_transaction = rid :: rl →
      Received.bankTransactionsById bts rid = none ∨
      ∃ bt, Received.bankTransactionsById bts rid = some bt ∧
        truthyNat bt.transaction_link = true) :
    ∀ (l : List PlatformTxn) (s : Received.RunState),
      (∀ mt ∈ s.matches_list, mt.platform_transaction ≠ pt) →
      ∀ mt ∈ (Received.step1 bts l s).matches_list, mt.platform_transaction ≠ pt := by
  intro l
  induction l with
  | nil => intro s hs; simpa [Received.step1] using hs
  | cons q rest ih =>
    intro s hs
    rcases hrel2 : q.related_bank_transaction with _ | ⟨rid2, rl2⟩
    · have hstep : Received.step1 bts (q :: rest) s = Received.step1 bts rest s := by
        simp [Received.step1, hrel2]
      rw [hstep]; exact ih s hs
    · rcases hby2 : Received.bankTransactionsById bts rid2 with _ | bt2
      · have hstep : Received.step1 bts (q :: rest) s = Received.step1 bts rest
            ⟨s.matches_list, s.matched_bank_transaction_ids,
             s.matched_platform_transaction_ids ++ [q.id],
             s.matched_checkbook_payment_ids⟩ := by
          simp [Received.step1, hrel2, hby2]
        rw [hstep]; exact ih _ hs
      · by_cases hlink2 : truthyNat bt2.transaction_link
        · have hstep : Received.step1 bts (q :: rest) s = Received.step1 bts rest
              ⟨s.matches_list, s.matched_bank_transaction_ids,
               s.matched_platform_transaction_ids ++ [q.id],
               s.matched_checkbook_payment_ids⟩ := by
            simp [Received.step1, hrel2, hby2, hlink2]
          rw [hstep]; exact ih _ hs
        · have hq : q ≠ pt := by
            intro hqp
            rcases hsafe rid2 rl2 (by rw [← hqp]; exact hrel2) with hnone | ⟨bt3, hbt3, hl3⟩
            · rw [hby2] at hnone; cases hnone
            · rw [hby2] at hbt3
              cases hbt3
              exact hlink2 hl3
          have hstep : Received.step1 bts (q :: rest) s = Received.step1 bts rest
              ⟨s.matches_list ++ [⟨q, bt2, none, Received.directCriteria⟩],
               s.matched_bank_transaction_ids ++ [bt2.id],
               s.matched_platform_transaction_ids ++ [q.id],
               s.matched_checkbook_payment_ids⟩ := by
            simp [Received.step1, hrel2, hby2, hlink2]
          rw [hstep]
          refine ih _ ?_
          intro mt hmt
          rcases List.mem_append.1 hmt with hmt | hmt
          · exact hs mt hmt
          · rcases List.mem_singleton.1 hmt with rfl
            simpa using hq

/-- Step 2 of the received matcher never emits a Match for a platform
transaction whose id is already marked. -/
lemma rec_step2_no_match (pots : List BankTxn) (pt : PlatformTxn) :
    ∀ (l : List PlatformTxn) (m : Received.Matcher) (s : Received.RunState)
      (m' : Received.Matcher) (s' : Received.RunState),
      Received.step2 pots l m s = some (m', s') →
      pt.id ∈ s.matched_platform_transaction_ids →
      (∀ mt ∈ s.matches_list, mt.platform_transaction ≠ pt) →
      (pt.id ∈ s'.matched_platform_transaction_ids ∧
       ∀ mt ∈ s'.matches_list, mt.platform_transaction ≠ pt) := by
  intro l
  induction l with
  | nil =>
    intro m s m' s' h hid hs
    simp only [Received.step2] at h
    cases h
    exact ⟨hid, hs⟩
  | cons q rest ih =>
    intro m s m' s' h hid hs
    simp only [Received.step2] at h
    split at h
    · exact ih _ _ _ _ h hid hs
    · rename_i hqid
      split at h
      · exact absurd h (by simp)
      · split at h
        · exact absurd h (by simp)
        · split at h
          · exact ih _ _ _ _ h hid hs
          · rename_i best hbest
            split at h
            · exact ih _ _ _ _ h hid hs
            · refine ih _ _ _ _ h (by simpa using Or.inl hid) ?_
              intro mt hmt
              rcases List.mem_append.1 hmt with hmt | hmt
              · exact hs mt hmt
              · rcases List.mem_singleton.1 hmt with rfl
                intro hqpt
                exact hqid (by rw [show q = pt from hqpt]; exact hid)

/-- Through Step 2 of the received matcher, every match's consumed checkbook
payment is recorded in the (threaded) used map, and no two matches consume
the same payment. -/
lemma rec_step2_cp_inv (pots : List BankTxn) :
    ∀ (l : List PlatformTxn) (m : Received.Matcher) (s : Received.RunState)
      (m' : Received.Matcher) (s' : Received.RunState),
      Received.step2 pots l m s = some (m', s') →
      ((∀ mt ∈ s.matches_list, ∀ c, mt.checkbook_payment = some c →
          usedMapMem m.used_checkbook_payment_ids c.id = true) ∧
       s.matches_list.Pairwise (fun m1 m2 => ∀ c1 c2,
         m1.checkbook_payment = some c1 → m2.checkbook_payment = some c2 →
         c1.id ≠ c2.id)) →
      ((∀ mt ∈ s'.matches_list, ∀ c, mt.checkbook_payment = some c →
          usedMapMem m'.used_checkbook_payment_ids c.id = true) ∧
       s'.matches_list.Pairwise (fun m1 m2 => ∀ c1 c2,
         m1.checkbook_payment = some c1 → m2.checkbook_payment = some c2 →
         c1.id ≠ c2.id)) := by
  intro l
  induction l with
  | nil =>
    intro m s m' s' h hinv
    simp only [Received.step2] at h
    cases h
    exact hinv
  | cons q rest ih =>
    intro m s m' s' h hinv
    simp only [Received.step2] at h
    split at h
    · exact ih _ _ _ _ h hinv
    · split at h
      · exact absurd h (by simp)
      · split at h
        · exact absurd h (by simp)
        · split at h
          · exact ih _ _ _ _ h hinv
          · rename_i best hbest
            split at h
            · exact ih _ _ _ _ h hinv
            · rename_i hused
              simp only [Bool.not_eq_true] at hused
              obtain ⟨hrec, hpw⟩ := hinv
              refine ih _ _ _ _ h ⟨?_, ?_⟩
              · intro mt hmt c hc
                rcases List.mem_append.1 hmt with hmt | hmt
                · exact usedMapMem_set_mono _ _ _ _ (hrec mt hmt c hc)
                · rcases List.mem_singleton.1 hmt with rfl
                  have hceq : best.checkbook_payment = c := Option.some.inj hc
                  subst hceq
                  exact usedMapMem_set_self _ _ _
              · rw [List.pairwise_append]
                refine ⟨hpw, List.pairwise_singleton _ _, ?_⟩
                intro m1 hm1 m2 hm2 c1 c2 hc1 hc2
                rcases List.mem_singleton.1 hm2 with rfl
                have hceq : best.checkbook_payment = c2 := Option.some.inj hc2
                subst hceq
                intro hideq
                have := hrec m1 hm1 c1 hc1
                rw [hideq] at this
                rw [this] at hused
                cases hused

/-- Control-flow skeleton of a successful returned-matcher run: the Step-2
state exists, the outputs are the Step-2 accumulators extended by the
(possibly empty) Step-3 resolution, and the unmatched outputs filter by the
merged id sets. -/
lemma ret_run_cases (pts : List PlatformTxn) (bts : List BankTxn) (kws : List String)
    (res : Returned.MatchResults)
    (h : Returned.matchReturnedTransactions pts bts kws = some res) :
    ∃ s2 nm upids ubids,
      Returned.step2 (Returned.potentialBankTransactions kws bts)
        (Returned.returnedPlatformTransactions pts)
        (Returned.step1 bts (Returned.returnedPlatformTransactions pts) ⟨[], [], []⟩) =
        some s2 ∧
      res.matches_list = s2.matches_list ++ nm ∧
      res.unmatched_platform_transactions =
        (Returned.returnedPlatformTransactions pts).filter
          (fun pt => decide (pt.id ∉ s2.matched_platform_transaction_ids ++ upids)) ∧
      res.unmatched_bank_transactions =
        (Returned.potentialBankTransactions kws bts).filter
          (fun bt => decide (bt.id ∉ s2.matched_bank_transaction_ids ++ ubids)) ∧
      ((nm = [] ∧ upids = [] ∧ ubids = []) ∨
        Returned.resolveUnmatchedDuplicates pts
          ((Returned.returnedPlatformTransactions pts).filter
            (fun pt => decide (pt.id ∉ s2.matched_platform_transaction_ids)))
          ((Returned.potentialBankTransactions kws bts).filter
            (fun bt => decide (bt.id ∉ s2.matched_bank_transaction_ids))) =
          some (nm, upids, ubids)) := by
  simp only [Returned.matchReturnedTransactions] at h
  split at h
  · exact absurd h (by simp)
  · rename_i s2 hstep2
    split at h
    · split at h
      · exact absurd h (by simp)
      · rename_i nm upids ubids hres
        cases h
        exact ⟨s2, nm, upids, ubids, hstep2, rfl, rfl, rfl, Or.inr hres⟩
    · cases h
      refine ⟨s2, [], [], [], hstep2, by simp, by simp, by simp,
        Or.inl ⟨rfl, rfl, rfl⟩⟩

/-- Control-flow skeleton of a successful received-matcher run. -/
lemma rec_run_cases (m0 : Received.Matcher) (res : Received.MatchResults)
    (mfin : Received.Matcher)
    (h : Received.matchReceivedTransactions m0 = some (res, mfin)) :
    ∃ m1 s2 nm upids ubids ucp,
      Received.step2 (Received.potentialBankTransactions m0)
        (Received.receivedPlatformTransactions m0) m0
        (Received.step1 m0.bank_transactions
          (Received.receivedPlatformTransactions m0) ⟨[], [], [], []⟩) =
        some (m1, s2) ∧
      res.matches_list = s2.matches_list ++ nm ∧
      res.unmatched_platform_transactions =
        (Received.receivedPlatformTransactions m0).filter
          (fun pt => decide (pt.id ∉ s2.matched_platform_transaction_ids ++ upids)) ∧
      res.unmatched_bank_transactions =
        (Received.potentialBankTransactions m0).filter
          (fun bt => decide (bt.id ∉ s2.matched_bank_transaction_ids ++ ubids)) ∧
      ((nm = [] ∧ upids = [] ∧ ubids = [] ∧ ucp = ([] : UsedMap)) ∨
        Received.resolveUnmatchedDuplicates m1
          ((Received.receivedPlatformTransactions m0).filter
            (fun pt => decide (pt.id ∉ s2.matched_platform_transaction_ids)))
          ((Received.potentialBankTransactions m0).filter
            (fun bt => decide (bt.id ∉ s2.matched_bank_transaction_ids))) =
          some (nm, upids, ubids, ucp)) := by
  simp only [Received.matchReceivedTransactions] at h
  split at h
  · exact absurd h (by simp)
  · rename_i m1 s2 hstep2
    split at h
    · exact absurd h (by simp)
    · rename_i nm upids ubids ucp hres
      cases h
      refine ⟨m1, s2, nm, upids, ubids, ucp, hstep2, rfl, rfl, rfl, ?_⟩
      split at hres
      · exact Or.inr hres
      · cases hres
        exact Or.inl ⟨rfl, rfl, rfl, rfl⟩

/-- Through Step 1 of the returned matcher, with pairwise-distinct direct
link targets, the emitted matches consume pairwise distinct bank ids, each
recorded in the consumed-id accumulator. -/
lemma ret_step1_bank_inv (bts : List BankTxn) :
    ∀ (l : List PlatformTxn) (s : Returned.RunState),
      (directLinkHeads l).Nodup →
      (∀ mt ∈ s.matches_list, ∀ r ∈ directLinkHeads l, mt.bank_transaction.id ≠ r) →
      s.matches_list.Pairwise (fun m1 m2 =>
        m1.bank_transaction.id ≠ m2.bank_transaction.id) →
      (∀ mt ∈ s.matches_list, mt.bank_transaction.id ∈ s.matched_bank_transaction_ids) →
      ((Returned.step1 bts l s).matches_list.Pairwise (fun m1 m2 =>
        m1.bank_transaction.id ≠ m2.bank_transaction.id) ∧
       ∀ mt ∈ (Returned.step1 bts l s).matches_list,
         mt.bank_transaction.id ∈ (Returned.step1 bts l s).matched_bank_transaction_ids) := by
  intro l
  induction l with
  | nil =>
    intro s hnd havoid hpw hids
    simp only [Returned.step1]
    exact ⟨hpw, hids⟩
  | cons pt rest ih =>
    intro s hnd havoid hpw hids
    rcases hrel : pt.related_bank_transaction with _ | ⟨rid, rl⟩
    · have hheads : directLinkHeads (pt :: rest) = directLinkHeads rest := by
        simp [directLinkHeads, List.filterMap_cons, hrel]
      have hstep : Returned.step1 bts (pt :: rest) s = Returned.step1 bts rest s := by
        simp only [Returned.step1, hrel]
      rw [hstep]
      rw [hheads] at hnd havoid
      exact ih s hnd havoid hpw hids
    · have hheads : directLinkHeads (pt :: rest) = rid :: directLinkHeads rest := by
        simp [directLinkHeads, List.filterMap_cons, hrel]
      rw [hheads] at hnd havoid
      have hnd2 : (directLinkHeads rest).Nodup := (List.nodup_cons.1 hnd).2
      have hrid_not : rid ∉ directLinkHeads rest := (List.nodup_cons.1 hnd).1
      rcases hby : Returned.bankTransactionsById bts rid with _ | bt0
      · have hstep : Returned.step1 bts (pt :: rest) s = Returned.step1 bts rest
            ⟨s.matches_list, s.matched_bank_transaction_ids,
             s.matched_platform_transaction_ids ++ [pt.id]⟩ := by
          simp only [Returned.step1, hrel, hby]
        rw [hstep]
        exact ih _ hnd2
          (fun mt hmt r hr => havoid mt hmt r (List.mem_cons_of_mem _ hr)) hpw hids
      · by_cases hlink : truthyNat bt0.transaction_link
        · have hstep : Returned.step1 bts (pt :: rest) s = Returned.step1 bts rest
              ⟨s.matches_list, s.matched_bank_transaction_ids,
               s.matched_platform_transaction_ids ++ [pt.id]⟩ := by
            simp [Returned.step1, hrel, hby, hlink]
          rw [hstep]
          exact ih _ hnd2
            (fun mt hmt r hr => havoid mt hmt r (List.mem_cons_of_mem _ hr)) hpw hids
        · have hbtid : bt0.id = rid := (ret_bankById_sound bts rid bt0 hby).1
          have hstep : Returned.step1 bts (pt :: rest) s = Returned.step1 bts rest
              ⟨s.matches_list ++ [⟨pt, bt0, Returned.directCriteria⟩],
               s.matched_bank_transaction_ids ++ [bt0.id],
               s.matched_platform_transaction_ids ++ [pt.id]⟩ := by
            simp [Returned.step1, hrel, hby, hlink]
          rw [hstep]
          refine ih _ hnd2 ?_ ?_ ?_
          · intro mt hmt r hr
            rcases List.mem_append.1 hmt with hmt | hmt
            · exact havoid mt hmt r (List.mem_cons_of_mem _ hr)
            · rcases List.mem_singleton.1 hmt with rfl
              dsimp only
              rw [hbtid]
              intro hreq
              exact hrid_not (hreq ▸ hr)
          · rw [List.pairwise_append]
            refine ⟨hpw, List.pairwise_singleton _ _, ?_⟩
            intro m1 hm1 m2 hm2
            rcases List.mem_singleton.1 hm2 with rfl
            dsimp only
            rw [hbtid]
            exact havoid m1 hm1 rid (List.mem_cons_self _ _)
          · intro mt hmt
            rcases List.mem_append.1 hmt with hmt | hmt
            · exact List.mem_append.2 (Or.inl (hids mt hmt))
            · rcases List.mem_singleton.1 hmt with rfl
              exact List.mem_append.2 (Or.inr (by simp))

/-- Through Step 2 of the returned matcher, matches keep pairwise distinct
bank ids, each recorded in the consumed-id accumulator (fresh candidates
are only drawn from unconsumed ids). -/
lemma ret_step2_bank_inv (pots : List BankTxn) :
    ∀ (l : List PlatformTxn) (s s' : Returned.RunState),
      Returned.step2 pots l s = some s' →
      (s.matches_list.Pairwise (fun m1 m2 =>
        m1.bank_transaction.id ≠ m2.bank_transaction.id) ∧
       ∀ mt ∈ s.matches_list, mt.bank_transaction.id ∈ s.matched_bank_transaction_ids) →
      (s'.matches_list.Pairwise (fun m1 m2 =>
        m1.bank_transaction.id ≠ m2.bank_transaction.id) ∧
       ∀ mt ∈ s'.matches_list, mt.bank_transaction.id ∈ s'.matched_bank_transaction_ids) := by
  intro l
  induction l with
  | nil =>
    intro s s' h hinv
    simp only [Returned.step2] at h
    cases h
    exact hinv
  | cons pt rest ih =>
    intro s s' h hinv
    simp only [Returned.step2] at h
    split at h
    · exact ih s s' h hinv
    · split at h
      · exact absurd h (by simp)
      · split at h
        · exact absurd h (by simp)
        · exact ih s s' h hinv
        · rename_i bt heq
          obtain ⟨pre, post, bd, hpots, hnotmem, hrest⟩ :=
            ret_findCandidate_sound pt _ _ _ pots bt heq
          obtain ⟨hpw, hids⟩ := hinv
          refine ih _ s' h ⟨?_, ?_⟩
          · rw [List.pairwise_append]
            refine ⟨hpw, List.pairwise_singleton _ _, ?_⟩
            intro m1 hm1 m2 hm2
            rcases List.mem_singleton.1 hm2 with rfl
            dsimp only
            intro hreq
            exact hnotmem (hreq ▸ hids m1 hm1)
          · intro mt hmt
            rcases List.mem_append.1 hmt with hmt | hmt
            · exact List.mem_append.2 (Or.inl (hids mt hmt))
            · rcases List.mem_singleton.1 hmt with rfl
              exact List.mem_append.2 (Or.inr (by simp))

/-- C5 (amended): in fresh discovery the two matchers use different
selection policies.  The returned matcher consumes the FIRST candidate of
the potential pool (in input order) that passes all predicates — every
earlier pool entry was consumed or failing, with no preference for exact
dates.  Only the received matcher prefers exact dates: whenever the
collected candidate list contains an exact-date candidate, the selected
candidate is an exact-date one (the closest among them). -/
theorem c5_amended_candidate_selection :
    (∀ (pt : PlatformTxn) (pa pd : ℚ) (matched : List Nat) (pots : List BankTxn)
       (bt : BankTxn),
       Returned.findCandidate pt pa pd matched pots = some (some bt) →
       ∃ pre post bd, pots = pre ++ bt :: post ∧ bt.id ∉ matched ∧
         bt.date = some bd ∧
         (Returned.isAmountMatch pa (bt.amount.getD 0) &&
          Returned.isDateMatch pd bd && Returned.isBankAccountMatch pt bt) = true ∧
         ∀ b ∈ pre, b.id ∈ matched ∨ ∃ bd2, b.date = some bd2 ∧
           (Returned.isAmountMatch pa (b.amount.getD 0) &&
            Returned.isDateMatch pd bd2 && Returned.isBankAccountMatch pt b) = false) ∧
    (∀ (cands : List Received.CandidateInfo) (c : Received.CandidateInfo),
       (∃ c0 ∈ cands, c0.is_exact_date_match = true) →
       Received.selectBestCandidate cands = some c →
       c.is_exact_date_match = true ∧ c ∈ cands ∧
         ∀ c' ∈ cands, c'.is_exact_date_match = true → c.date_diff ≤ c'.date_diff) := by
  constructor
  · intro pt pa pd matched pots bt h
    exact ret_findCandidate_sound pt pa pd matched pots bt h
  · intro cands c hex hsel
    obtain ⟨c0, hc0, hc0x⟩ := hex
    have hne : cands.filter (fun c => c.is_exact_date_match) ≠ [] := by
      intro hempty
      have hc0m : c0 ∈ cands.filter (fun c => c.is_exact_date_match) :=
        List.mem_filter.2 ⟨hc0, hc0x⟩
      rw [hempty] at hc0m
      cases hc0m
    simp only [Received.selectBestCandidate] at hsel
    rw [if_pos hne] at hsel
    have hmemf := firstMinBy_mem _ _ c hsel
    have h2 := List.mem_filter.1 hmemf
    refine ⟨h2.2, h2.1, ?_⟩
    intro c' hc' hcx
    exact firstMinBy_le _ _ c hsel c' (List.mem_filter.2 ⟨hc', hcx⟩)

unseal Rat.sub Rat.add Rat.mul Rat.inv Rat.ofScientific in
/-- Witness for C5: the returned matcher picks the first passing candidate
`bank_off` (one day away) although the exact-date `bank_exact` follows it,
and the received selection picks the exact-date candidate `cand_ex`. -/
theorem c5_witness :
    (∃ pre post bd, [Cex.bank_off, Cex.bank_exact] = pre ++ Cex.bank_off :: post ∧
       Cex.bank_off.id ∉ ([] : List Nat) ∧ Cex.bank_off.date = some bd ∧
       (Returned.isAmountMatch 100 (Cex.bank_off.amount.getD 0) &&
        Returned.isDateMatch 12 bd &&
        Returned.isBankAccountMatch Cex.pt_fresh Cex.bank_off) = true ∧
       ∀ b ∈ pre, b.id ∈ ([] : List Nat) ∨ ∃ bd2, b.date = some bd2 ∧
         (Returned.isAmountMatch 100 (b.amount.getD 0) &&
          Returned.isDateMatch 12 bd2 &&
          Returned.isBankAccountMatch Cex.pt_fresh b) = false) ∧
    (Cex.cand_ex.is_exact_date_match = true ∧
     Cex.cand_ex ∈ [Cex.cand_off, Cex.cand_ex] ∧
     ∀ c' ∈ [Cex.cand_off, Cex.cand_ex], c'.is_exact_date_match = true →
       Cex.cand_ex.date_diff ≤ c'.date_diff) :=
  ⟨c5_amended_candidate_selection.1 Cex.pt_fresh 100 12 []
     [Cex.bank_off, Cex.bank_exact] Cex.bank_off (by rfl),
   c5_amended_candidate_selection.2 [Cex.cand_off, Cex.cand_ex] Cex.cand_ex
     ⟨Cex.cand_ex, by simp, rfl⟩ (by rfl)⟩

/-- C2: for every platform transaction carrying a non-empty direct link,
in both matchers a successful run (i) never reports it unmatched, (ii) when
the linked bank record is found and is itself unclaimed, emits the direct
Match pairing exactly that platform transaction with exactly that record —
bypassing the candidate predicates — and removes that bank record from the
unmatched-bank output, and (iii) when the linked record is found but
already claimed (truthy `transaction_link`), fabricates no Match for that
platform transaction at all. -/
theorem c2_direct_link_honoring :
    (∀ (pts : List PlatformTxn) (bts : List BankTxn) (kws : List String)
       (res : Returned.MatchResults) (pt : PlatformTxn) (rid : Nat) (rl : List Nat),
       Returned.matchReturnedTransactions pts bts kws = some res →
       pt ∈ Returned.returnedPlatformTransactions pts →
       pt.related_bank_transaction = rid :: rl →
       pt ∉ res.unmatched_platform_transactions ∧
       (∀ bt, Returned.bankTransactionsById bts rid = some bt →
         truthyNat bt.transaction_link = false →
         (⟨pt, bt, Returned.directCriteria⟩ : Returned.RMatch) ∈ res.matches_list ∧
         ∀ b ∈ res.unmatched_bank_transactions, b.id ≠ bt.id) ∧
       (∀ bt, Returned.bankTransactionsById bts rid = some bt →
         truthyNat bt.transaction_link = true →
         ∀ mt ∈ res.matches_list, mt.platform_transaction ≠ pt)) ∧
    (∀ (m0 : Received.Matcher) (res : Received.MatchResults) (mfin : Received.Matcher)
       (pt : PlatformTxn) (rid : Nat) (rl : List Nat),
       Received.matchReceivedTransactions m0 = some (res, mfin) →
       pt ∈ Received.receivedPlatformTransactions m0 →
       pt.related_bank_transaction = rid :: rl →
       pt ∉ res.unmatched_platform_transactions ∧
       (∀ bt, Received.bankTransactionsById m0.bank_transactions rid = some bt →
         truthyNat bt.transaction_link = false →
         (⟨pt, bt, none, Received.directCriteria⟩ : Received.RecMatch) ∈ res.matches_list ∧
         ∀ b ∈ res.unmatched_bank_transactions, b.id ≠ bt.id) ∧
       (∀ bt, Received.bankTransactionsById m0.bank_transactions rid = some bt →
         truthyNat bt.transaction_link = true →
         ∀ mt ∈ res.matches_list, mt.platform_transaction ≠ pt)) := by
  constructor
  · intro pts bts kws res pt rid rl hrun hmem hrel
    obtain ⟨s2, nm, upids, ubids, hstep2, hm, hup, hub, hcase⟩ :=
      ret_run_cases pts bts kws res hrun
    obtain ⟨hptid1, hdirmatch⟩ := ret_step1_direct bts pt rid rl hrel
      (Returned.returnedPlatformTransactions pts) ⟨[], [], []⟩ hmem
    obtain ⟨tm, tb, tp, hs2⟩ := ret_step2_append _ _ _ s2 hstep2
    have hptid2 : pt.id ∈ s2.matched_platform_transaction_ids := by
      rw [hs2]
      exact List.mem_append.2 (Or.inl hptid1)
    refine ⟨?_, ?_, ?_⟩
    · rw [hup]
      intro hcontra
      have h2 := List.mem_filter.1 hcontra
      exact of_decide_eq_true h2.2 (List.mem_append.2 (Or.inl hptid2))
    · intro bt hbt hlink
      obtain ⟨hmatch1, hbid1⟩ := hdirmatch bt hbt hlink
      constructor
      · rw [hm, hs2]
        exact List.mem_append.2 (Or.inl (List.mem_append.2 (Or.inl hmatch1)))
      · intro b hb
        rw [hub] at hb
        have h2 := List.mem_filter.1 hb
        intro hbeq
        apply of_decide_eq_true h2.2
        rw [hbeq]
        refine List.mem_append.2 (Or.inl ?_)
        rw [hs2]
        exact List.mem_append.2 (Or.inl hbid1)
    · intro bt hbt hlink mt hmt
      have hsafe : ∀ rid2 rl2, pt.related_bank_transaction = rid2 :: rl2 →
          Returned.bankTransactionsById bts rid2 = none ∨
          ∃ bt2, Returned.bankTransactionsById bts rid2 = some bt2 ∧
            truthyNat bt2.transaction_link = true := by
        intro rid2 rl2 hrel2
        rw [hrel] at hrel2
        cases hrel2
        exact Or.inr ⟨bt, hbt, hlink⟩
      have hs1nm := ret_step1_no_match bts pt hsafe
        (Returned.returnedPlatformTransactions pts) ⟨[], [], []⟩
        (fun mt2 hmt2 => absurd hmt2 (by simp))
      obtain ⟨hid2, hnomatch2⟩ := ret_step2_no_match _ pt _ _ s2 hstep2 hptid1 hs1nm
      rw [hm] at hmt
      rcases List.mem_append.1 hmt with hmt | hmt
      · exact hnomatch2 mt hmt
      · rcases hcase with ⟨hnm, _, _⟩ | hres
        · rw [hnm] at hmt
          cases hmt
        · have hpidex : ∃ pid, pts = [] ∧ pid = none ∨
              ∃ p0 l0, pts = p0 :: l0 ∧ pid = p0.player_id := by
            rcases pts with _ | ⟨p0, l0⟩
            · exact ⟨none, Or.inl ⟨rfl, rfl⟩⟩
            · exact ⟨p0.player_id, Or.inr ⟨p0, l0, rfl, rfl⟩⟩
          obtain ⟨pid, hpid⟩ := hpidex
          obtain ⟨k, grp, hg, hlen, hmemgrp, hids, huq, hbmem, bd, hbd, hpick⟩ :=
            ret_resolveUD_sound pts _ _ nm upids ubids pid hpid hres mt hmt
          have hgm := dupGroups_mem _ _ (k, grp) hg
          have hmem_upts :=
            (groupPtsBy_members _ _ k grp hgm.1 mt.platform_transaction hmemgrp).1
          intro hmtpt
          rw [hmtpt] at hmem_upts
          have h2 := List.mem_filter.1 hmem_upts
          exact of_decide_eq_true h2.2 hptid2
  · intro m0 res mfin pt rid rl hrun hmem hrel
    obtain ⟨m1, s2, nm, upids, ubids, ucp, hstep2, hm, hup, hub, hcase⟩ :=
      rec_run_cases m0 res mfin hrun
    obtain ⟨hptid1, hdirmatch⟩ := rec_step1_direct m0.bank_transactions pt rid rl hrel
      (Received.receivedPlatformTransactions m0) ⟨[], [], [], []⟩ hmem
    obtain ⟨tm, tb, tp, hs2⟩ := rec_step2_append _ _ _ _ m1 s2 hstep2
    have hptid2 : pt.id ∈ s2.matched_platform_transaction_ids := by
      rw [hs2]
      exact List.mem_append.2 (Or.inl hptid1)
    refine ⟨?_, ?_, ?_⟩
    · rw [hup]
      intro hcontra
      have h2 := List.mem_filter.1 hcontra
      exact of_decide_eq_true h2.2 (List.mem_append.2 (Or.inl hptid2))
    · intro bt hbt hlink
      obtain ⟨hmatch1, hbid1⟩ := hdirmatch bt hbt hlink
      constructor
      · rw [hm, hs2]
        exact List.mem_append.2 (Or.inl (List.mem_append.2 (Or.inl hmatch1)))
      · intro b hb
        rw [hub] at hb
        have h2 := List.mem_filter.1 hb
        intro hbeq
        apply of_decide_eq_true h2.2
        rw [hbeq]
        refine List.mem_append.2 (Or.inl ?_)
        rw [hs2]
        exact List.mem_append.2 (Or.inl hbid1)
    · intro bt hbt hlink mt hmt
      have hsafe : ∀ rid2 rl2, pt.related_bank_transaction = rid2 :: rl2 →
          Received.bankTransactionsById m0.bank_transactions rid2 = none ∨
          ∃ bt2, Received.bankTransactionsById m0.bank_transactions rid2 = some bt2 ∧
            truthyNat bt2.transaction_link = true := by
        intro rid2 rl2 hrel2
        rw [hrel] at hrel2
        cases hrel2
        exact Or.inr ⟨bt, hbt, hlink⟩
      have hs1nm := rec_step1_no_match m0.bank_transactions pt hsafe
        (Received.receivedPlatformTransactions m0) ⟨[], [], [], []⟩
        (fun mt2 hmt2 => absurd hmt2 (by simp))
      obtain ⟨hid2, hnomatch2⟩ :=
        rec_step2_no_match _ pt _ _ _ m1 s2 hstep2 hptid1 hs1nm
      rw [hm] at hmt
      rcases List.mem_append.1 hmt with hmt | hmt
      · exact hnomatch2 mt hmt
      · rcases hcase with ⟨hnm, _, _, _⟩ | hres
        · rw [hnm] at hmt
          cases hmt
        · obtain ⟨k, grp, hg, hlen, hmemgrp, hids, huq, hbmem, bd, hbd, hpick, hcp⟩ :=
            rec_resolveUD_sound m1 _ _ nm upids ubids ucp hres mt hmt
          have hgm := dupGroups_mem _ _ (k, grp) hg
          have hmem_upts :=
            (groupPtsBy_members _ _ k grp hgm.1 mt.platform_transaction hmemgrp).1
          intro hmtpt
          rw [hmtpt] at hmem_upts
          have h2 := List.mem_filter.1 hmem_upts
          exact of_decide_eq_true h2.2 hptid2

unseal Rat.sub Rat.add Rat.mul Rat.inv Rat.ofScientific in
/-- Witness for C2: concrete runs of both matchers on a single
direct-linked platform transaction whose linked bank record is present and
unclaimed. -/
theorem c2_witness :
    (Cex.pt_direct_a ∉ Cex.c1w_result.unmatched_platform_transactions ∧
     (∀ bt, Returned.bankTransactionsById [Cex.bank7] 7 = some bt →
       truthyNat bt.transaction_link = false →
       (⟨Cex.pt_direct_a, bt, Returned.directCriteria⟩ : Returned.RMatch) ∈
         Cex.c1w_result.matches_list ∧
       ∀ b ∈ Cex.c1w_result.unmatched_bank_transactions, b.id ≠ bt.id) ∧
     (∀ bt, Returned.bankTransactionsById [Cex.bank7] 7 = some bt →
       truthyNat bt.transaction_link = true →
       ∀ mt ∈ Cex.c1w_result.matches_list,
         mt.platform_transaction ≠ Cex.pt_direct_a)) ∧
    (Cex.pt_rec_direct ∉ (Cex.m_rec_direct_run.1).unmatched_platform_transactions ∧
     (∀ bt, Received.bankTransactionsById Cex.m_rec_direct.bank_transactions 77 = some bt →
       truthyNat bt.transaction_link = false →
       (⟨Cex.pt_rec_direct, bt, none, Received.directCriteria⟩ : Received.RecMatch) ∈
         (Cex.m_rec_direct_run.1).matches_list ∧
       ∀ b ∈ (Cex.m_rec_direct_run.1).unmatched_bank_transactions, b.id ≠ bt.id) ∧
     (∀ bt, Received.bankTransactionsById Cex.m_rec_direct.bank_transactions 77 = some bt →
       truthyNat bt.transaction_link = true →
       ∀ mt ∈ (Cex.m_rec_direct_run.1).matches_list,
         mt.platform_transaction ≠ Cex.pt_rec_direct)) :=
  ⟨c2_direct_link_honoring.1 [Cex.pt_direct_a] [Cex.bank7] Returned.RETURNED_KEYWORDS
     Cex.c1w_result Cex.pt_direct_a 7 [] (by rfl)
     (by rw [show Returned.returnedPlatformTransactions [Cex.pt_direct_a] =
         [Cex.pt_direct_a] from rfl]
         exact List.mem_cons_self _ _) rfl,
   c2_direct_link_honoring.2 Cex.m_rec_direct Cex.m_rec_direct_run.1
     Cex.m_rec_direct_run.2 Cex.pt_rec_direct 77 [] (by rfl)
     (by rw [show Received.receivedPlatformTransactions Cex.m_rec_direct =
         [Cex.pt_rec_direct] from rfl]
         exact List.mem_cons_self _ _) rfl⟩

/-- C10: in both matchers a platform transaction carrying a non-empty
pre-existing link is excluded from the unmatched-platform output of every
successful run, even when no Match is produced for it; in particular, when
the linked bank record is absent from the fetched set or already claimed,
the transaction appears in neither the matches list nor the unmatched
list. -/
theorem c10_linked_neither_list :
    (∀ (pts : List PlatformTxn) (bts : List BankTxn) (kws : List String)
       (res : Returned.MatchResults) (pt : PlatformTxn) (rid : Nat) (rl : List Nat),
       Returned.matchReturnedTransactions pts bts kws = some res →
       pt ∈ Returned.returnedPlatformTransactions pts →
       pt.related_bank_transaction = rid :: rl →
       pt ∉ res.unmatched_platform_transactions ∧
       ((Returned.bankTransactionsById bts rid = none ∨
         ∃ bt, Returned.bankTransactionsById bts rid = some bt ∧
           truthyNat bt.transaction_link = true) →
        ∀ mt ∈ res.matches_list, mt.platform_transaction ≠ pt)) ∧
    (∀ (m0 : Received.Matcher) (res : Received.MatchResults) (mfin : Received.Matcher)
       (pt : PlatformTxn) (rid : Nat) (rl : List Nat),
       Received.matchReceivedTransactions m0 = some (res, mfin) →
       pt ∈ Received.receivedPlatformTransactions m0 →
       pt.related_bank_transaction = rid :: rl →
       pt ∉ res.unmatched_platform_transactions ∧
       ((Received.bankTransactionsById m0.bank_transactions rid = none ∨
         ∃ bt, Received.bankTransactionsById m0.bank_transactions rid = some bt ∧
           truthyNat bt.transaction_link = true) →
        ∀ mt ∈ res.matches_list, mt.platform_transaction ≠ pt)) := by
  constructor
  · intro pts bts kws res pt rid rl hrun hmem hrel
    obtain ⟨s2, nm, upids, ubids, hstep2, hm, hup, hub, hcase⟩ :=
      ret_run_cases pts bts kws res hrun
    obtain ⟨hptid1, _⟩ := ret_step1_direct bts pt rid rl hrel
      (Returned.returnedPlatformTransactions pts) ⟨[], [], []⟩ hmem
    obtain ⟨tm, tb, tp, hs2⟩ := ret_step2_append _ _ _ s2 hstep2
    have hptid2 : pt.id ∈ s2.matched_platform_transaction_ids := by
      rw [hs2]
      exact List.mem_append.2 (Or.inl hptid1)
    constructor
    · rw [hup]
      intro hcontra
      have h2 := List.mem_filter.1 hcontra
      exact of_decide_eq_true h2.2 (List.mem_append.2 (Or.inl hptid2))
    · intro hbad mt hmt
      have hsafe : ∀ rid2 rl2, pt.related_bank_transaction = rid2 :: rl2 →
          Returned.bankTransactionsById bts rid2 = none ∨
          ∃ bt2, Returned.bankTransactionsById bts rid2 = some bt2 ∧
            truthyNat bt2.transaction_link = true := by
        intro rid2 rl2 hrel2
        rw [hrel] at hrel2
        cases hrel2
        exact hbad
      have hs1nm := ret_step1_no_match bts pt hsafe
        (Returned.returnedPlatformTransactions pts) ⟨[], [], []⟩
        (fun mt2 hmt2 => absurd hmt2 (by simp))
      obtain ⟨hid2, hnomatch2⟩ := ret_step2_no_match _ pt _ _ s2 hstep2 hptid1 hs1nm
      rw [hm] at hmt
      rcases List.mem_append.1 hmt with hmt | hmt
      · exact hnomatch2 mt hmt
      · rcases hcase with ⟨hnm, _, _⟩ | hres
        · rw [hnm] at hmt
          cases hmt
        · have hpidex : ∃ pid, pts = [] ∧ pid = none ∨
              ∃ p0 l0, pts = p0 :: l0 ∧ pid = p0.player_id := by
            rcases pts with _ | ⟨p0, l0⟩
            · exact ⟨none, Or.inl ⟨rfl, rfl⟩⟩
            · exact ⟨p0.player_id, Or.inr ⟨p0, l0, rfl, rfl⟩⟩
          obtain ⟨pid, hpid⟩ := hpidex
          obtain ⟨k, grp, hg, hlen, hmemgrp, hids, huq, hbmem, bd, hbd, hpick⟩ :=
            ret_resolveUD_sound pts _ _ nm upids ubids pid hpid hres mt hmt
          have hgm := dupGroups_mem _ _ (k, grp) hg
          have hmem_upts :=
            (groupPtsBy_members _ _ k grp hgm.1 mt.platform_transaction hmemgrp).1
          intro hmtpt
          rw [hmtpt] at hmem_upts
          have h2 := List.mem_filter.1 hmem_upts
          exact of_decide_eq_true h2.2 hptid2
  · intro m0 res mfin pt rid rl hrun hmem hrel
    obtain ⟨m1, s2, nm, upids, ubids, ucp, hstep2, hm, hup, hub, hcase⟩ :=
      rec_run_cases m0 res mfin hrun
    obtain ⟨hptid1, _⟩ := rec_step1_direct m0.bank_transactions pt rid rl hrel
      (Received.receivedPlatformTransactions m0) ⟨[], [], [], []⟩ hmem
    obtain ⟨tm, tb, tp, hs2⟩ := rec_step2_append _ _ _ _ m1 s2 hstep2
    have hptid2 : pt.id ∈ s2.matched_platform_transaction_ids := by
      rw [hs2]
      exact List.mem_append.2 (Or.inl hptid1)
    constructor
    · rw [hup]
      intro hcontra
      have h2 := List.mem_filter.1 hcontra
      exact of_decide_eq_true h2.2 (List.mem_append.2 (Or.inl hptid2))
    · intro hbad mt hmt
      have hsafe : ∀ rid2 rl2, pt.related_bank_transaction = rid2 :: rl2 →
          Received.bankTransactionsById m0.bank_transactions rid2 = none ∨
          ∃ bt2, Received.bankTransactionsById m0.bank_transactions rid2 = some bt2 ∧
            truthyNat bt2.transaction_link = true := by
        intro rid2 rl2 hrel2
        rw [hrel] at hrel2
        cases hrel2
        exact hbad
      have hs1nm := rec_step1_no_match m0.bank_transactions pt hsafe
        (Received.receivedPlatformTransactions m0) ⟨[], [], [], []⟩
        (fun mt2 hmt2 => absurd hmt2 (by simp))
      obtain ⟨hid2, hnomatch2⟩ :=
        rec_step2_no_match _ pt _ _ _ m1 s2 hstep2 hptid1 hs1nm
      rw [hm] at hmt
      rcases List.mem_append.1 hmt with hmt | hmt
      · exact hnomatch2 mt hmt
      · rcases hcase with ⟨hnm, _, _, _⟩ | hres
        · rw [hnm] at hmt
          cases hmt
        · obtain ⟨k, grp, hg, hlen, hmemgrp, hids, huq, hbmem, bd, hbd, hpick, hcp⟩ :=
            rec_resolveUD_sound m1 _ _ nm upids ubids ucp hres mt hmt
          have hgm := dupGroups_mem _ _ (k, grp) hg
          have hmem_upts :=
            (groupPtsBy_members _ _ k grp hgm.1 mt.platform_transaction hmemgrp).1
          intro hmtpt
          rw [hmtpt] at hmem_upts
          have h2 := List.mem_filter.1 hmem_upts
          exact of_decide_eq_true h2.2 hptid2

unseal Rat.sub Rat.add Rat.mul Rat.inv Rat.ofScientific in
/-- Witness for C10: runs of both matchers on a platform transaction whose
direct link points at the absent bank record 9 — it is matched by nothing
yet reported unmatched by neither. -/
theorem c10_witness :
    (Cex.pt_direct_absent ∉ Cex.c10w_result.unmatched_platform_transactions ∧
     ((Returned.bankTransactionsById [Cex.bank7] 9 = none ∨
       ∃ bt, Returned.bankTransactionsById [Cex.bank7] 9 = some bt ∧
         truthyNat bt.transaction_link = true) →
      ∀ mt ∈ Cex.c10w_result.matches_list,
        mt.platform_transaction ≠ Cex.pt_direct_absent)) ∧
    (Cex.pt_rec_absent ∉ (Cex.m_rec_absent_run.1).unmatched_platform_transactions ∧
     ((Received.bankTransactionsById Cex.m_rec_absent.bank_transactions 9 = none ∨
       ∃ bt, Received.bankTransactionsById Cex.m_rec_absent.bank_transactions 9 = some bt ∧
         truthyNat bt.transaction_link = true) →
      ∀ mt ∈ (Cex.m_rec_absent_run.1).matches_list,
        mt.platform_transaction ≠ Cex.pt_rec_absent)) :=
  ⟨c10_linked_neither_list.1 [Cex.pt_direct_absent] [Cex.bank7]
     Returned.RETURNED_KEYWORDS Cex.c10w_result Cex.pt_direct_absent 9 [] (by rfl)
     (by rw [show Returned.returnedPlatformTransactions [Cex.pt_direct_absent] =
         [Cex.pt_direct_absent] from rfl]
         exact List.mem_cons_self _ _) rfl,
   c10_linked_neither_list.2 Cex.m_rec_absent Cex.m_rec_absent_run.1
     Cex.m_rec_absent_run.2 Cex.pt_rec_absent 9 [] (by rfl)
     (by rw [show Received.receivedPlatformTransactions Cex.m_rec_absent =
         [Cex.pt_rec_absent] from rfl]
         exact List.mem_cons_self _ _) rfl⟩

/-- C4 (amended): in the duplicate-group second pass of both matchers,
every emitted resolution match pairs exactly one member of one duplicate
group (the group's unique consumer) with an unmatched bank record —
preferring a member attributed to the counterpart user (in the returned
flavor only when the player id is truthy), else a member whose date is
closest to the bank record's date — but, contrary to the original claim,
the ids of ALL members of the fired group (chosen or not) are added to the
consumed set `used_pt_ids`, which the caller merges into the matched-id set
and uses to filter the unmatched platform output: the non-chosen members
are reported in neither the matches nor the unmatched list.  In the
received flavor the match additionally consumes an unclaimed checkbook
payment. -/
theorem c4_amended_duplicate_resolution :
    (∀ (all_pts upts : List PlatformTxn) (ubts : List BankTxn)
       (nm : List Returned.RMatch) (upids ubids : List Nat) (pid : Option Nat),
       (all_pts = [] ∧ pid = none ∨ ∃ p0 l0, all_pts = p0 :: l0 ∧ pid = p0.player_id) →
       Returned.resolveUnmatchedDuplicates all_pts upts ubts = some (nm, upids, ubids) →
       ∀ mt ∈ nm,
         ∃ k grp, (k, grp) ∈ duplicateGroupsBy Returned.groupKey upts ∧
           1 < grp.length ∧
           mt.platform_transaction ∈ grp ∧
           (∀ q ∈ grp, q.id ∈ upids) ∧
           (∀ mt' ∈ nm, mt'.platform_transaction ∈ grp →
             mt'.platform_transaction = mt.platform_transaction) ∧
           mt.bank_transaction ∈ ubts ∧
           ∃ bd, mt.bank_transaction.date = some bd ∧
             ((truthyNat pid = true ∧ mt.platform_transaction.added_by = pid) ∨
              ((∀ p ∈ grp, ¬(truthyNat pid = true ∧ p.added_by = pid)) ∧
               ∃ cd, mt.platform_transaction.date = some cd ∧
                 ∀ q ∈ grp, ∀ qd, q.date = some qd → |cd - bd| ≤ |qd - bd|))) ∧
    (∀ (m : Received.Matcher) (upts : List PlatformTxn) (ubts : List BankTxn)
       (nm : List Received.RecMatch) (upids ubids : List Nat) (ucp : UsedMap),
       Received.resolveUnmatchedDuplicates m upts ubts = some (nm, upids, ubids, ucp) →
       ∀ mt ∈ nm,
         ∃ k grp, (k, grp) ∈ duplicateGroupsBy Received.groupKey upts ∧
           1 < grp.length ∧
           mt.platform_transaction ∈ grp ∧
           (∀ q ∈ grp, q.id ∈ upids) ∧
           (∀ mt' ∈ nm, mt'.platform_transaction ∈ grp →
             mt'.platform_transaction = mt.platform_transaction) ∧
           mt.bank_transaction ∈ ubts ∧
           (∃ cp, mt.checkbook_payment = some cp ∧
             usedMapMem m.used_checkbook_payment_ids cp.id = false) ∧
           ∃ bd, mt.bank_transaction.date = some bd ∧
             (mt.platform_transaction.added_by = some m.user_id ∨
              ((∀ p ∈ grp, ¬ p.added_by = some m.user_id) ∧
               ∃ cd, mt.platform_transaction.date = some cd ∧
                 ∀ q ∈ grp, ∀ qd, q.date = some qd → |cd - bd| ≤ |qd - bd|))) := by
  constructor
  · intro all_pts upts ubts nm upids ubids pid hpid h mt hmt
    obtain ⟨k, grp, hg, hlen, hmem, hids, huq, hbmem, bd, hbd, hpick⟩ :=
      ret_resolveUD_sound all_pts upts ubts nm upids ubids pid hpid h mt hmt
    obtain ⟨_, hdecl⟩ := ret_pickCandidate_sound pid bd grp mt.platform_transaction hpick
    exact ⟨k, grp, hg, hlen, hmem, hids, huq, hbmem, bd, hbd, hdecl⟩
  · intro m upts ubts nm upids ubids ucp h mt hmt
    obtain ⟨k, grp, hg, hlen, hmem, hids, huq, hbmem, bd, hbd, hpick, cp, hcpeq, hcpf, hcpu⟩ :=
      rec_resolveUD_sound m upts ubts nm upids ubids ucp h mt hmt
    obtain ⟨_, hdecl⟩ := rec_pickCandidate_sound m bd grp mt.platform_transaction hpick
    exact ⟨k, grp, hg, hlen, hmem, hids, huq, hbmem, ⟨cp, hcpeq, hcpu⟩, bd, hbd, hdecl⟩

unseal Rat.sub Rat.add Rat.mul Rat.inv Rat.ofScientific in
/-- Witness for C4: concrete duplicate groups in both flavors.  The
attributed member (`dup_b`, `dup_rb`) is chosen, yet both members' ids land
in the consumed sets `c4_out.2.1` and `c4r_out.2.1`. -/
theorem c4_witness :
    (∃ k grp, (k, grp) ∈ duplicateGroupsBy Returned.groupKey [Cex.dup_a, Cex.dup_b] ∧
      1 < grp.length ∧
      Cex.dup_b ∈ grp ∧
      (∀ q ∈ grp, q.id ∈ Cex.c4_out.2.1) ∧
      (∀ mt' ∈ Cex.c4_out.1, mt'.platform_transaction ∈ grp →
        mt'.platform_transaction = Cex.dup_b) ∧
      Cex.bank_dup ∈ [Cex.bank_dup] ∧
      ∃ bd, Cex.bank_dup.date = some bd ∧
        ((truthyNat (some 777) = true ∧ Cex.dup_b.added_by = some 777) ∨
         ((∀ p ∈ grp, ¬(truthyNat (some 777) = true ∧ p.added_by = some 777)) ∧
          ∃ cd, Cex.dup_b.date = some cd ∧
            ∀ q ∈ grp, ∀ qd, q.date = some qd → |cd - bd| ≤ |qd - bd|))) ∧
    (∃ k grp, (k, grp) ∈ duplicateGroupsBy Received.groupKey [Cex.dup_ra, Cex.dup_rb] ∧
      1 < grp.length ∧
      Cex.dup_rb ∈ grp ∧
      (∀ q ∈ grp, q.id ∈ Cex.c4r_out.2.1) ∧
      (∀ mt' ∈ Cex.c4r_out.1, mt'.platform_transaction ∈ grp →
        mt'.platform_transaction = Cex.dup_rb) ∧
      Cex.bank_dupr ∈ [Cex.bank_dupr] ∧
      (∃ cp, (some Cex.cp_dupr : Option CheckbookPayment) = some cp ∧
        usedMapMem Cex.m_dupr.used_checkbook_payment_ids cp.id = false) ∧
      ∃ bd, Cex.bank_dupr.date = some bd ∧
        (Cex.dup_rb.added_by = some Cex.m_dupr.user_id ∨
         ((∀ p ∈ grp, ¬ p.added_by = some Cex.m_dupr.user_id) ∧
          ∃ cd, Cex.dup_rb.date = some cd ∧
            ∀ q ∈ grp, ∀ qd, q.date = some qd → |cd - bd| ≤ |qd - bd|))) :=
  ⟨c4_amended_duplicate_resolution.1 [Cex.dup_a, Cex.dup_b] [Cex.dup_a, Cex.dup_b]
     [Cex.bank_dup] Cex.c4_out.1 Cex.c4_out.2.1 Cex.c4_out.2.2 (some 777)
     (Or.inr ⟨Cex.dup_a, [Cex.dup_b], rfl, rfl⟩) (by rfl)
     ⟨Cex.dup_b, Cex.bank_dup, Returned.discoveredCriteria⟩
     (by rw [show Cex.c4_out.1 =
         [(⟨Cex.dup_b, Cex.bank_dup, Returned.discoveredCriteria⟩ : Returned.RMatch)]
         from rfl]
         exact List.mem_cons_self _ _),
   c4_amended_duplicate_resolution.2 Cex.m_dupr [Cex.dup_ra, Cex.dup_rb]
     [Cex.bank_dupr] Cex.c4r_out.1 Cex.c4r_out.2.1 Cex.c4r_out.2.2.1
     Cex.c4r_out.2.2.2 (by rfl)
     ⟨Cex.dup_rb, Cex.bank_dupr, some Cex.cp_dupr, Received.resolveCriteria⟩
     (by rw [show Cex.c4r_out.1 =
         [(⟨Cex.dup_rb, Cex.bank_dupr, some Cex.cp_dupr, Received.resolveCriteria⟩ :
           Received.RecMatch)] from rfl]
         exact List.mem_cons_self _ _)⟩

/-- Every candidate collected by the received Step-2 scan carries a bank
transaction whose id is not in the consumed set (consumed ids are skipped
before any further test). -/
lemma rec_collectCandidates_sound (m : Received.Matcher) (pt : PlatformTxn)
    (pa pd : ℚ) (matched_b matched_cp : List Nat) :
    ∀ (pots : List BankTxn) (cands : List Received.CandidateInfo),
      Received.collectCandidates m pt pa pd matched_b matched_cp pots = some cands →
      ∀ c ∈ cands, c.bank_transaction.id ∉ matched_b := by
  intro pots
  induction pots with
  | nil =>
    intro cands h c hc
    simp only [Received.collectCandidates] at h
    cases h
    cases hc
  | cons bt rest ih =>
    intro cands h c hc
    simp only [Received.collectCandidates] at h
    split at h
    · exact ih cands h c hc
    · rename_i hbt
      split at h
      · exact absurd h (by simp)
      · split at h
        · exact absurd h (by simp)
        · exact ih cands h c hc
        · rename_i cp hcp
          split at h
          · split at h
            · exact ih cands h c hc
            · rw [Option.map_eq_some'] at h
              obtain ⟨l, hl, hcands⟩ := h
              subst hcands
              rcases List.mem_cons.1 hc with rfl | hc2
              · exact hbt
              · exact ih l hl c hc2
          · exact ih cands h c hc

/-- The received Step-2 best-candidate selection returns a collected
candidate. -/
lemma rec_selectBest_mem (cands : List Received.CandidateInfo)
    (c : Received.CandidateInfo) (h : Received.selectBestCandidate cands = some c) :
    c ∈ cands := by
  simp only [Received.selectBestCandidate] at h
  split at h
  · exact (List.mem_filter.1 (firstMinBy_mem _ _ c h)).1
  · exact firstMinBy_mem _ _ c h

/-- Through Step 1 of the received matcher, with pairwise-distinct direct
link targets, the emitted matches consume pairwise distinct bank ids, each
recorded in the consumed-id accumulator. -/
lemma rec_step1_bank_inv (bts : List BankTxn) :
    ∀ (l : List PlatformTxn) (s : Received.RunState),
      (directLinkHeads l).Nodup →
      (∀ mt ∈ s.matches_list, ∀ r ∈ directLinkHeads l, mt.bank_transaction.id ≠ r) →
      s.matches_list.Pairwise (fun m1 m2 =>
        m1.bank_transaction.id ≠ m2.bank_transaction.id) →
      (∀ mt ∈ s.matches_list, mt.bank_transaction.id ∈ s.matched_bank_transaction_ids) →
      ((Received.step1 bts l s).matches_list.Pairwise (fun m1 m2 =>
        m1.bank_transaction.id ≠ m2.bank_transaction.id) ∧
       ∀ mt ∈ (Received.step1 bts l s).matches_list,
         mt.bank_transaction.id ∈ (Received.step1 bts l s).matched_bank_transaction_ids) := by
  intro l
  induction l with
  | nil =>
    intro s hnd havoid hpw hids
    simp only [Received.step1]
    exact ⟨hpw, hids⟩
  | cons pt rest ih =>
    intro s hnd havoid hpw hids
    rcases hrel : pt.related_bank_transaction with _ | ⟨rid, rl⟩
    · have hheads : directLinkHeads (pt :: rest) = directLinkHeads rest := by
        simp [directLinkHeads, List.filterMap_cons, hrel]
      have hstep : Received.step1 bts (pt :: rest) s = Received.step1 bts rest s := by
        simp only [Received.step1, hrel]
      rw [hstep]
      rw [hheads] at hnd havoid
      exact ih s hnd havoid hpw hids
    · have hheads : directLinkHeads (pt :: rest) = rid :: directLinkHeads rest := by
        simp [directLinkHeads, List.filterMap_cons, hrel]
      rw [hheads] at hnd havoid
      have hnd2 : (directLinkHeads rest).Nodup := (List.nodup_cons.1 hnd).2
      have hrid_not : rid ∉ directLinkHeads rest := (List.nodup_cons.1 hnd).1
      rcases hby : Received.bankTransactionsById bts rid with _ | bt0
      · have hstep : Received.step1 bts (pt :: rest) s = Received.step1 bts rest
            ⟨s.matches_list, s.matched_bank_transaction_ids,
             s.matched_platform_transaction_ids ++ [pt.id],
             s.matched_checkbook_payment_ids⟩ := by
          simp only [Received.step1, hrel, hby]
        rw [hstep]
        exact ih _ hnd2
          (fun mt hmt r hr => havoid mt hmt r (List.mem_cons_of_mem _ hr)) hpw hids
      · by_cases hlink : truthyNat bt0.transaction_link
        · have hstep : Received.step1 bts (pt :: rest) s = Received.step1 bts rest
              ⟨s.matches_list, s.matched_bank_transaction_ids,
               s.matched_platform_transaction_ids ++ [pt.id],
               s.matched_checkbook_payment_ids⟩ := by
            simp [Received.step1, hrel, hby, hlink]
          rw [hstep]
          exact ih _ hnd2
            (fun mt hmt r hr => havoid mt hmt r (List.mem_cons_of_mem _ hr)) hpw hids
        · have hbtid : bt0.id = rid := (rec_bankById_sound bts rid bt0 hby).1
          have hstep : Received.step1 bts (pt :: rest) s = Received.step1 bts rest
              ⟨s.matches_list ++ [⟨pt, bt0, none, Received.directCriteria⟩],
               s.matched_bank_transaction_ids ++ [bt0.id],
               s.matched_platform_transaction_ids ++ [pt.id],
               s.matched_checkbook_payment_ids⟩ := by
            simp [Received.step1, hrel, hby, hlink]
          rw [hstep]
          refine ih _ hnd2 ?_ ?_ ?_
          · intro mt hmt r hr
            rcases List.mem_append.1 hmt with hmt | hmt
            · exact havoid mt hmt r (List.mem_cons_of_mem _ hr)
            · rcases List.mem_singleton.1 hmt with rfl
              dsimp only
              rw [hbtid]
              intro hreq
              exact hrid_not (hreq ▸ hr)
          · rw [List.pairwise_append]
            refine ⟨hpw, List.pairwise_singleton _ _, ?_⟩
            intro m1 hm1 m2 hm2
            rcases List.mem_singleton.1 hm2 with rfl
            dsimp only
            rw [hbtid]
            exact havoid m1 hm1 rid (List.mem_cons_self _ _)
          · intro mt hmt
            rcases List.mem_append.1 hmt with hmt | hmt
            · exact List.mem_append.2 (Or.inl (hids mt hmt))
            · rcases List.mem_singleton.1 hmt with rfl
              exact List.mem_append.2 (Or.inr (by simp))

/-- Through Step 2 of the received matcher, matches keep pairwise distinct
bank ids, each recorded in the consumed-id accumulator (collected
candidates are only drawn from unconsumed ids). -/
lemma rec_step2_bank_inv (pots : List BankTxn) :
    ∀ (l : List PlatformTxn) (m : Received.Matcher) (s : Received.RunState)
      (m' : Received.Matcher) (s' : Received.RunState),
      Received.step2 pots l m s = some (m', s') →
      (s.matches_list.Pairwise (fun m1 m2 =>
        m1.bank_transaction.id ≠ m2.bank_transaction.id) ∧
       ∀ mt ∈ s.matches_list, mt.bank_transaction.id ∈ s.matched_bank_transaction_ids) →
      (s'.matches_list.Pairwise (fun m1 m2 =>
        m1.bank_transaction.id ≠ m2.bank_transaction.id) ∧
       ∀ mt ∈ s'.matches_list, mt.bank_transaction.id ∈ s'.matched_bank_transaction_ids) := by
  intro l
  induction l with
  | nil =>
    intro m s m' s' h hinv
    simp only [Received.step2] at h
    cases h
    exact hinv
  | cons pt rest ih =>
    intro m s m' s' h hinv
    simp only [Received.step2] at h
    split at h
    · exact ih _ _ _ _ h hinv
    · split at h
      · exact absurd h (by simp)
      · split at h
        · exact absurd h (by simp)
        · rename_i cands hcands
          split at h
          · exact ih _ _ _ _ h hinv
          · rename_i best hbest
            split at h
            · exact ih _ _ _ _ h hinv
            · have hbmem := rec_selectBest_mem cands best hbest
              have hnot := rec_collectCandidates_sound m pt _ _ _ _ pots cands
                hcands best hbmem
              obtain ⟨hpw, hids⟩ := hinv
              refine ih _ _ _ _ h ⟨?_, ?_⟩
              · rw [List.pairwise_append]
                refine ⟨hpw, List.pairwise_singleton _ _, ?_⟩
                intro m1 hm1 m2 hm2
                rcases List.mem_singleton.1 hm2 with rfl
                dsimp only
                intro hreq
                exact hnot (hreq ▸ hids m1 hm1)
              · intro mt hmt
                rcases List.mem_append.1 hmt with hmt | hmt
                · exact List.mem_append.2 (Or.inl (hids mt hmt))
                · rcases List.mem_singleton.1 hmt with rfl
                  exact List.mem_append.2 (Or.inr (by simp))

/-- `_resolve_unmatched_duplicates` (received flavor) consumes pairwise
distinct bank records drawn from the unmatched pool (each available record
fires at most once). -/
lemma rec_resolveUD_banks (m : Received.Matcher) (upts : List PlatformTxn)
    (ubts : List BankTxn) (nm : List Received.RecMatch)
    (upids ubids : List Nat) (ucp : UsedMap)
    (h : Received.resolveUnmatchedDuplicates m upts ubts = some (nm, upids, ubids, ucp)) :
    List.Sublist (nm.map (fun mt => mt.bank_transaction.id)) (ubts.map BankTxn.id) ∧
    ∀ mt ∈ nm, mt.bank_transaction ∈ ubts := by
  simp only [Received.resolveUnmatchedDuplicates] at h
  split at h
  · cases h
    exact ⟨by simp, by simp⟩
  · rw [Option.map_eq_some'] at h
    obtain ⟨sfin, hloop, hf⟩ := h
    rw [filter_not_mem_nil] at hloop
    simp only [Prod.mk.injEq] at hf
    obtain ⟨hnm, hup, hub, huc⟩ := hf
    subst hnm
    subst hup
    subst hub
    subst huc
    obtain ⟨extra, hmeq, hsub, hall⟩ :=
      rec_resolveLoop_sound m (duplicateGroupsBy Received.groupKey upts)
        ubts ⟨[], [], [], []⟩ sfin hloop
    have hextra : sfin.new_matches = extra := by simpa using hmeq
    rw [hextra]
    exact ⟨hsub, fun mt hmt => (hall mt hmt).1⟩

/-- C1 (amended): the at-most-one-consumer invariant does not hold
unconditionally (Step 1 of both matchers copies direct links without
consulting the run-scoped consumed sets).  For bank records it holds in
BOTH matchers under two distinctness conditions — the fetched bank records
carry pairwise distinct ids, and no two direct-linked platform
transactions of the run target the same bank id: then no two matches of a
successful returned (resp. received) run consume the same bank id.  For
processor (checkbook) payments the invariant holds unconditionally: no two
matches of a successful received run consume the same checkbook-payment
id. -/
theorem c1_amended_at_most_one_consumer :
    (∀ (pts : List PlatformTxn) (bts : List BankTxn) (kws : List String)
       (res : Returned.MatchResults),
       (bts.map BankTxn.id).Nodup →
       (directLinkHeads (Returned.returnedPlatformTransactions pts)).Nodup →
       Returned.matchReturnedTransactions pts bts kws = some res →
       res.matches_list.Pairwise (fun m1 m2 =>
         m1.bank_transaction.id ≠ m2.bank_transaction.id)) ∧
    (∀ (m0 : Received.Matcher) (res : Received.MatchResults) (mfin : Received.Matcher),
       (m0.bank_transactions.map BankTxn.id).Nodup →
       (directLinkHeads (Received.receivedPlatformTransactions m0)).Nodup →
       Received.matchReceivedTransactions m0 = some (res, mfin) →
       res.matches_list.Pairwise (fun m1 m2 =>
         m1.bank_transaction.id ≠ m2.bank_transaction.id)) ∧
    (∀ (m0 : Received.Matcher) (res : Received.MatchResults) (mfin : Received.Matcher),
       Received.matchReceivedTransactions m0 = some (res, mfin) →
       res.matches_list.Pairwise (fun m1 m2 => ∀ c1 c2,
         m1.checkbook_payment = some c1 → m2.checkbook_payment = some c2 →
         c1.id ≠ c2.id)) := by
  refine ⟨?_, ?_, ?_⟩
  · intro pts bts kws res hbnd hhnd hrun
    obtain ⟨s2, nm, upids, ubids, hstep2, hm, hup, hub, hcase⟩ :=
      ret_run_cases pts bts kws res hrun
    obtain ⟨hpw1, hids1⟩ := ret_step1_bank_inv bts
      (Returned.returnedPlatformTransactions pts) ⟨[], [], []⟩ hhnd
      (fun mt hmt => absurd hmt (by simp)) List.Pairwise.nil
      (fun mt hmt => absurd hmt (by simp))
    obtain ⟨hpw2, hids2⟩ := ret_step2_bank_inv _ _ _ s2 hstep2 ⟨hpw1, hids1⟩
    have hpots_sub : List.Sublist (Returned.potentialBankTransactions kws bts) bts := by
      simp only [Returned.potentialBankTransactions]
      exact List.filter_sublist _
    have hubts_sub : List.Sublist ((Returned.potentialBankTransactions kws bts).filter
        (fun bt => decide (bt.id ∉ s2.matched_bank_transaction_ids))) bts :=
      (List.filter_sublist _).trans hpots_sub
    have hnd_ubts : (((Returned.potentialBankTransactions kws bts).filter
        (fun bt => decide (bt.id ∉ s2.matched_bank_transaction_ids))).map BankTxn.id).Nodup :=
      List.Nodup.sublist (hubts_sub.map BankTxn.id) hbnd
    rw [hm, List.pairwise_append]
    refine ⟨hpw2, ?_, ?_⟩
    · rcases hcase with ⟨hnm, _, _⟩ | hres
      · rw [hnm]
        exact List.Pairwise.nil
      · obtain ⟨hsub, hbmem⟩ := ret_resolveUD_banks pts _ _ nm upids ubids hres
        have h2 : (nm.map (fun mt => mt.bank_transaction.id)).Pairwise
            (fun a b => a ≠ b) := List.Nodup.sublist hsub hnd_ubts
        exact List.pairwise_map.1 h2
    · intro m1 hm1 m2 hm2
      rcases hcase with ⟨hnm, _, _⟩ | hres
      · rw [hnm] at hm2
        cases hm2
      · obtain ⟨hsub, hbmem⟩ := ret_resolveUD_banks pts _ _ nm upids ubids hres
        have hb2 := hbmem m2 hm2
        have h2 := List.mem_filter.1 hb2
        intro heq
        exact of_decide_eq_true h2.2 (heq ▸ hids2 m1 hm1)
  · intro m0 res mfin hbnd hhnd hrun
    obtain ⟨m1, s2, nm, upids, ubids, ucp, hstep2, hm, hup, hub, hcase⟩ :=
      rec_run_cases m0 res mfin hrun
    obtain ⟨hpw1, hids1⟩ := rec_step1_bank_inv m0.bank_transactions
      (Received.receivedPlatformTransactions m0) ⟨[], [], [], []⟩ hhnd
      (fun mt hmt => absurd hmt (by simp)) List.Pairwise.nil
      (fun mt hmt => absurd hmt (by simp))
    obtain ⟨hpw2, hids2⟩ := rec_step2_bank_inv _ _ m0 _ m1 s2 hstep2 ⟨hpw1, hids1⟩
    have hpots_sub : List.Sublist (Received.potentialBankTransactions m0)
        m0.bank_transactions := by
      simp only [Received.potentialBankTransactions]
      exact List.filter_sublist _
    have hubts_sub : List.Sublist ((Received.potentialBankTransactions m0).filter
        (fun bt => decide (bt.id ∉ s2.matched_bank_transaction_ids)))
        m0.bank_transactions :=
      (List.filter_sublist _).trans hpots_sub
    have hnd_ubts : (((Received.potentialBankTransactions m0).filter
        (fun bt => decide (bt.id ∉ s2.matched_bank_transaction_ids))).map BankTxn.id).Nodup :=
      List.Nodup.sublist (hubts_sub.map BankTxn.id) hbnd
    rw [hm, List.pairwise_append]
    refine ⟨hpw2, ?_, ?_⟩
    · rcases hcase with ⟨hnm, _, _, _⟩ | hres
      · rw [hnm]
        exact List.Pairwise.nil
      · obtain ⟨hsub, hbmem⟩ := rec_resolveUD_banks m1 _ _ nm upids ubids ucp hres
        have h2 : (nm.map (fun mt => mt.bank_transaction.id)).Pairwise
            (fun a b => a ≠ b) := List.Nodup.sublist hsub hnd_ubts
        exact List.pairwise_map.1 h2
    · intro m1m hm1 m2m hm2
      rcases hcase with ⟨hnm, _, _, _⟩ | hres
      · rw [hnm] at hm2
        cases hm2
      · obtain ⟨hsub, hbmem⟩ := rec_resolveUD_banks m1 _ _ nm upids ubids ucp hres
        have hb2 := hbmem m2m hm2
        have h2 := List.mem_filter.1 hb2
        intro heq
        exact of_decide_eq_true h2.2 (heq ▸ hids2 m1m hm1)
  · intro m0 res mfin hrun
    obtain ⟨m1, s2, nm, upids, ubids, ucp, hstep2, hm, hup, hub, hcase⟩ :=
      rec_run_cases m0 res mfin hrun
    obtain ⟨tm, tb, tp, hs1eq, hcpnone⟩ := rec_step1_append m0.bank_transactions
      (Received.receivedPlatformTransactions m0) ⟨[], [], [], []⟩
    have hinv1 : ∀ mt ∈ (Received.step1 m0.bank_transactions
        (Received.receivedPlatformTransactions m0) ⟨[], [], [], []⟩).matches_list,
        ∀ c, mt.checkbook_payment = some c →
          usedMapMem m0.used_checkbook_payment_ids c.id = true := by
      intro mt hmt c hc
      rw [hs1eq] at hmt
      have hnone : mt.checkbook_payment = none := hcpnone mt (by simpa using hmt)
      rw [hnone] at hc
      cases hc
    have hpw1 : (Received.step1 m0.bank_transactions
        (Received.receivedPlatformTransactions m0) ⟨[], [], [], []⟩).matches_list.Pairwise
        (fun m1 m2 => ∀ c1 c2, m1.checkbook_payment = some c1 →
          m2.checkbook_payment = some c2 → c1.id ≠ c2.id) := by
      apply pairwise_of_all
      intro a ha b hb c1 c2 hc1 hc2
      rw [hs1eq] at ha
      have hnone : a.checkbook_payment = none := hcpnone a (by simpa using ha)
      rw [hnone] at hc1
      cases hc1
    obtain ⟨hrec2, hpw2⟩ := rec_step2_cp_inv _ _ m0 _ m1 s2 hstep2 ⟨hinv1, hpw1⟩
    rw [hm, List.pairwise_append]
    refine ⟨hpw2, ?_, ?_⟩
    · rcases hcase with ⟨hnm, _, _, _⟩ | hres
      · rw [hnm]
        exact List.Pairwise.nil
      · exact (rec_resolveUD_cp m1 _ _ nm upids ubids ucp hres).1
    · intro ma hma mb hmb c1 c2 hc1 hc2
      rcases hcase with ⟨hnm, _, _, _⟩ | hres
      · rw [hnm] at hmb
        cases hmb
      · have hfalse := (rec_resolveUD_cp m1 _ _ nm upids ubids ucp hres).2 mb hmb c2 hc2
        have htrue := hrec2 ma hma c1 hc1
        intro hideq
        rw [hideq] at htrue
        rw [htrue] at hfalse
        cases hfalse

unseal Rat.sub Rat.add Rat.mul Rat.inv Rat.ofScientific in
/-- Witness for C1: the single-link returned run and a received run that
consumes one bank record and one checkbook payment all satisfy the amended
invariant, with the distinctness hypotheses discharged concretely. -/
theorem c1_witness :
    Cex.c1w_result.matches_list.Pairwise (fun m1 m2 =>
      m1.bank_transaction.id ≠ m2.bank_transaction.id) ∧
    (Cex.m8_good_run.1).matches_list.Pairwise (fun m1 m2 =>
      m1.bank_transaction.id ≠ m2.bank_transaction.id) ∧
    (Cex.m8_good_run.1).matches_list.Pairwise (fun m1 m2 => ∀ c1 c2,
      m1.checkbook_payment = some c1 → m2.checkbook_payment = some c2 →
      c1.id ≠ c2.id) :=
  ⟨c1_amended_at_most_one_consumer.1 [Cex.pt_direct_a] [Cex.bank7]
     Returned.RETURNED_KEYWORDS Cex.c1w_result (by decide) (by decide) (by rfl),
   c1_amended_at_most_one_consumer.2.1 Cex.m8_good Cex.m8_good_run.1
     Cex.m8_good_run.2 (by decide) (by decide) (by rfl),
   c1_amended_at_most_one_consumer.2.2 Cex.m8_good Cex.m8_good_run.1
     Cex.m8_good_run.2 (by rfl)⟩
